import Mathlib

/-!
# FancyZones work-area registry and drag session

A shallow embedding of `MonitorWorkAreaHandler.cpp` and of `WindowMoveHandler.cpp`
(PowerToys, FancyZonesLib).

* `std::unordered_map<K, V>` is a list of `(key, value)` pairs searched from
  the front; the list order stands for the (unspecified) iteration order.
* `winrt::com_ptr<IWorkArea>` is `Option Nat`: `none` is `nullptr`, `some i`
  is a handle on the WorkArea object `i`.
* `GUID`, `HMONITOR` and `HWND` are natural numbers, `NULL` being `0`.
* The drag session is a `World`: the data members of `WindowMoveHandler`, the static
  latch of the elevation warning, the attributes of the windows, and the log of the
  calls made on the work areas and the other collaborators.
* What the system and the collaborators answer during one call of the handler is a
  `System`; the handler runs on one thread, so the answers do not change during a call.
* The self-recursion of `MoveSizeUpdate` is bounded by a fuel argument, the result
  being `none` when the recursion goes deeper.
-/

namespace FancyZones

/-- GUID of a virtual desktop. -/
abbrev GUID := Nat

/-- HMONITOR handle of a monitor, `NULL` being `0`. -/
abbrev HMONITOR := Nat

/-- HWND handle of a window, `nullptr` being `0`. -/
abbrev HWND := Nat

/-- NULL monitor handle: the key of the work area spanning all monitors. -/
def NULL : HMONITOR := 0

/-- Handle `winrt::com_ptr<IWorkArea>`; `none` is the empty handle. -/
abbrev WorkAreaPtr := Option Nat

/-- Screen point `POINT`. -/
structure POINT where
  x : Int
  y : Int
deriving DecidableEq, Repr

/-! ## `std::unordered_map` -/

/-- Member `find` of `std::unordered_map`: the value stored under `key`, or `none` for `end()`. -/
def mapFind {V : Type} : List (Nat × V) → Nat → Option V
  | [], _ => none
  | (k, v) :: rest, key => if k = key then some v else mapFind rest key

/-- Member `contains` of `std::unordered_map`. -/
def mapContains {V : Type} (m : List (Nat × V)) (key : Nat) : Bool :=
  (mapFind m key).isSome

/-- Assignment `m[key] = v`: overwrites the stored value, or inserts a new element. -/
def mapAssign {V : Type} : List (Nat × V) → Nat → V → List (Nat × V)
  | [], key, v => [(key, v)]
  | (k, w) :: rest, key, v =>
    if k = key then (k, v) :: rest else (k, w) :: mapAssign rest key v

/-- Read access `m[key]`: the stored value and the map, a value-initialised element `dflt`
being inserted first when the key is absent. -/
def mapSubscript {V : Type} (m : List (Nat × V)) (key : Nat) (dflt : V) : V × List (Nat × V) :=
  match mapFind m key with
  | some v => (v, m)
  | none => (dflt, mapAssign m key dflt)

/-- Keys of the elements of a map, in iteration order. -/
def mapKeys {V : Type} (m : List (Nat × V)) : List Nat :=
  m.map Prod.fst

/-! ## `MonitorWorkAreaHandler` -/

/-- Per-desktop data `std::unordered_map<HMONITOR, winrt::com_ptr<IWorkArea>>`. -/
abbrev PerDesktopData := List (HMONITOR × WorkAreaPtr)

/-- Member `workAreaMap` of `MonitorWorkAreaHandler`: desktop to per-desktop data. -/
abbrev WorkAreaMap := List (GUID × PerDesktopData)

/-- `MonitorWorkAreaHandler::GetWorkArea(const GUID&, HMONITOR)`. -/
def GetWorkArea (workAreaMap : WorkAreaMap) (desktopId : GUID) (monitor : HMONITOR) :
    WorkAreaPtr :=
  match mapFind workAreaMap desktopId with
  | some perDesktopData =>
    match mapFind perDesktopData monitor with
    | some workArea => workArea
    | none => none
  | none => none

/-- `MonitorWorkAreaHandler::GetWorkAreaFromCursor`. `GetCursorPos` is the outcome of the
system call (`none` when it fails), `MonitorFromPoint` the system's point-to-monitor map with
`MONITOR_DEFAULTTONULL`. -/
def GetWorkAreaFromCursor (GetCursorPos : Option POINT) (MonitorFromPoint : POINT → HMONITOR)
    (workAreaMap : WorkAreaMap) (desktopId : GUID) : WorkAreaPtr :=
  let allMonitorsWorkArea := GetWorkArea workAreaMap desktopId NULL
  if allMonitorsWorkArea.isSome then
    allMonitorsWorkArea
  else
    match GetCursorPos with
    | none => none
    | some cursorPoint => GetWorkArea workAreaMap desktopId (MonitorFromPoint cursorPoint)

/-- `MonitorWorkAreaHandler::GetWorkArea(HWND, const GUID&)`. `MonitorFromWindow` is the
system's window-to-monitor map with `MONITOR_DEFAULTTONULL`. -/
def GetWorkAreaFromWindow (MonitorFromWindow : HWND → HMONITOR)
    (workAreaMap : WorkAreaMap) (window : HWND) (desktopId : GUID) : WorkAreaPtr :=
  let allMonitorsWorkArea := GetWorkArea workAreaMap desktopId NULL
  if allMonitorsWorkArea.isSome then
    allMonitorsWorkArea
  else
    let monitor := MonitorFromWindow window
    GetWorkArea workAreaMap desktopId monitor

/-- `MonitorWorkAreaHandler::GetWorkAreasByDesktopId`: the returned map and the registry
after the call. -/
def GetWorkAreasByDesktopId (workAreaMap : WorkAreaMap) (desktopId : GUID) :
    PerDesktopData × WorkAreaMap :=
  if mapContains workAreaMap desktopId then
    mapSubscript workAreaMap desktopId []
  else
    ([], workAreaMap)

/-- `MonitorWorkAreaHandler::GetAllWorkAreas`: every per-desktop map is appended to the
result vector by the back inserter. -/
def GetAllWorkAreas (workAreaMap : WorkAreaMap) : List WorkAreaPtr :=
  workAreaMap.foldl
    (fun workAreas entry => workAreas ++ entry.2.map (fun item => item.2)) []

/-- `MonitorWorkAreaHandler::AddWorkArea`: the registry after the call and the caller's handle
variable after the call. The handle is passed by reference and moved into the map, which
leaves the caller's variable empty. -/
def AddWorkArea (workAreaMap : WorkAreaMap) (desktopId : GUID) (monitor : HMONITOR)
    (workArea : WorkAreaPtr) : WorkAreaMap × WorkAreaPtr :=
  let workAreaMap1 :=
    if !mapContains workAreaMap desktopId then mapAssign workAreaMap desktopId []
    else workAreaMap
  let (perDesktopData, workAreaMap2) := mapSubscript workAreaMap1 desktopId []
  (mapAssign workAreaMap2 desktopId (mapAssign perDesktopData monitor workArea), none)

/-- `MonitorWorkAreaHandler::IsNewWorkArea`: the answer and the registry after the call. -/
def IsNewWorkArea (workAreaMap : WorkAreaMap) (desktopId : GUID) (monitor : HMONITOR) :
    Bool × WorkAreaMap :=
  if mapContains workAreaMap desktopId then
    let (perDesktopData, workAreaMap1) := mapSubscript workAreaMap desktopId []
    if mapContains perDesktopData monitor then (false, workAreaMap1) else (true, workAreaMap1)
  else
    (true, workAreaMap)

/-- First loop of `RegisterUpdates`: walks `workAreaMap`, erasing the desktops that are not in
the set `activeVirtualDesktops` and removing from the set the desktops that are in the map.
Returns the map and the set after the loop. -/
def registerUpdatesLoop : WorkAreaMap → List GUID → WorkAreaMap × List GUID
  | [], activeVirtualDesktops => ([], activeVirtualDesktops)
  | (desktopId, perDesktopData) :: rest, activeVirtualDesktops =>
    if desktopId ∈ activeVirtualDesktops then
      let r := registerUpdatesLoop rest (activeVirtualDesktops.erase desktopId)
      ((desktopId, perDesktopData) :: r.1, r.2)
    else
      registerUpdatesLoop rest activeVirtualDesktops

/-- `MonitorWorkAreaHandler::RegisterUpdates`. The `std::unordered_set` built from `active`
is the list `active.dedup`. -/
def RegisterUpdates (workAreaMap : WorkAreaMap) (active : List GUID) : WorkAreaMap :=
  let activeVirtualDesktops := active.dedup
  let r := registerUpdatesLoop workAreaMap activeVirtualDesktops
  r.2.foldl (fun m id => mapAssign m id []) r.1

/-- `MonitorWorkAreaHandler::Clear`. -/
def Clear (_workAreaMap : WorkAreaMap) : WorkAreaMap := []

/-- A call on the registry. -/
inductive RegistryCall where
  | addWorkArea (desktopId : GUID) (monitor : HMONITOR) (workArea : WorkAreaPtr)
  | registerUpdates (active : List GUID)
  | clear
deriving DecidableEq, Repr

/-- Effect of one call on the registry. -/
def applyCall (workAreaMap : WorkAreaMap) : RegistryCall → WorkAreaMap
  | .addWorkArea desktopId monitor workArea =>
    (AddWorkArea workAreaMap desktopId monitor workArea).1
  | .registerUpdates active => RegisterUpdates workAreaMap active
  | .clear => Clear workAreaMap

/-- Effect of a sequence of calls, first call first. -/
def applyCalls (workAreaMap : WorkAreaMap) (calls : List RegistryCall) : WorkAreaMap :=
  calls.foldl applyCall workAreaMap

/-- The registry holds the handle `workArea` under exactly the pair `(desktopId, monitor)`. -/
def HasEntry (workAreaMap : WorkAreaMap) (desktopId : GUID) (monitor : HMONITOR)
    (workArea : WorkAreaPtr) : Prop :=
  ∃ perDesktopData, mapFind workAreaMap desktopId = some perDesktopData ∧
    mapFind perDesktopData monitor = some workArea

/-- Keys are unique in the map of desktops and in every per-desktop map, as they are in a
`std::unordered_map`. -/
def UniqueKeys (workAreaMap : WorkAreaMap) : Prop :=
  (mapKeys workAreaMap).Nodup ∧ ∀ entry ∈ workAreaMap, (mapKeys entry.2).Nodup

/-! ## `WindowMoveHandler` -/

/-- Settings read through `m_settings->GetSettings()`. -/
structure Settings where
  shiftDrag : Bool
  mouseSwitch : Bool
  showZonesOnAllMonitors : Bool
  makeDraggedWindowTransparent : Bool
  restoreSize : Bool
deriving DecidableEq, Repr

/-- Traits `m_draggedWindowInfo` captured at drag start. -/
structure WindowInfo where
  hasNoVisibleOwner : Bool
  isStandardWindow : Bool
deriving DecidableEq, Repr

/-- Saved attributes `m_windowTransparencyProperties`. -/
structure WindowTransparencyProperties where
  draggedWindow : HWND
  draggedWindowExstyle : Nat
  draggedWindowCrKey : Nat
  draggedWindowDwFlags : Nat
  draggedWindowInitialAlpha : Nat
deriving DecidableEq, Repr

/-- Data members of `WindowMoveHandler`. The hook and key-state members are recorded by
whether they are enabled; what a key state reads comes from the system. -/
structure WindowMoveHandler where
  m_mouseState : Bool
  m_mouseHookEnabled : Bool
  m_shiftKeyStateEnabled : Bool
  m_ctrlKeyStateEnabled : Bool
  m_draggedWindowInfo : WindowInfo
  m_inDragging : Bool
  m_draggedWindow : HWND
  m_draggedWindowWorkArea : WorkAreaPtr
  m_dragEnabled : Bool
  m_windowTransparencyProperties : WindowTransparencyProperties
deriving DecidableEq, Repr

/-- `WindowMoveHandler::UpdateDragState`; `shiftKeyState` is what
`m_shiftKeyState.state()` reads. -/
def UpdateDragState (settings : Settings) (shiftKeyState : Bool) (self : WindowMoveHandler) :
    WindowMoveHandler :=
  if settings.shiftDrag then
    { self with m_dragEnabled := xor shiftKeyState self.m_mouseState }
  else
    { self with m_dragEnabled := !(xor shiftKeyState self.m_mouseState) }


/-! ### The system around the handler -/

/-- Methods of `IWorkArea` that the handler invokes through a handle. -/
inductive WorkAreaCall where
  | MoveSizeEnter (window : HWND)
  | MoveSizeUpdate (ptScreen : POINT) (dragEnabled : Bool) (selectManyZonesState : Bool)
  | MoveSizeEnd (window : HWND) (ptScreen : POINT)
  | ShowZoneWindow
  | HideZoneWindow
  | ClearSelectedZones
  | ZoneSet
  | UniqueId
deriving DecidableEq, Repr

/-- Window properties of `ZonedWindowProperties` that the handler removes. -/
inductive ZonedWindowProperty where
  | PropertyRestoreSizeID
  | PropertyMultipleZoneID
deriving DecidableEq, Repr

/-- What the handler does to its collaborators, in the order it does it. A call through an
empty handle is recorded with receiver `none`: the program dereferences a null pointer
there and does not go on, so what follows such an effect in a log describes no run of the
program. -/
inductive Effect where
  | workArea (receiver : WorkAreaPtr) (call : WorkAreaCall)
  | DismissWindow (zoneSet : Nat) (window : HWND)
  | show_toast_with_activations
  | RemoveProp (window : HWND) (property : ZonedWindowProperty)
  | RestoreWindowSize (window : HWND)
  | RemoveAppLastZone (window : HWND) (uniqueId : Nat) (zoneSetId : Nat)
deriving DecidableEq, Repr

/-- Layered-window attributes of a window: colour key, alpha and flags. -/
structure LayeredWindowAttributes where
  crKey : Nat
  alpha : Nat
  flags : Nat
deriving DecidableEq, Repr

/-- Attributes of a window that the handler reads and writes: the extended style
(`GWL_EXSTYLE`) and the layered-window attributes set with `SetLayeredWindowAttributes`,
`none` when there are none, in which case `GetLayeredWindowAttributes` fails for the
window. -/
structure WindowAttributes where
  exstyle : Nat
  layered : Option LayeredWindowAttributes
deriving DecidableEq, Repr

/-- Answers of the system and of the collaborators during one call of the handler: the
settings, the window and cursor queries, the elevation checks, the key states and the
accessors of the work areas and zone sets. -/
structure System where
  settings : Settings
  IsCandidateForZoning : HWND → Bool
  GetCursorInfo : Option Nat
  LoadCursor : Nat → Nat
  HasNoVisibleOwner : HWND → Bool
  IsStandardWindow : HWND → Bool
  IsWindowMaximized : HWND → Bool
  is_process_elevated : Bool
  IsProcessOfWindowElevated : HWND → Bool
  is_toast_disabled : Bool
  shiftKeyState : Bool
  ctrlKeyState : Bool
  MonitorFromWindow : HWND → HMONITOR
  ZoneSet : Nat → Option Nat
  ZoneSetId : Nat → Nat
  StringFromCLSID : Nat → Option Nat
  UniqueId : Nat → Nat

/-- State of the process as far as the handler goes: its data members, the static latch
`warning_shown` of `WarnIfElevationIsRequired`, the attributes of the windows, and the
effects so far, oldest first. -/
structure World where
  self : WindowMoveHandler
  warning_shown : Bool
  windows : List (HWND × WindowAttributes)
  log : List Effect
deriving DecidableEq, Repr

/-- Cursor identifier `IDC_SIZENS`. -/
def IDC_SIZENS : Nat := 32645

/-- Cursor identifier `IDC_SIZEWE`. -/
def IDC_SIZEWE : Nat := 32644

/-- Cursor identifier `IDC_SIZENESW`. -/
def IDC_SIZENESW : Nat := 32643

/-- Cursor identifier `IDC_SIZENWSE`. -/
def IDC_SIZENWSE : Nat := 32642

/-- Extended window style `WS_EX_LAYERED`. -/
def WS_EX_LAYERED : Nat := 0x00080000

/-- Layered-window flag `LWA_ALPHA`. -/
def LWA_ALPHA : Nat := 2

/-- `WindowMoveHandlerUtils::IsCursorTypeIndicatingSizeEvent`. -/
def IsCursorTypeIndicatingSizeEvent (sys : System) : Bool :=
  match sys.GetCursorInfo with
  | some hCursor =>
    if sys.LoadCursor IDC_SIZENS = hCursor then true
    else if sys.LoadCursor IDC_SIZEWE = hCursor then true
    else if sys.LoadCursor IDC_SIZENESW = hCursor then true
    else if sys.LoadCursor IDC_SIZENWSE = hCursor then true
    else false
  | none => false

/-- A call `receiver->call` of a work-area method. The call is recorded also when the
receiver is empty; the definitions go on after it, the program does not. What is stated
about a call of the handler either excludes that an empty handle is reached, or is about
what comes before it. -/
def invoke (w : World) (receiver : WorkAreaPtr) (call : WorkAreaCall) : World :=
  { w with log := w.log ++ [Effect.workArea receiver call] }

/-- An effect on a collaborator other than a work area. -/
def perform (w : World) (effect : Effect) : World :=
  { w with log := w.log ++ [effect] }

/-- Attributes of a window; a window the system has no record of has no extended style and
no layered attributes. -/
def getWindowAttributes (windows : List (HWND × WindowAttributes)) (window : HWND) :
    WindowAttributes :=
  (mapFind windows window).getD ⟨0, none⟩

/-- Whether an extended style has the bit of `WS_EX_LAYERED`, which is bit 19. -/
def hasLayeredStyle (exstyle : Nat) : Bool :=
  exstyle.testBit 19

/-- System call `SetWindowLong(window, GWL_EXSTYLE, exstyle)`, as documented: the extended
style is replaced, and a window that does not have the style `WS_EX_LAYERED` afterwards is
not layered, so it has no layered attributes. -/
def SetWindowLong (windows : List (HWND × WindowAttributes)) (window : HWND)
    (exstyle : Nat) : List (HWND × WindowAttributes) :=
  mapAssign windows window
    ⟨exstyle,
      if hasLayeredStyle exstyle then (getWindowAttributes windows window).layered else none⟩

/-- System call `GetLayeredWindowAttributes(window, ...)`, as documented: the layered
attributes that were set for the window, `none` when the call fails because none were. -/
def GetLayeredWindowAttributes (windows : List (HWND × WindowAttributes)) (window : HWND) :
    Option LayeredWindowAttributes :=
  (getWindowAttributes windows window).layered

/-- System call `SetLayeredWindowAttributes(window, crKey, alpha, flags)`, as documented:
the layered attributes of a window with the style `WS_EX_LAYERED` are set; for any other
window the call fails and changes nothing. -/
def SetLayeredWindowAttributes (windows : List (HWND × WindowAttributes)) (window : HWND)
    (attributes : LayeredWindowAttributes) : List (HWND × WindowAttributes) :=
  if hasLayeredStyle (getWindowAttributes windows window).exstyle then
    mapAssign windows window ⟨(getWindowAttributes windows window).exstyle, some attributes⟩
  else windows

/-- Loop `for (auto [keyMonitor, workArea] : workAreaMap) if (workArea)
workArea->HideZoneWindow();`. -/
def hideZoneWindows (workAreaMap : PerDesktopData) (w : World) : World :=
  workAreaMap.foldl
    (fun w entry => if entry.2.isSome then invoke w entry.2 WorkAreaCall.HideZoneWindow else w) w

/-- Loop of `MoveSizeStart` that shows the zone window of every work area other than the
one that was entered. -/
def showOtherZoneWindows (workAreaMap : PerDesktopData) (w : World) : World :=
  workAreaMap.foldl
    (fun w entry =>
      let moveSizeEnterCalled := decide (entry.2 = w.self.m_draggedWindowWorkArea)
      if entry.2.isSome && !moveSizeEnterCalled then
        invoke w entry.2 WorkAreaCall.ShowZoneWindow
      else w) w

/-- Loop of `MoveSizeUpdate` that forwards the update to every entry of the map. The loop
does not test the handle: at an entry with an empty handle the call goes through it, where
the program stops (see `invoke`). -/
def forwardMoveSizeUpdate (sys : System) (ptScreen : POINT) (workAreaMap : PerDesktopData)
    (w : World) : World :=
  workAreaMap.foldl
    (fun w entry =>
      invoke w entry.2
        (WorkAreaCall.MoveSizeUpdate ptScreen w.self.m_dragEnabled sys.ctrlKeyState)) w

/-- `WindowMoveHandler::SetWindowTransparency`: the extended style is read and saved, the
style `WS_EX_LAYERED` is added, the layered attributes are read into the snapshot (the
members keep their values when the read fails, its result is not looked at), and the
window is made half transparent. -/
def SetWindowTransparency (sys : System) (window : HWND) (w : World) : World :=
  if sys.settings.makeDraggedWindowTransparent then
    let exstyle := (getWindowAttributes w.windows window).exstyle
    let properties1 :=
      { w.self.m_windowTransparencyProperties with
        draggedWindowExstyle := exstyle
        draggedWindow := window }
    let windows1 := SetWindowLong w.windows window (exstyle ||| WS_EX_LAYERED)
    let properties2 :=
      match GetLayeredWindowAttributes windows1 window with
      | some layered =>
        { properties1 with
          draggedWindowCrKey := layered.crKey
          draggedWindowInitialAlpha := layered.alpha
          draggedWindowDwFlags := layered.flags }
      | none => properties1
    { w with
      self := { w.self with m_windowTransparencyProperties := properties2 }
      windows := SetLayeredWindowAttributes windows1 window
        ⟨0, (255 * 50) / 100, LWA_ALPHA⟩ }
  else w

/-- `WindowMoveHandler::ResetWindowTransparency`: the layered attributes of the snapshot
are written to the window, then its extended style, and the snapshot is emptied. -/
def ResetWindowTransparency (sys : System) (w : World) : World :=
  let properties := w.self.m_windowTransparencyProperties
  if sys.settings.makeDraggedWindowTransparent && properties.draggedWindow != 0 then
    let windows1 := SetLayeredWindowAttributes w.windows properties.draggedWindow
      ⟨properties.draggedWindowCrKey, properties.draggedWindowInitialAlpha,
        properties.draggedWindowDwFlags⟩
    { w with
      self := { w.self with
        m_windowTransparencyProperties := { properties with draggedWindow := 0 } }
      windows := SetWindowLong windows1 properties.draggedWindow
        properties.draggedWindowExstyle }
  else w

/-- `WindowMoveHandler::WarnIfElevationIsRequired`. -/
def WarnIfElevationIsRequired (sys : System) (window : HWND) (w : World) : World :=
  if !sys.is_process_elevated && sys.IsProcessOfWindowElevated window then
    let w1 := { w with self := { w.self with m_dragEnabled := false } }
    if !w1.warning_shown && !sys.is_toast_disabled then
      { perform w1 Effect.show_toast_with_activations with warning_shown := true }
    else w1
  else w

/-- Tail of `MoveSizeStart`: the work area of the monitor is asked for its zone set, which
forgets the window. The handle is not tested before `ZoneSet` is called through it; the
program stops there when it is empty (see `invoke`). -/
def dismissWindow (sys : System) (window : HWND) (monitor : HMONITOR)
    (workAreaMap : PerDesktopData) (w : World) : World :=
  match mapFind workAreaMap monitor with
  | some workAreaPtr =>
    let w1 := invoke w workAreaPtr WorkAreaCall.ZoneSet
    match workAreaPtr.bind sys.ZoneSet with
    | some zoneSet => perform w1 (Effect.DismissWindow zoneSet window)
    | none => w1
  | none => w

/-- `WindowMoveHandler::MoveSizeStart`. The handle stored for the monitor is not tested
before `MoveSizeEnter` is called through it; the program stops there when it is empty (see
`invoke`). -/
def MoveSizeStart (sys : System) (window : HWND) (monitor : HMONITOR) (_ptScreen : POINT)
    (workAreaMap : PerDesktopData) (w : World) : World :=
  if !sys.IsCandidateForZoning window || IsCursorTypeIndicatingSizeEvent sys then w
  else
    let w1 := { w with self := { w.self with
      m_draggedWindowInfo := ⟨sys.HasNoVisibleOwner window, sys.IsStandardWindow window⟩
      m_inDragging := true } }
    match mapFind workAreaMap monitor with
    | none => w1
    | some iterSecond =>
      let w2 := { w1 with self := { w1.self with m_draggedWindow := window } }
      let w3 :=
        if sys.settings.mouseSwitch then
          { w2 with self := { w2.self with m_mouseHookEnabled := true } }
        else w2
      let w4 := { w3 with self := { w3.self with
        m_shiftKeyStateEnabled := true
        m_ctrlKeyStateEnabled := true } }
      let w5 := { w4 with self := UpdateDragState sys.settings sys.shiftKeyState w4.self }
      let w6 := WarnIfElevationIsRequired sys window w5
      let w7 :=
        if w6.self.m_dragEnabled then
          let w61 := { w6 with self := { w6.self with m_draggedWindowWorkArea := iterSecond } }
          let w62 := SetWindowTransparency sys w61.self.m_draggedWindow w61
          let w63 := invoke w62 w62.self.m_draggedWindowWorkArea
            (WorkAreaCall.MoveSizeEnter w62.self.m_draggedWindow)
          if sys.settings.showZonesOnAllMonitors then showOtherZoneWindows workAreaMap w63
          else w63
        else if w6.self.m_draggedWindowWorkArea.isSome then
          let w61 := ResetWindowTransparency sys w6
          let w62 := { w61 with self := { w61.self with m_draggedWindowWorkArea := none } }
          hideZoneWindows workAreaMap w62
        else w6
      dismissWindow sys window monitor workAreaMap w7

/-- `WindowMoveHandler::MoveSizeUpdate`. The first argument bounds the depth of the
self-recursion: `fuel + 1` allows `fuel` nested calls, and the result is `none` when the
recursion goes deeper. The handle of the monitor is not tested before the `MoveSizeEnter` of
a hand-off, nor are the handles in the forwarding loop; the program stops at an empty one
(see `invoke`). -/
def MoveSizeUpdate : Nat → System → HMONITOR → POINT → PerDesktopData → World → Option World
  | 0, _, _, _, _, _ => none
  | fuel + 1, sys, monitor, ptScreen, workAreaMap, w =>
    if !w.self.m_inDragging then some w
    else
      let w1 := { w with self := UpdateDragState sys.settings sys.shiftKeyState w.self }
      if w1.self.m_draggedWindowWorkArea.isSome then
        if !w1.self.m_dragEnabled then
          let w2 := { w1 with self := { w1.self with m_draggedWindowWorkArea := none } }
          let w3 := ResetWindowTransparency sys w2
          some (hideZoneWindows workAreaMap w3)
        else
          match mapFind workAreaMap monitor with
          | some iterSecond =>
            let w2 :=
              if iterSecond != w1.self.m_draggedWindowWorkArea then
                let w11 := invoke w1 w1.self.m_draggedWindowWorkArea
                  WorkAreaCall.ClearSelectedZones
                let w12 :=
                  if !sys.settings.showZonesOnAllMonitors then
                    invoke w11 w11.self.m_draggedWindowWorkArea WorkAreaCall.HideZoneWindow
                  else w11
                let w13 := { w12 with self := { w12.self with
                  m_draggedWindowWorkArea := iterSecond } }
                invoke w13 w13.self.m_draggedWindowWorkArea
                  (WorkAreaCall.MoveSizeEnter w13.self.m_draggedWindow)
              else w1
            some (forwardMoveSizeUpdate sys ptScreen workAreaMap w2)
          | none => some w1
      else if w1.self.m_dragEnabled then
        let w2 := MoveSizeStart sys w1.self.m_draggedWindow monitor ptScreen workAreaMap w1
        if w2.self.m_dragEnabled then MoveSizeUpdate fuel sys monitor ptScreen workAreaMap w2
        else some w2
      else some w1

/-- Branch of `MoveSizeEnd` without an active work area: the last zone of the window on the
monitor it is on is forgotten. The handle stored for that monitor is not tested before
`ZoneSet` is called through it; the program stops there when it is empty (see `invoke`),
before `MoveSizeEnd` resets anything. -/
def removeAppLastZone (sys : System) (window : HWND) (workAreaMap : PerDesktopData)
    (w : World) : World :=
  let monitor := sys.MonitorFromWindow window
  if monitor != 0 then
    match mapFind workAreaMap monitor with
    | some workAreaPtr =>
      let w1 := invoke w workAreaPtr WorkAreaCall.ZoneSet
      match workAreaPtr.bind sys.ZoneSet with
      | some zoneSet =>
        match sys.StringFromCLSID (sys.ZoneSetId zoneSet) with
        | some guidString =>
          let w2 := invoke w1 workAreaPtr WorkAreaCall.UniqueId
          perform w2
            (Effect.RemoveAppLastZone window ((workAreaPtr.map sys.UniqueId).getD 0) guidString)
        | none => w1
      | none => w1
    | none => w
  else w

/-- `WindowMoveHandler::MoveSizeEnd`. -/
def MoveSizeEnd (sys : System) (window : HWND) (ptScreen : POINT)
    (workAreaMap : PerDesktopData) (w : World) : World :=
  if window != w.self.m_draggedWindow then w
  else
    let w1 := { w with self := { w.self with
      m_mouseHookEnabled := false
      m_shiftKeyStateEnabled := false
      m_ctrlKeyStateEnabled := false } }
    let w2 :=
      if w1.self.m_draggedWindowWorkArea.isSome then
        let workArea := w1.self.m_draggedWindowWorkArea
        let w11 := { w1 with self := { w1.self with m_draggedWindowWorkArea := none } }
        let w12 := ResetWindowTransparency sys w11
        let hasNoVisibleOwner := sys.HasNoVisibleOwner window
        let isStandardWindow := sys.IsStandardWindow window
        if (isStandardWindow == false && hasNoVisibleOwner == true &&
            w12.self.m_draggedWindowInfo.isStandardWindow == true &&
            w12.self.m_draggedWindowInfo.hasNoVisibleOwner == true) ||
            sys.IsWindowMaximized window then
          w12
        else
          invoke w12 workArea (WorkAreaCall.MoveSizeEnd w12.self.m_draggedWindow ptScreen)
      else
        let w11 :=
          if sys.settings.restoreSize then
            if IsCursorTypeIndicatingSizeEvent sys then
              perform w1 (Effect.RemoveProp window ZonedWindowProperty.PropertyRestoreSizeID)
            else if !sys.IsWindowMaximized window then
              perform w1 (Effect.RestoreWindowSize window)
            else w1
          else w1
        let w12 := removeAppLastZone sys window workAreaMap w11
        perform w12 (Effect.RemoveProp window ZonedWindowProperty.PropertyMultipleZoneID)
    let w3 := { w2 with self := { w2.self with
      m_inDragging := false
      m_dragEnabled := false
      m_mouseState := false
      m_draggedWindow := 0 } }
    hideZoneWindows workAreaMap w3

/-- A call of one of the three drag entry points. -/
inductive DragCall where
  | moveSizeStart (window : HWND) (monitor : HMONITOR) (ptScreen : POINT)
      (workAreaMap : PerDesktopData)
  | moveSizeUpdate (monitor : HMONITOR) (ptScreen : POINT) (workAreaMap : PerDesktopData)
  | moveSizeEnd (window : HWND) (ptScreen : POINT) (workAreaMap : PerDesktopData)
deriving DecidableEq, Repr

/-- Effect of one drag call, made while the system answers as `sys`; `none` when the
recursion of `MoveSizeUpdate` goes deeper than `fuel` allows. -/
def applyDragCall (fuel : Nat) (w : World) (sys : System) : DragCall → Option World
  | .moveSizeStart window monitor ptScreen workAreaMap =>
    some (MoveSizeStart sys window monitor ptScreen workAreaMap w)
  | .moveSizeUpdate monitor ptScreen workAreaMap =>
    MoveSizeUpdate fuel sys monitor ptScreen workAreaMap w
  | .moveSizeEnd window ptScreen workAreaMap =>
    some (MoveSizeEnd sys window ptScreen workAreaMap w)

/-- Effect of a sequence of drag calls, first call first, each with the answers of the system
during it. -/
def applyDragCalls (fuel : Nat) : World → List (System × DragCall) → Option World
  | w, [] => some w
  | w, (sys, call) :: rest =>
    match applyDragCall fuel w sys call with
    | some w1 => applyDragCalls fuel w1 rest
    | none => none

/-- Number of elevation warnings surfaced so far. -/
def toastCount (w : World) : Nat :=
  w.log.count Effect.show_toast_with_activations

/-- The latch and the warnings agree: at most one warning was surfaced, and none while the
latch `warning_shown` is not set. -/
def ToastLatchInvariant (w : World) : Prop :=
  toastCount w ≤ 1 ∧ (w.warning_shown = false → toastCount w = 0)

/-- The window a drag call is about: the window argument of `MoveSizeStart` and of
`MoveSizeEnd`, the tracked window for `MoveSizeUpdate`. -/
def dragCallWindow (w : World) : DragCall → HWND
  | .moveSizeStart window _ _ _ => window
  | .moveSizeUpdate _ _ _ => w.self.m_draggedWindow
  | .moveSizeEnd window _ _ => window

/-- Effects of a call that took the process from `before` to `after`. -/
def effectsSince (before after : World) : List Effect :=
  after.log.drop before.log.length

/-- The effect is a call of the commit callback `MoveSizeEnd` of a work area. -/
def Effect.isMoveSizeEnd : Effect → Bool
  | .workArea _ (.MoveSizeEnd _ _) => true
  | _ => false

/-- The effect is a call of `MoveSizeEnter` of a work area. -/
def Effect.isMoveSizeEnter : Effect → Bool
  | .workArea _ (.MoveSizeEnter _) => true
  | _ => false

/-- The effect is a call of `ShowZoneWindow` of a work area. -/
def Effect.isShowZoneWindow : Effect → Bool
  | .workArea _ .ShowZoneWindow => true
  | _ => false

/-- The effect is a call of `HideZoneWindow` of a work area. -/
def Effect.isHideZoneWindow : Effect → Bool
  | .workArea _ .HideZoneWindow => true
  | _ => false

/-- The effect is a call of `ClearSelectedZones` of a work area. -/
def Effect.isClearSelectedZones : Effect → Bool
  | .workArea _ .ClearSelectedZones => true
  | _ => false

/-- The effect is a call of a method of a work area. -/
def Effect.isWorkAreaCall : Effect → Bool
  | .workArea _ _ => true
  | _ => false

/-- Non-empty handles of a map of work areas, in iteration order. -/
def workAreasOf (workAreaMap : PerDesktopData) : List WorkAreaPtr :=
  (workAreaMap.filter (fun entry => entry.2.isSome)).map Prod.snd

/-- The effect is a call of `MoveSizeUpdate` of a work area. -/
def Effect.isMoveSizeUpdate : Effect → Bool
  | .workArea _ (.MoveSizeUpdate _ _ _) => true
  | _ => false

/-- The effect is a call of a work-area method through an empty handle. -/
def Effect.isThroughEmptyHandle : Effect → Bool
  | .workArea none _ => true
  | _ => false

/-- No entry of the map holds an empty handle. -/
def NoEmptyHandle (workAreaMap : PerDesktopData) : Prop :=
  ∀ entry ∈ workAreaMap, entry.2.isSome = true

/-- The map of work areas a drag call is given. -/
def dragCallMap : DragCall → PerDesktopData
  | .moveSizeStart _ _ _ workAreaMap => workAreaMap
  | .moveSizeUpdate _ _ workAreaMap => workAreaMap
  | .moveSizeEnd _ _ workAreaMap => workAreaMap

/-- While a work area is active, a drag is in progress, a window is tracked and dragging is
enabled. -/
def ActiveWorkAreaInvariant (w : World) : Prop :=
  w.self.m_draggedWindowWorkArea.isSome = true →
    w.self.m_inDragging = true ∧ w.self.m_draggedWindow ≠ 0 ∧ w.self.m_dragEnabled = true

/-- A tracked window means a drag in progress. -/
def TrackedWindowInvariant (w : World) : Prop :=
  w.self.m_draggedWindow ≠ 0 → w.self.m_inDragging = true

/-- The per-drag members are those of a session at rest: no drag in progress, dragging
disabled, secondary toggle off, no tracked window, no active work area, hooks disarmed. -/
def IsIdle (w : World) : Prop :=
  w.self.m_inDragging = false ∧ w.self.m_dragEnabled = false ∧ w.self.m_mouseState = false ∧
  w.self.m_draggedWindow = 0 ∧ w.self.m_draggedWindowWorkArea = none ∧
  w.self.m_mouseHookEnabled = false ∧ w.self.m_shiftKeyStateEnabled = false ∧
  w.self.m_ctrlKeyStateEnabled = false

/-- What a drag can be observed by, apart from the effects: the per-drag members, the latch
and the attributes of the windows. -/
def dragFields (w : World) :
    Bool × Bool × Bool × Bool × Bool × HWND × WorkAreaPtr × Bool × Bool ×
      List (HWND × WindowAttributes) :=
  (w.self.m_mouseState, w.self.m_mouseHookEnabled, w.self.m_shiftKeyStateEnabled,
    w.self.m_ctrlKeyStateEnabled, w.self.m_inDragging, w.self.m_draggedWindow,
    w.self.m_draggedWindowWorkArea, w.self.m_dragEnabled, w.warning_shown, w.windows)

/-- The drag session at rest: no drag in progress, no tracked window, no active work area,
every flag off, the latch not set and nothing done yet. -/
def idleWorld : World :=
  { self :=
      { m_mouseState := false
        m_mouseHookEnabled := false
        m_shiftKeyStateEnabled := false
        m_ctrlKeyStateEnabled := false
        m_draggedWindowInfo := ⟨false, false⟩
        m_inDragging := false
        m_draggedWindow := 0
        m_draggedWindowWorkArea := none
        m_dragEnabled := false
        m_windowTransparencyProperties := ⟨0, 0, 0, 0, 0⟩ }
    warning_shown := false
    windows := []
    log := [] }

/-- A system for concrete evaluations: every setting off, every window other than the null
handle a standard, ownerless zoning candidate, an arrow cursor, nothing maximized, nothing
elevated, no key held, every window on monitor 1, work area `i` with zone set `100 + i`. -/
def sampleSystem : System :=
  { settings := ⟨false, false, false, false, false⟩
    IsCandidateForZoning := fun window => decide (window ≠ 0)
    GetCursorInfo := some 65539
    LoadCursor := fun id => id
    HasNoVisibleOwner := fun _ => true
    IsStandardWindow := fun _ => true
    IsWindowMaximized := fun _ => false
    is_process_elevated := false
    IsProcessOfWindowElevated := fun _ => false
    is_toast_disabled := false
    shiftKeyState := false
    ctrlKeyState := false
    MonitorFromWindow := fun _ => 1
    ZoneSet := fun workArea => some (100 + workArea)
    ZoneSetId := fun zoneSet => zoneSet
    StringFromCLSID := fun id => some id
    UniqueId := fun workArea => workArea }

/-- The drag call is a `MoveSizeUpdate`. -/
def DragCall.isMoveSizeUpdate : DragCall → Bool
  | .moveSizeUpdate _ _ _ => true
  | _ => false

/-- State of the transparency effect during the drag of `window`, whose attributes were
`original` before the drag. The tracked window is `window` or none. Either no work area is
active, the snapshot is empty and the window has its original attributes; or a work area is
active for `window`, the window has the style `WS_EX_LAYERED`, and the snapshot holds the
original extended style and, when that style has `WS_EX_LAYERED`, the original layered
attributes. -/
def TransparencyInvariant (window : HWND) (original : WindowAttributes) (w : World) : Prop :=
  (w.self.m_draggedWindow = window ∨ w.self.m_draggedWindow = 0) ∧
  ((w.self.m_draggedWindowWorkArea = none ∧
      w.self.m_windowTransparencyProperties.draggedWindow = 0 ∧
      getWindowAttributes w.windows window = original) ∨
    (w.self.m_draggedWindowWorkArea.isSome = true ∧
      w.self.m_draggedWindow = window ∧
      w.self.m_windowTransparencyProperties.draggedWindow = window ∧
      w.self.m_windowTransparencyProperties.draggedWindowExstyle = original.exstyle ∧
      hasLayeredStyle (getWindowAttributes w.windows window).exstyle = true ∧
      (hasLayeredStyle original.exstyle = true →
        original.layered =
          some ⟨w.self.m_windowTransparencyProperties.draggedWindowCrKey,
            w.self.m_windowTransparencyProperties.draggedWindowInitialAlpha,
            w.self.m_windowTransparencyProperties.draggedWindowDwFlags⟩)))

/-- The system of `sampleSystem` with the setting `makeDraggedWindowTransparent` on. -/
def transparentSystem : System :=
  { sampleSystem with settings := ⟨false, false, false, true, false⟩ }

/-! ## Lemmas on the map operations -/

theorem mapFind_mapAssign {V : Type} (m : List (Nat × V)) (k k' : Nat) (v : V) :
    mapFind (mapAssign m k v) k' = if k = k' then some v else mapFind m k' := by
  induction m with
  | nil => simp [mapAssign, mapFind]
  | cons e rest ih =>
    obtain ⟨a, w⟩ := e
    by_cases hak : a = k
    · subst hak
      by_cases hk : a = k' <;> simp [mapAssign, mapFind, hk]
    · by_cases hk : k = k'
      · subst hk
        simp [mapAssign, mapFind, hak, ih]
      · by_cases hak' : a = k'
        · subst hak'
          simp [mapAssign, mapFind, hak, hk]
        · simp [mapAssign, mapFind, hak, hak', hk, ih]

theorem mapContains_iff {V : Type} (m : List (Nat × V)) (k : Nat) :
    mapContains m k = true ↔ ∃ v, mapFind m k = some v := by
  unfold mapContains
  cases mapFind m k <;> simp

theorem mapFind_addWorkArea (workAreaMap : WorkAreaMap) (desktopId d : GUID)
    (monitor : HMONITOR) (workArea : WorkAreaPtr) :
    mapFind (AddWorkArea workAreaMap desktopId monitor workArea).1 d =
      if desktopId = d then
        some (mapAssign ((mapFind workAreaMap desktopId).getD []) monitor workArea)
      else mapFind workAreaMap d := by
  unfold AddWorkArea mapContains mapSubscript
  cases h : mapFind workAreaMap desktopId with
  | none => by_cases hd : desktopId = d <;> simp [mapFind_mapAssign, hd]
  | some pd =>
    by_cases hd : desktopId = d
    · subst hd
      simp [h, mapFind_mapAssign]
    · simp [h, mapFind_mapAssign, hd]

theorem getWorkArea_addWorkArea (workAreaMap : WorkAreaMap) (desktopId d : GUID)
    (monitor m : HMONITOR) (workArea : WorkAreaPtr) :
    GetWorkArea (AddWorkArea workAreaMap desktopId monitor workArea).1 d m =
      if desktopId = d ∧ monitor = m then workArea else GetWorkArea workAreaMap d m := by
  unfold GetWorkArea
  rw [mapFind_addWorkArea]
  by_cases hd : desktopId = d
  · subst hd
    by_cases hm : monitor = m
    · simp [hm, mapFind_mapAssign]
    · simp only [if_true, mapFind_mapAssign, hm, if_false, and_false, true_and]
      cases mapFind workAreaMap desktopId <;> simp [mapFind]
  · simp [hd]

theorem mapFind_registerUpdatesLoop (workAreaMap : WorkAreaMap) (act : List GUID) (d : GUID) :
    mapFind (registerUpdatesLoop workAreaMap act).1 d =
      if d ∈ act then mapFind workAreaMap d else none := by
  induction workAreaMap generalizing act with
  | nil => simp [registerUpdatesLoop, mapFind]
  | cons e rest ih =>
    obtain ⟨k, pd⟩ := e
    by_cases hk : k ∈ act
    · simp only [registerUpdatesLoop, hk, if_true, mapFind]
      by_cases hkd : k = d
      · subst hkd; simp [hk]
      · have hne : d ≠ k := fun h => hkd h.symm
        simp [hkd, ih, List.mem_erase_of_ne hne]
    · simp only [registerUpdatesLoop, hk, if_false, mapFind, ih]
      by_cases hkd : k = d
      · subst hkd; simp [hk]
      · simp [hkd]

theorem mem_registerUpdatesLoop_snd (workAreaMap : WorkAreaMap) (act : List GUID) (d : GUID)
    (hnd : act.Nodup) :
    d ∈ (registerUpdatesLoop workAreaMap act).2 ↔ d ∈ act ∧ mapFind workAreaMap d = none := by
  induction workAreaMap generalizing act with
  | nil => simp [registerUpdatesLoop, mapFind]
  | cons e rest ih =>
    obtain ⟨k, pd⟩ := e
    by_cases hk : k ∈ act
    · simp only [registerUpdatesLoop, hk, if_true, mapFind]
      rw [ih _ (hnd.erase k), hnd.mem_erase_iff]
      by_cases hkd : k = d
      · subst hkd; simp
      · have hne : d ≠ k := fun h => hkd h.symm
        simp [hkd, hne]
    · simp only [registerUpdatesLoop, hk, if_false, mapFind]
      rw [ih _ hnd]
      by_cases hkd : k = d
      · subst hkd; simp [hk]
      · simp [hkd]

theorem mapFind_foldl_mapAssign {V : Type} (ids : List Nat) (m : List (Nat × V)) (v : V)
    (d : Nat) :
    mapFind (ids.foldl (fun m id => mapAssign m id v) m) d =
      if d ∈ ids then some v else mapFind m d := by
  induction ids generalizing m with
  | nil => simp
  | cons i rest ih =>
    simp only [List.foldl_cons, ih, mapFind_mapAssign, List.mem_cons]
    by_cases h1 : d ∈ rest
    · simp [h1]
    · by_cases h2 : i = d
      · simp [h2]
      · have : ¬ d = i := fun h => h2 h.symm
        simp [h1, h2, this]

theorem mapFind_registerUpdates (workAreaMap : WorkAreaMap) (active : List GUID) (d : GUID) :
    mapFind (RegisterUpdates workAreaMap active) d =
      if d ∈ active then some ((mapFind workAreaMap d).getD []) else none := by
  unfold RegisterUpdates
  simp only [mapFind_foldl_mapAssign, mapFind_registerUpdatesLoop,
    mem_registerUpdatesLoop_snd _ _ _ (List.nodup_dedup active), List.mem_dedup]
  by_cases hd : d ∈ active
  · cases h : mapFind workAreaMap d <;> simp [hd]
  · simp [hd]

theorem getWorkArea_registerUpdates (workAreaMap : WorkAreaMap) (active : List GUID)
    (d : GUID) (m : HMONITOR) :
    GetWorkArea (RegisterUpdates workAreaMap active) d m =
      if d ∈ active then GetWorkArea workAreaMap d m else none := by
  unfold GetWorkArea
  rw [mapFind_registerUpdates]
  by_cases hd : d ∈ active
  · cases h : mapFind workAreaMap d <;> simp [hd, mapFind]
  · simp [hd]


/-! ## Sequences of registry calls -/

theorem applyCalls_append (workAreaMap : WorkAreaMap) (pre post : List RegistryCall) :
    applyCalls workAreaMap (pre ++ post) = applyCalls (applyCalls workAreaMap pre) post := by
  simp [applyCalls, List.foldl_append]

theorem applyCalls_cons (workAreaMap : WorkAreaMap) (c : RegistryCall)
    (post : List RegistryCall) :
    applyCalls workAreaMap (c :: post) = applyCalls (applyCall workAreaMap c) post := rfl

theorem getWorkArea_clear (workAreaMap : WorkAreaMap) (d : GUID) (m : HMONITOR) :
    GetWorkArea (Clear workAreaMap) d m = none := rfl

/-- Calls that neither add the pair, nor clear, nor leave the desktop out of an active list
keep what the exact lookup of the pair returns. -/
theorem getWorkArea_applyCalls_keep (d : GUID) (m : HMONITOR) (post : List RegistryCall) :
    ∀ workAreaMap : WorkAreaMap,
      (∀ wa, RegistryCall.addWorkArea d m wa ∉ post) → RegistryCall.clear ∉ post →
      (∀ a, RegistryCall.registerUpdates a ∈ post → d ∈ a) →
      GetWorkArea (applyCalls workAreaMap post) d m = GetWorkArea workAreaMap d m := by
  induction post with
  | nil => intros; rfl
  | cons c rest ih =>
    intro workAreaMap hadd hclear hreg
    rw [applyCalls_cons, ih]
    · cases c with
      | addWorkArea d' m' wa =>
        simp only [applyCall, getWorkArea_addWorkArea]
        have hne : ¬ (d' = d ∧ m' = m) := by
          rintro ⟨rfl, rfl⟩
          exact hadd wa (List.mem_cons_self _ _)
        simp [hne]
      | registerUpdates a =>
        simp only [applyCall, getWorkArea_registerUpdates]
        simp [hreg a (List.mem_cons_self _ _)]
      | clear => exact absurd (List.mem_cons_self _ _) hclear
    · exact fun wa h => hadd wa (List.mem_cons_of_mem _ h)
    · exact fun h => hclear (List.mem_cons_of_mem _ h)
    · exact fun a h => hreg a (List.mem_cons_of_mem _ h)

/-- A pair whose exact lookup is empty stays so until it is added. -/
theorem getWorkArea_applyCalls_none (d : GUID) (m : HMONITOR) (post : List RegistryCall) :
    ∀ workAreaMap : WorkAreaMap, GetWorkArea workAreaMap d m = none →
      (∀ wa, RegistryCall.addWorkArea d m wa ∉ post) →
      GetWorkArea (applyCalls workAreaMap post) d m = none := by
  induction post with
  | nil => intro _ h _; exact h
  | cons c rest ih =>
    intro workAreaMap hnone hadd
    rw [applyCalls_cons]
    apply ih
    · cases c with
      | addWorkArea d' m' wa =>
        simp only [applyCall, getWorkArea_addWorkArea]
        have hne : ¬ (d' = d ∧ m' = m) := by
          rintro ⟨rfl, rfl⟩
          exact hadd wa (List.mem_cons_self _ _)
        simp [hne, hnone]
      | registerUpdates a =>
        simp only [applyCall, getWorkArea_registerUpdates]
        simp [hnone]
      | clear => rfl
    · exact fun wa h => hadd wa (List.mem_cons_of_mem _ h)

/-! ## C1 -/

/-- C1: after any sequence of registry calls, the exact lookup `GetWorkArea(desktop, monitor)`
returns the handle most recently added for the pair (no later add of the pair, every later
`RegisterUpdates` keeps the desktop active); it is empty when the pair was never added since
the empty registry, and empty when a `RegisterUpdates` call without the desktop came after
the last add of the pair. -/
theorem getWorkArea_most_recently_added (workAreaMap : WorkAreaMap)
    (pre post : List RegistryCall) (d : GUID) (m : HMONITOR) :
    (∀ wa, (∀ wa', RegistryCall.addWorkArea d m wa' ∉ post) → RegistryCall.clear ∉ post →
        (∀ a, RegistryCall.registerUpdates a ∈ post → d ∈ a) →
        GetWorkArea (applyCalls workAreaMap (pre ++ RegistryCall.addWorkArea d m wa :: post))
          d m = wa) ∧
    ((∀ wa', RegistryCall.addWorkArea d m wa' ∉ post) →
        GetWorkArea (applyCalls [] post) d m = none) ∧
    (∀ a, d ∉ a → (∀ wa', RegistryCall.addWorkArea d m wa' ∉ post) →
        GetWorkArea (applyCalls workAreaMap (pre ++ RegistryCall.registerUpdates a :: post))
          d m = none) := by
  refine ⟨?_, ?_, ?_⟩
  · intro wa hadd hclear hreg
    rw [applyCalls_append, applyCalls_cons, getWorkArea_applyCalls_keep d m post _ hadd hclear hreg]
    simp [applyCall, getWorkArea_addWorkArea]
  · intro hadd
    exact getWorkArea_applyCalls_none d m post [] rfl hadd
  · intro a hda hadd
    rw [applyCalls_append, applyCalls_cons]
    apply getWorkArea_applyCalls_none d m post _ _ hadd
    simp [applyCall, getWorkArea_registerUpdates, hda]

/-- Witness of C1: desktop 1 is registered, the pair (1, 0) is added twice and desktop 1
stays active, so the lookup returns the second handle. -/
theorem getWorkArea_most_recently_added_witness :
    GetWorkArea
      (applyCalls []
        ([RegistryCall.registerUpdates [1], RegistryCall.addWorkArea 1 0 (some 7)] ++
          RegistryCall.addWorkArea 1 0 (some 8) ::
            [RegistryCall.addWorkArea 1 2 (some 9), RegistryCall.registerUpdates [2, 1]]))
      1 0 = some 8 :=
  (getWorkArea_most_recently_added []
    [RegistryCall.registerUpdates [1], RegistryCall.addWorkArea 1 0 (some 7)]
    [RegistryCall.addWorkArea 1 2 (some 9), RegistryCall.registerUpdates [2, 1]] 1 0).1
    (some 8) (by simp) (by simp) (by simp)


/-! ## C2 -/

theorem mem_mapKeys_iff {V : Type} (m : List (Nat × V)) (k : Nat) :
    k ∈ mapKeys m ↔ mapContains m k = true := by
  induction m with
  | nil => simp [mapKeys, mapContains, mapFind]
  | cons e rest ih =>
    obtain ⟨a, w⟩ := e
    have ih' : k ∈ List.map Prod.fst rest ↔ (mapFind rest k).isSome = true := ih
    by_cases hak : a = k
    · simp [mapKeys, mapContains, mapFind, hak]
    · have hka : ¬ k = a := fun h => hak h.symm
      simp only [mapKeys, mapContains, mapFind, List.map_cons, List.mem_cons, hak, hka,
        if_false, false_or]
      exact ih'

/-- Adding a work area to a desktop leaves the maps of the other desktops as they are. -/
theorem mapFind_applyCalls_adds (c : GUID) (mid : List RegistryCall) :
    ∀ workAreaMap : WorkAreaMap,
      (∀ call ∈ mid, ∃ d m wa, call = RegistryCall.addWorkArea d m wa ∧ d ≠ c) →
      mapFind (applyCalls workAreaMap mid) c = mapFind workAreaMap c := by
  induction mid with
  | nil => intros; rfl
  | cons call rest ih =>
    intro workAreaMap h
    rw [applyCalls_cons, ih _ (fun x hx => h x (List.mem_cons_of_mem _ hx))]
    obtain ⟨d, m, wa, rfl, hd⟩ := h call (List.mem_cons_self _ _)
    simp [applyCall, mapFind_addWorkArea, hd]

/-- Adding work areas never removes the entry of a desktop. -/
theorem mapContains_applyCalls_adds (b : GUID) (mid : List RegistryCall) :
    ∀ workAreaMap : WorkAreaMap,
      (∀ call ∈ mid, ∃ d m wa, call = RegistryCall.addWorkArea d m wa) →
      mapContains workAreaMap b = true → mapContains (applyCalls workAreaMap mid) b = true := by
  induction mid with
  | nil => intro _ _ h; exact h
  | cons call rest ih =>
    intro workAreaMap h hb
    rw [applyCalls_cons]
    apply ih _ (fun x hx => h x (List.mem_cons_of_mem _ hx))
    obtain ⟨d, m, wa, rfl⟩ := h call (List.mem_cons_self _ _)
    unfold mapContains at hb ⊢
    simp only [applyCall, mapFind_addWorkArea]
    by_cases hd : d = b
    · simp [hd]
    · simpa [hd] using hb

theorem mem_mapKeys_registerUpdates (workAreaMap : WorkAreaMap) (active : List GUID)
    (d : GUID) : d ∈ mapKeys (RegisterUpdates workAreaMap active) ↔ d ∈ active := by
  rw [mem_mapKeys_iff, mapContains, mapFind_registerUpdates]
  by_cases hd : d ∈ active <;> simp [hd]

/-- C2: after `RegisterUpdates(active)` the desktops that have an entry are exactly the
elements of `active`; a desktop of `active` that had an entry keeps its map, one that had none
has an empty map. In particular `RegisterUpdates({A,B})` followed (after any adds that do not
touch C) by `RegisterUpdates({B,C})` removes the map of A, keeps the map of B and leaves C with
an empty map. -/
theorem registerUpdates_reconciles (workAreaMap : WorkAreaMap) (active : List GUID) :
    (∀ d, d ∈ mapKeys (RegisterUpdates workAreaMap active) ↔ d ∈ active) ∧
    (∀ d perDesktopData, d ∈ active → mapFind workAreaMap d = some perDesktopData →
        mapFind (RegisterUpdates workAreaMap active) d = some perDesktopData) ∧
    (∀ d, d ∈ active → mapFind workAreaMap d = none →
        mapFind (RegisterUpdates workAreaMap active) d = some []) ∧
    (∀ (a b c : GUID) (mid : List RegistryCall), a ≠ b → a ≠ c → b ≠ c →
        (∀ call ∈ mid, ∃ d m wa, call = RegistryCall.addWorkArea d m wa ∧ d ≠ c) →
        mapFind (RegisterUpdates (applyCalls (RegisterUpdates workAreaMap [a, b]) mid) [b, c])
            a = none ∧
        (∃ perDesktopData,
          mapFind (applyCalls (RegisterUpdates workAreaMap [a, b]) mid) b
            = some perDesktopData ∧
          mapFind (RegisterUpdates (applyCalls (RegisterUpdates workAreaMap [a, b]) mid) [b, c])
            b = some perDesktopData) ∧
        mapFind (RegisterUpdates (applyCalls (RegisterUpdates workAreaMap [a, b]) mid) [b, c])
            c = some []) := by
  refine ⟨?_, ?_, ?_, ?_⟩
  · exact mem_mapKeys_registerUpdates workAreaMap active
  · intro d pd hd hfind
    simp [mapFind_registerUpdates, hd, hfind]
  · intro d hd hfind
    simp [mapFind_registerUpdates, hd, hfind]
  · intro a b c mid hab hac hbc hmid
    have hb : mapContains (applyCalls (RegisterUpdates workAreaMap [a, b]) mid) b = true := by
      apply mapContains_applyCalls_adds
      · intro call hcall
        obtain ⟨d, m, wa, h, _⟩ := hmid call hcall
        exact ⟨d, m, wa, h⟩
      · simp [mapContains, mapFind_registerUpdates]
    obtain ⟨pd, hpd⟩ := (mapContains_iff _ _).1 hb
    have hc : mapFind (applyCalls (RegisterUpdates workAreaMap [a, b]) mid) c = none := by
      rw [mapFind_applyCalls_adds c mid _ hmid, mapFind_registerUpdates]
      have h1 : ¬ c = a := fun h => hac h.symm
      have h2 : ¬ c = b := fun h => hbc h.symm
      simp [h1, h2]
    refine ⟨?_, ⟨pd, hpd, ?_⟩, ?_⟩
    · simp [mapFind_registerUpdates, hab, hac]
    · simp [mapFind_registerUpdates, hpd]
    · simp [mapFind_registerUpdates, hc]

/-- Witness of C2: desktop 2 keeps the map it had, desktop 3 had none and gets an empty one;
and `RegisterUpdates({1,2})` followed by `RegisterUpdates({2,3})` removes the map of 1. -/
theorem registerUpdates_reconciles_witness :
    mapFind (RegisterUpdates [(1, [(0, some 4)]), (2, [(5, some 6)])] [2, 3, 2]) 2
        = some [(5, some 6)] ∧
    mapFind (RegisterUpdates [(1, [(0, some 4)]), (2, [(5, some 6)])] [2, 3, 2]) 3 = some [] ∧
    mapFind (RegisterUpdates (applyCalls (RegisterUpdates [] [1, 2])
      [RegistryCall.addWorkArea 1 0 (some 8), RegistryCall.addWorkArea 2 0 (some 9)]) [2, 3])
      1 = none :=
  ⟨(registerUpdates_reconciles [(1, [(0, some 4)]), (2, [(5, some 6)])] [2, 3, 2]).2.1
      2 [(5, some 6)] (by decide) (by decide),
    (registerUpdates_reconciles [(1, [(0, some 4)]), (2, [(5, some 6)])] [2, 3, 2]).2.2.1
      3 (by decide) (by decide),
    ((registerUpdates_reconciles [] [1, 2]).2.2.2 1 2 3
      [RegistryCall.addWorkArea 1 0 (some 8), RegistryCall.addWorkArea 2 0 (some 9)]
      (by decide) (by decide) (by decide) (by simp)).1⟩


/-! ## C3 and C4 -/

theorem getWorkArea_of_hasEntry {workAreaMap : WorkAreaMap} {d : GUID} {m : HMONITOR}
    {p : WorkAreaPtr} (h : HasEntry workAreaMap d m p) : GetWorkArea workAreaMap d m = p := by
  obtain ⟨pd, h1, h2⟩ := h
  simp [GetWorkArea, h1, h2]

theorem getWorkArea_of_no_entry {workAreaMap : WorkAreaMap} {d : GUID} {m : HMONITOR}
    (h : ¬ ∃ p, HasEntry workAreaMap d m p) : GetWorkArea workAreaMap d m = none := by
  unfold GetWorkArea
  cases h1 : mapFind workAreaMap d with
  | none => rfl
  | some pd =>
    cases h2 : mapFind pd m with
    | none => simp [h2]
    | some p => exact absurd ⟨p, pd, h1, h2⟩ h

/-- C3: when the desktop holds a non-empty AllMonitors entry (key `NULL`), the cursor variant
and the window variant both return it, whatever the pointer position, the window and the
other entries of the desktop are. When the desktop has no AllMonitors entry, each returns the
exact lookup for the monitor under the pointer, respectively the monitor of the window, and
the cursor variant returns empty when the pointer position cannot be determined. -/
theorem getWorkArea_variants_precedence (GetCursorPos : Option POINT)
    (MonitorFromPoint : POINT → HMONITOR) (MonitorFromWindow : HWND → HMONITOR)
    (workAreaMap : WorkAreaMap) (window : HWND) (d : GUID) :
    (∀ wa : Nat, HasEntry workAreaMap d NULL (some wa) →
        GetWorkAreaFromCursor GetCursorPos MonitorFromPoint workAreaMap d = some wa ∧
        GetWorkAreaFromWindow MonitorFromWindow workAreaMap window d = some wa) ∧
    ((¬ ∃ p, HasEntry workAreaMap d NULL p) →
        (∀ cursorPoint, GetCursorPos = some cursorPoint →
          GetWorkAreaFromCursor GetCursorPos MonitorFromPoint workAreaMap d =
            GetWorkArea workAreaMap d (MonitorFromPoint cursorPoint)) ∧
        (GetCursorPos = none →
          GetWorkAreaFromCursor GetCursorPos MonitorFromPoint workAreaMap d = none) ∧
        GetWorkAreaFromWindow MonitorFromWindow workAreaMap window d =
          GetWorkArea workAreaMap d (MonitorFromWindow window)) := by
  constructor
  · intro wa h
    have h0 := getWorkArea_of_hasEntry h
    simp [GetWorkAreaFromCursor, GetWorkAreaFromWindow, h0]
  · intro h
    have h0 := getWorkArea_of_no_entry h
    refine ⟨?_, ?_, ?_⟩
    · intro pt hpt
      simp [GetWorkAreaFromCursor, h0, hpt]
    · intro hpt
      simp [GetWorkAreaFromCursor, h0, hpt]
    · simp [GetWorkAreaFromWindow, h0]

/-- Witness of C3: desktop 1 holds the AllMonitors handle 7 and a handle 8 for monitor 2;
with the pointer and the window on monitor 2 both variants return handle 7. -/
theorem getWorkArea_variants_precedence_witness :
    GetWorkAreaFromCursor (some ⟨10, 20⟩) (fun _ => 2) [(1, [(2, some 8), (0, some 7)])] 1
        = some 7 ∧
    GetWorkAreaFromWindow (fun _ => 2) [(1, [(2, some 8), (0, some 7)])] 5 1 = some 7 :=
  (getWorkArea_variants_precedence (some ⟨10, 20⟩) (fun _ => 2) (fun _ => 2)
    [(1, [(2, some 8), (0, some 7)])] 5 1).1 7 ⟨[(2, some 8), (0, some 7)], rfl, rfl⟩

/-- Counterexample to C4: desktop 1 holds the AllMonitors handle 7 and a handle 8 for
monitor 2; the two-argument lookup for monitor 2 returns handle 8, and for monitor 3, which
has no entry, it returns empty. -/
theorem getWorkArea_exact_ignores_allMonitors :
    HasEntry (applyCalls [] [RegistryCall.addWorkArea 1 NULL (some 7),
        RegistryCall.addWorkArea 1 2 (some 8)]) 1 NULL (some 7) ∧
    GetWorkArea (applyCalls [] [RegistryCall.addWorkArea 1 NULL (some 7),
        RegistryCall.addWorkArea 1 2 (some 8)]) 1 2 = some 8 ∧
    GetWorkArea (applyCalls [] [RegistryCall.addWorkArea 1 NULL (some 7),
        RegistryCall.addWorkArea 1 2 (some 8)]) 1 3 = none ∧
    ¬ (∀ (workAreaMap : WorkAreaMap) (d : GUID) (p : WorkAreaPtr) (m : HMONITOR),
        HasEntry workAreaMap d NULL p → GetWorkArea workAreaMap d m = p) := by
  refine ⟨⟨[(0, some 7), (2, some 8)], rfl, rfl⟩, rfl, rfl, ?_⟩
  intro h
  have h1 := h [(1, [(0, some 7), (2, some 8)])] 1 (some 7) 2
    ⟨[(0, some 7), (2, some 8)], rfl, rfl⟩
  exact absurd h1 (by decide)

/-- C4, amended: the two-argument lookup is exact. When the desktop holds an AllMonitors
entry, `GetWorkArea(desktop, m)` returns that entry for `m = NULL`; for every monitor `m` it
returns the entry registered for exactly `m`, and empty when `m` has none. -/
theorem getWorkArea_exact_lookup (workAreaMap : WorkAreaMap) (d : GUID) (p : WorkAreaPtr)
    (hall : HasEntry workAreaMap d NULL p) :
    GetWorkArea workAreaMap d NULL = p ∧
    (∀ m q, HasEntry workAreaMap d m q → GetWorkArea workAreaMap d m = q) ∧
    (∀ m, (¬ ∃ q, HasEntry workAreaMap d m q) → GetWorkArea workAreaMap d m = none) :=
  ⟨getWorkArea_of_hasEntry hall, fun _ _ h => getWorkArea_of_hasEntry h,
    fun _ h => getWorkArea_of_no_entry h⟩

/-- Witness of C4, amended: with the AllMonitors handle 7 and handle 8 on monitor 2. -/
theorem getWorkArea_exact_lookup_witness :
    GetWorkArea [(1, [(0, some 7), (2, some 8)])] 1 NULL = some 7 ∧
    GetWorkArea [(1, [(0, some 7), (2, some 8)])] 1 2 = some 8 :=
  ⟨(getWorkArea_exact_lookup [(1, [(0, some 7), (2, some 8)])] 1 (some 7)
      ⟨[(0, some 7), (2, some 8)], rfl, rfl⟩).1,
    (getWorkArea_exact_lookup [(1, [(0, some 7), (2, some 8)])] 1 (some 7)
      ⟨[(0, some 7), (2, some 8)], rfl, rfl⟩).2.1 2 (some 8)
      ⟨[(0, some 7), (2, some 8)], rfl, rfl⟩⟩

/-! ## C5 -/

/-- Desktops with an entry after calls that are not `RegisterUpdates`: those that satisfied
`P` before, or were the desktop of an `AddWorkArea` call. -/
theorem mem_mapKeys_applyCalls (post : List RegistryCall) :
    ∀ (P : GUID → Prop) (workAreaMap : WorkAreaMap),
      (∀ d, d ∈ mapKeys workAreaMap → P d) →
      (∀ a, RegistryCall.registerUpdates a ∉ post) →
      ∀ d, d ∈ mapKeys (applyCalls workAreaMap post) →
        P d ∨ ∃ m wa, RegistryCall.addWorkArea d m wa ∈ post := by
  induction post with
  | nil =>
    intro P workAreaMap hP _ d hd
    exact Or.inl (hP d hd)
  | cons c rest ih =>
    intro P workAreaMap hP hreg d hd
    rw [applyCalls_cons] at hd
    have hstep : ∀ x, x ∈ mapKeys (applyCall workAreaMap c) →
        P x ∨ ∃ m wa, c = RegistryCall.addWorkArea x m wa := by
      intro x hx
      cases c with
      | addWorkArea d' m' wa' =>
        rw [mem_mapKeys_iff, mapContains] at hx
        simp only [applyCall, mapFind_addWorkArea] at hx
        by_cases hdx : d' = x
        · exact Or.inr ⟨m', wa', by rw [hdx]⟩
        · left
          apply hP
          rw [mem_mapKeys_iff, mapContains]
          simpa [hdx] using hx
      | registerUpdates a => exact absurd (List.mem_cons_self _ _) (hreg a)
      | clear => simp [applyCall, Clear, mapKeys] at hx
    rcases ih (fun x => P x ∨ ∃ m wa, c = RegistryCall.addWorkArea x m wa)
        (applyCall workAreaMap c) hstep
        (fun a h => hreg a (List.mem_cons_of_mem _ h)) d hd with h | ⟨m, wa, h⟩
    · rcases h with h | ⟨m, wa, h⟩
      · exact Or.inl h
      · exact Or.inr ⟨m, wa, by rw [h]; exact List.mem_cons_self _ _⟩
    · exact Or.inr ⟨m, wa, List.mem_cons_of_mem _ h⟩

/-- Counterexample to C5: after `RegisterUpdates({1})` and `AddWorkArea(2, 0, _)` desktop 2
has an entry and is not in the active list of the most recent `RegisterUpdates` call. -/
theorem desktop_entry_outside_active_list :
    (∀ a, RegistryCall.registerUpdates a ∉ [RegistryCall.addWorkArea 2 0 (some 5)]) ∧
    2 ∈ mapKeys (applyCalls []
      ([] ++ RegistryCall.registerUpdates [1] :: [RegistryCall.addWorkArea 2 0 (some 5)])) ∧
    2 ∉ [1] := by
  refine ⟨by simp, by decide, by decide⟩

/-- C5, amended: in every state reached by calls of which the most recent `RegisterUpdates`
had the list `active`, every desktop that has an entry is in `active` or was the desktop of an
`AddWorkArea` call made after that `RegisterUpdates` call; right after the `RegisterUpdates`
call every desktop that has an entry is in `active`. -/
theorem desktop_entry_active_or_added (workAreaMap : WorkAreaMap)
    (pre post : List RegistryCall) (active : List GUID)
    (hpost : ∀ a, RegistryCall.registerUpdates a ∉ post) :
    (∀ d, d ∈ mapKeys
          (applyCalls workAreaMap (pre ++ RegistryCall.registerUpdates active :: post)) →
        d ∈ active ∨ ∃ m wa, RegistryCall.addWorkArea d m wa ∈ post) ∧
    (∀ d, d ∈ mapKeys
          (applyCalls workAreaMap (pre ++ [RegistryCall.registerUpdates active])) →
        d ∈ active) := by
  constructor
  · intro d hd
    rw [applyCalls_append, applyCalls_cons] at hd
    refine mem_mapKeys_applyCalls post (fun x => x ∈ active) _ ?_ hpost d hd
    intro x hx
    exact (mem_mapKeys_registerUpdates _ active x).1 hx
  · intro d hd
    rw [applyCalls_append] at hd
    exact (mem_mapKeys_registerUpdates _ active d).1 hd

/-- Witness of C5, amended: desktop 2 was added after `RegisterUpdates({1})`. -/
theorem desktop_entry_active_or_added_witness :
    2 ∈ mapKeys (applyCalls [] ([RegistryCall.clear] ++
        RegistryCall.registerUpdates [1] :: [RegistryCall.addWorkArea 2 0 (some 5)])) ∧
    (2 ∈ [1] ∨ ∃ m wa, RegistryCall.addWorkArea 2 m wa ∈
        [RegistryCall.addWorkArea 2 0 (some 5)]) :=
  ⟨by decide, (desktop_entry_active_or_added [] [RegistryCall.clear]
    [RegistryCall.addWorkArea 2 0 (some 5)] [1] (by simp)).1 2 (by decide)⟩


/-! ## C6 -/

theorem mapAssign_mapAssign {V : Type} (m : List (Nat × V)) (k : Nat) (v w : V) :
    mapAssign (mapAssign m k v) k w = mapAssign m k w := by
  induction m with
  | nil => simp [mapAssign]
  | cons e rest ih =>
    obtain ⟨a, u⟩ := e
    by_cases hak : a = k <;> simp [mapAssign, hak, ih]

/-- Adding with a handle equal to the one just added leaves the registry as it is. -/
theorem addWorkArea_again (workAreaMap : WorkAreaMap) (d : GUID) (m : HMONITOR)
    (wa : WorkAreaPtr) :
    (AddWorkArea (AddWorkArea workAreaMap d m wa).1 d m wa).1 =
      (AddWorkArea workAreaMap d m wa).1 := by
  have hfind := mapFind_addWorkArea workAreaMap d d m wa
  rw [if_pos rfl] at hfind
  have hshape : ∃ base, (AddWorkArea workAreaMap d m wa).1 =
      mapAssign base d (mapAssign ((mapFind workAreaMap d).getD []) m wa) := by
    unfold AddWorkArea mapContains mapSubscript
    cases h : mapFind workAreaMap d with
    | none => exact ⟨mapAssign workAreaMap d [], by simp [mapFind_mapAssign]⟩
    | some pd => exact ⟨workAreaMap, by simp [h]⟩
  obtain ⟨base, hbase⟩ := hshape
  generalize AddWorkArea workAreaMap d m wa = r at hfind hbase
  unfold AddWorkArea mapContains mapSubscript
  simp only [hfind, Option.isSome_some, Bool.not_true, Bool.false_eq_true, if_false]
  rw [mapAssign_mapAssign, hbase, mapAssign_mapAssign]

/-- Counterexample to C6: the first `AddWorkArea(1, 0, wa)` moves handle 7 out of the
caller's variable `wa`; the second call with the same variable stores the empty handle, so
the registry differs from the one after a single call and the lookup no longer returns
WorkArea 7. -/
theorem addWorkArea_twice_same_variable :
    (AddWorkArea [] 1 0 (some 7)).1 = [(1, [(0, some 7)])] ∧
    (AddWorkArea [] 1 0 (some 7)).2 = none ∧
    (AddWorkArea (AddWorkArea [] 1 0 (some 7)).1 1 0 (AddWorkArea [] 1 0 (some 7)).2).1
      = [(1, [(0, none)])] ∧
    (AddWorkArea (AddWorkArea [] 1 0 (some 7)).1 1 0 (AddWorkArea [] 1 0 (some 7)).2).1
      ≠ (AddWorkArea [] 1 0 (some 7)).1 ∧
    GetWorkArea
      (AddWorkArea (AddWorkArea [] 1 0 (some 7)).1 1 0 (AddWorkArea [] 1 0 (some 7)).2).1 1 0
      ≠ some 7 := by
  refine ⟨rfl, rfl, rfl, by decide, by decide⟩

/-- C6, amended: `AddWorkArea(desktop, monitor, wa)` is an overwrite that moves the handle
out of the caller's variable: afterwards `GetWorkArea(desktop, monitor)` returns the WorkArea
`wa` referred to and the variable is empty; calling it again with a handle equal to the
original one leaves the registry as a single call does; and it creates the per-desktop map
when the desktop had no entry. -/
theorem addWorkArea_overwrite (workAreaMap : WorkAreaMap) (d : GUID) (m : HMONITOR)
    (wa : WorkAreaPtr) :
    GetWorkArea (AddWorkArea workAreaMap d m wa).1 d m = wa ∧
    (AddWorkArea workAreaMap d m wa).2 = none ∧
    (AddWorkArea (AddWorkArea workAreaMap d m wa).1 d m wa).1 =
      (AddWorkArea workAreaMap d m wa).1 ∧
    GetWorkArea (AddWorkArea (AddWorkArea workAreaMap d m wa).1 d m wa).1 d m = wa ∧
    (mapFind workAreaMap d = none →
      mapFind (AddWorkArea workAreaMap d m wa).1 d = some [(m, wa)]) := by
  refine ⟨?_, rfl, addWorkArea_again workAreaMap d m wa, ?_, ?_⟩
  · simp [getWorkArea_addWorkArea]
  · simp [getWorkArea_addWorkArea]
  · intro h
    simp [mapFind_addWorkArea, h, mapAssign]

/-- Witness of C6, amended: the empty registry has no entry for desktop 1. -/
theorem addWorkArea_overwrite_witness :
    mapFind (AddWorkArea [] 1 0 (some 7)).1 1 = some [(0, some 7)] :=
  (addWorkArea_overwrite [] 1 0 (some 7)).2.2.2.2 rfl

/-! ## C7 -/

/-- C7: `IsNewWorkArea(desktop, monitor)` is false exactly when the registry holds an entry
for that pair; it is true for every monitor of a desktop that `RegisterUpdates` inserted with
an empty map, it is false right after `AddWorkArea(desktop, monitor, _)`, and the call leaves
the registry unchanged. -/
theorem isNewWorkArea_iff_no_entry (workAreaMap : WorkAreaMap) (d : GUID) (m : HMONITOR) :
    ((IsNewWorkArea workAreaMap d m).1 = false ↔ ∃ p, HasEntry workAreaMap d m p) ∧
    (∀ active, d ∈ active → mapFind workAreaMap d = none →
        (IsNewWorkArea (RegisterUpdates workAreaMap active) d m).1 = true) ∧
    (∀ wa, (IsNewWorkArea (AddWorkArea workAreaMap d m wa).1 d m).1 = false) ∧
    (IsNewWorkArea workAreaMap d m).2 = workAreaMap := by
  have key : ∀ r : WorkAreaMap,
      (IsNewWorkArea r d m).1 = !(match mapFind r d with
        | some pd => (mapFind pd m).isSome
        | none => false) := by
    intro r
    unfold IsNewWorkArea mapContains mapSubscript
    cases h : mapFind r d with
    | none => simp
    | some pd => cases h2 : mapFind pd m <;> simp [h2]
  refine ⟨?_, ?_, ?_, ?_⟩
  · rw [key]
    unfold HasEntry
    cases h : mapFind workAreaMap d with
    | none => simp
    | some pd => cases h2 : mapFind pd m <;> simp [h2]
  · intro active hd hnone
    rw [key, mapFind_registerUpdates]
    simp [hd, hnone, mapFind]
  · intro wa
    rw [key, mapFind_addWorkArea]
    simp [mapFind_mapAssign]
  · unfold IsNewWorkArea mapContains mapSubscript
    cases h : mapFind workAreaMap d with
    | none => simp
    | some pd => cases h2 : mapFind pd m <;> simp [h2]

/-- Witness of C7: desktop 3 is inserted by `RegisterUpdates` with an empty map, so every
monitor of it is new. -/
theorem isNewWorkArea_iff_no_entry_witness :
    (IsNewWorkArea (RegisterUpdates [(1, [(0, some 4)])] [1, 3]) 3 5).1 = true :=
  (isNewWorkArea_iff_no_entry [(1, [(0, some 4)])] 3 5).2.1 [1, 3] (by decide) rfl

/-! ## C8 -/

/-- C8: `GetWorkAreasByDesktopId` returns the map stored for the desktop when the desktop has
an entry and an empty map when it has none, and leaves the registry unchanged. -/
theorem getWorkAreasByDesktopId_view (workAreaMap : WorkAreaMap) (d : GUID) :
    (∀ perDesktopData, mapFind workAreaMap d = some perDesktopData →
        (GetWorkAreasByDesktopId workAreaMap d).1 = perDesktopData) ∧
    (mapFind workAreaMap d = none → (GetWorkAreasByDesktopId workAreaMap d).1 = []) ∧
    (GetWorkAreasByDesktopId workAreaMap d).2 = workAreaMap := by
  unfold GetWorkAreasByDesktopId mapContains mapSubscript
  cases h : mapFind workAreaMap d with
  | none => simp
  | some pd => simp

/-- Witness of C8: desktop 1 has a map, desktop 9 has none. -/
theorem getWorkAreasByDesktopId_view_witness :
    (GetWorkAreasByDesktopId [(1, [(0, some 4)])] 1).1 = [(0, some 4)] ∧
    (GetWorkAreasByDesktopId [(1, [(0, some 4)])] 9).1 = [] :=
  ⟨(getWorkAreasByDesktopId_view [(1, [(0, some 4)])] 1).1 [(0, some 4)] rfl,
    (getWorkAreasByDesktopId_view [(1, [(0, some 4)])] 9).2.1 rfl⟩


/-! ## C9 -/

theorem getAllWorkAreas_foldl_coe (workAreaMap : WorkAreaMap) (acc : List WorkAreaPtr) :
    ((workAreaMap.foldl
        (fun workAreas entry => workAreas ++ entry.2.map (fun item => item.2)) acc :
          List WorkAreaPtr) : Multiset WorkAreaPtr) =
      (acc : Multiset WorkAreaPtr) +
        (workAreaMap.map
          (fun entry => ((entry.2.map Prod.snd : List WorkAreaPtr) : Multiset WorkAreaPtr))).sum := by
  induction workAreaMap generalizing acc with
  | nil => simp
  | cons e rest ih =>
    simp only [List.foldl_cons, ih, List.map_cons, List.sum_cons]
    rw [← Multiset.coe_add, add_assoc]

theorem getAllWorkAreas_foldl_count (h : WorkAreaPtr) (workAreaMap : WorkAreaMap)
    (acc : List WorkAreaPtr) :
    (workAreaMap.foldl
        (fun workAreas entry => workAreas ++ entry.2.map (fun item => item.2)) acc).count h =
      acc.count h + (workAreaMap.map (fun entry => (entry.2.map Prod.snd).count h)).sum := by
  induction workAreaMap generalizing acc with
  | nil => simp
  | cons e rest ih =>
    simp only [List.foldl_cons, ih, List.map_cons, List.sum_cons, List.count_append]
    rw [add_assoc]

theorem count_values_eq_filter (h : WorkAreaPtr) (perDesktopData : PerDesktopData)
    (hnd : (mapKeys perDesktopData).Nodup) :
    (perDesktopData.map Prod.snd).count h =
      ((mapKeys perDesktopData).filter
        (fun m => decide (mapFind perDesktopData m = some h))).length := by
  induction perDesktopData with
  | nil => simp [mapKeys]
  | cons e rest ih =>
    obtain ⟨a, u⟩ := e
    simp only [mapKeys, List.map_cons, List.nodup_cons] at hnd
    have hrest : List.filter (fun m => decide (mapFind ((a, u) :: rest) m = some h))
          (List.map Prod.fst rest) =
        List.filter (fun m => decide (mapFind rest m = some h)) (List.map Prod.fst rest) := by
      apply List.filter_congr
      intro x hx
      have hax : ¬ a = x := fun hh => hnd.1 (hh ▸ hx)
      simp [mapFind, hax]
    simp only [mapKeys, List.map_cons, List.filter_cons, hrest, List.count_cons]
    have ih' := ih hnd.2
    simp only [mapKeys] at ih'
    by_cases huh : u = h
    · simp [mapFind, huh, ih']
    · simp [mapFind, huh, ih']

theorem map_mapKeys_eq {α : Type} (G : GUID → Option PerDesktopData → α)
    (workAreaMap : WorkAreaMap) (hnd : (mapKeys workAreaMap).Nodup) :
    (mapKeys workAreaMap).map (fun d => G d (mapFind workAreaMap d)) =
      workAreaMap.map (fun entry => G entry.1 (some entry.2)) := by
  induction workAreaMap with
  | nil => simp [mapKeys]
  | cons e rest ih =>
    obtain ⟨a, pd⟩ := e
    simp only [mapKeys, List.map_cons, List.nodup_cons] at hnd
    have ih' := ih hnd.2
    simp only [mapKeys] at ih'
    have hrest : List.map (fun d => G d (mapFind ((a, pd) :: rest) d)) (List.map Prod.fst rest) =
        List.map (fun d => G d (mapFind rest d)) (List.map Prod.fst rest) := by
      apply List.map_congr_left
      intro x hx
      have hax : ¬ a = x := fun hh => hnd.1 (hh ▸ hx)
      simp [mapFind, hax]
    simp only [mapKeys, List.map_cons, hrest, ih']
    simp [mapFind]

theorem mapFind_isSome_of_mem_mapKeys {V : Type} (m : List (Nat × V)) (k : Nat)
    (hk : k ∈ mapKeys m) : ∃ v, mapFind m k = some v :=
  (mapContains_iff m k).1 ((mem_mapKeys_iff m k).1 hk)

/-- C9: `GetAllWorkAreas` returns, as a multiset, the handles stored over all entries of all
desktops: its length is the total number of entries, and when keys are unique every handle
occurs in it as many times as there are pairs `(desktop, monitor)` with an entry whose exact
lookup returns that handle. -/
theorem getAllWorkAreas_multiset (workAreaMap : WorkAreaMap) :
    ((GetAllWorkAreas workAreaMap : List WorkAreaPtr) : Multiset WorkAreaPtr) =
      (workAreaMap.map
        (fun entry => ((entry.2.map Prod.snd : List WorkAreaPtr) : Multiset WorkAreaPtr))).sum ∧
    (GetAllWorkAreas workAreaMap).length = (workAreaMap.map (fun entry => entry.2.length)).sum ∧
    (UniqueKeys workAreaMap → ∀ h : WorkAreaPtr,
      (GetAllWorkAreas workAreaMap).count h =
        ((mapKeys workAreaMap).map (fun d =>
          ((mapKeys (GetWorkAreasByDesktopId workAreaMap d).1).filter
            (fun m => decide (GetWorkArea workAreaMap d m = h))).length)).sum) := by
  have hcoe := getAllWorkAreas_foldl_coe workAreaMap []
  have hmulti : ((GetAllWorkAreas workAreaMap : List WorkAreaPtr) : Multiset WorkAreaPtr) =
      (workAreaMap.map
        (fun entry => ((entry.2.map Prod.snd : List WorkAreaPtr) : Multiset WorkAreaPtr))).sum := by
    unfold GetAllWorkAreas
    rw [hcoe]
    simp
  have hcard : ∀ l : WorkAreaMap,
      Multiset.card (l.map
        (fun entry => ((entry.2.map Prod.snd : List WorkAreaPtr) : Multiset WorkAreaPtr))).sum =
      (l.map (fun entry => entry.2.length)).sum := by
    intro l
    induction l with
    | nil => simp
    | cons e rest ih => simp [ih]
  refine ⟨hmulti, ?_, ?_⟩
  · have := congrArg Multiset.card hmulti
    rw [hcard] at this
    simpa using this
  · intro hu h
    have h1 : (GetAllWorkAreas workAreaMap).count h =
        (workAreaMap.map (fun entry => (entry.2.map Prod.snd).count h)).sum := by
      unfold GetAllWorkAreas
      rw [getAllWorkAreas_foldl_count]
      simp
    rw [h1]
    have hview : ∀ d, (GetWorkAreasByDesktopId workAreaMap d).1 =
        (mapFind workAreaMap d).getD [] := by
      intro d
      unfold GetWorkAreasByDesktopId mapContains mapSubscript
      cases mapFind workAreaMap d <;> simp
    have hlookup : ∀ d m, GetWorkArea workAreaMap d m =
        ((mapFind workAreaMap d).bind (fun pd => mapFind pd m)).join := by
      intro d m
      unfold GetWorkArea
      cases h1 : mapFind workAreaMap d with
      | none => rfl
      | some pd => cases h2 : mapFind pd m <;> simp [h2]
    have hG : (mapKeys workAreaMap).map (fun d =>
          ((mapKeys ((mapFind workAreaMap d).getD [])).filter
            (fun m => decide
              (((mapFind workAreaMap d).bind (fun pd => mapFind pd m)).join = h))).length) =
        workAreaMap.map (fun entry =>
          ((mapKeys ((some entry.2).getD [])).filter
            (fun m => decide
              (((some entry.2).bind (fun pd => mapFind pd m)).join = h))).length) :=
      map_mapKeys_eq
        (fun _ o => ((mapKeys (o.getD [])).filter
          (fun m => decide ((o.bind (fun pd => mapFind pd m)).join = h))).length)
        workAreaMap hu.1
    simp only [hview, hlookup]
    rw [hG]
    congr 1
    apply List.map_congr_left
    intro e he
    rw [count_values_eq_filter h e.2 (hu.2 e he)]
    simp only [Option.getD_some, Option.some_bind]
    congr 1
    apply List.filter_congr
    intro x hx
    obtain ⟨v, hv⟩ := mapFind_isSome_of_mem_mapKeys e.2 x hx
    simp [hv]


/-! ### Unique keys in every reachable registry -/

theorem nodup_mapKeys_mapAssign {V : Type} (m : List (Nat × V)) (k : Nat) (v : V)
    (hnd : (mapKeys m).Nodup) : (mapKeys (mapAssign m k v)).Nodup := by
  induction m with
  | nil => simp [mapAssign, mapKeys]
  | cons e rest ih =>
    obtain ⟨a, w⟩ := e
    simp only [mapKeys, List.map_cons, List.nodup_cons] at hnd
    by_cases hak : a = k
    · simpa [mapAssign, mapKeys, hak] using hnd
    · simp only [mapAssign, hak, if_false, mapKeys, List.map_cons, List.nodup_cons]
      refine ⟨?_, ?_⟩
      · intro hmem
        have hmem' : a ∈ mapKeys (mapAssign rest k v) := hmem
        rw [mem_mapKeys_iff, mapContains, mapFind_mapAssign] at hmem'
        have hka : ¬ k = a := fun h => hak h.symm
        simp only [hka, if_false] at hmem'
        exact hnd.1 ((mem_mapKeys_iff rest a).2 hmem')
      · exact ih hnd.2

theorem mem_mapAssign {V : Type} (m : List (Nat × V)) (k : Nat) (v : V) (e : Nat × V)
    (he : e ∈ mapAssign m k v) : e ∈ m ∨ e = (k, v) := by
  induction m with
  | nil => simpa [mapAssign] using he
  | cons x rest ih =>
    obtain ⟨a, w⟩ := x
    by_cases hak : a = k
    · simp only [mapAssign, hak, if_true, List.mem_cons] at he
      rcases he with h | h
      · exact Or.inr h
      · exact Or.inl (List.mem_cons_of_mem _ h)
    · simp only [mapAssign, hak, if_false, List.mem_cons] at he
      rcases he with h | h
      · exact Or.inl (h ▸ List.mem_cons_self _ _)
      · rcases ih h with h' | h'
        · exact Or.inl (List.mem_cons_of_mem _ h')
        · exact Or.inr h'

theorem mem_of_mapFind {V : Type} (m : List (Nat × V)) (k : Nat) (v : V)
    (h : mapFind m k = some v) : (k, v) ∈ m := by
  induction m with
  | nil => simp [mapFind] at h
  | cons x rest ih =>
    obtain ⟨a, w⟩ := x
    by_cases hak : a = k
    · simp only [mapFind, hak, if_true, Option.some.injEq] at h
      simp [hak, h]
    · simp only [mapFind, hak, if_false] at h
      exact List.mem_cons_of_mem _ (ih h)

theorem uniqueKeys_mapAssign (workAreaMap : WorkAreaMap) (d : GUID)
    (perDesktopData : PerDesktopData) (hu : UniqueKeys workAreaMap)
    (hpd : (mapKeys perDesktopData).Nodup) :
    UniqueKeys (mapAssign workAreaMap d perDesktopData) := by
  refine ⟨nodup_mapKeys_mapAssign _ _ _ hu.1, ?_⟩
  intro e he
  rcases mem_mapAssign _ _ _ _ he with h | h
  · exact hu.2 e h
  · rw [h]; exact hpd

theorem registerUpdatesLoop_sublist (workAreaMap : WorkAreaMap) (act : List GUID) :
    List.Sublist (registerUpdatesLoop workAreaMap act).1 workAreaMap := by
  induction workAreaMap generalizing act with
  | nil => simp [registerUpdatesLoop]
  | cons e rest ih =>
    obtain ⟨k, pd⟩ := e
    by_cases hk : k ∈ act
    · simp only [registerUpdatesLoop, hk, if_true]
      exact (ih _).cons₂ _
    · simp only [registerUpdatesLoop, hk, if_false]
      exact (ih _).cons _

theorem uniqueKeys_applyCall (workAreaMap : WorkAreaMap) (c : RegistryCall)
    (hu : UniqueKeys workAreaMap) : UniqueKeys (applyCall workAreaMap c) := by
  cases c with
  | addWorkArea d m wa =>
    simp only [applyCall]
    unfold AddWorkArea mapContains mapSubscript
    cases h : mapFind workAreaMap d with
    | none =>
      simp only [Option.isSome_none, Bool.not_false, if_true, mapFind_mapAssign]
      apply uniqueKeys_mapAssign
      · exact uniqueKeys_mapAssign _ _ _ hu (by simp [mapKeys])
      · exact nodup_mapKeys_mapAssign _ _ _ (by simp [mapKeys])
    | some pd =>
      simp only [Option.isSome_some, Bool.not_true, Bool.false_eq_true, if_false, h]
      apply uniqueKeys_mapAssign _ _ _ hu
      exact nodup_mapKeys_mapAssign _ _ _ (hu.2 _ (mem_of_mapFind _ _ _ h))
  | registerUpdates a =>
    simp only [applyCall, RegisterUpdates]
    have hloop : UniqueKeys (registerUpdatesLoop workAreaMap a.dedup).1 := by
      have hs := registerUpdatesLoop_sublist workAreaMap a.dedup
      exact ⟨(hs.map Prod.fst).nodup hu.1, fun e he => hu.2 e (hs.subset he)⟩
    generalize (registerUpdatesLoop workAreaMap a.dedup).1 = r at hloop
    generalize (registerUpdatesLoop workAreaMap a.dedup).2 = ids
    induction ids generalizing r with
    | nil => exact hloop
    | cons i rest ih =>
      exact ih _ (uniqueKeys_mapAssign _ _ _ hloop (by simp [mapKeys]))
  | clear => exact ⟨by simp [applyCall, Clear, mapKeys], by simp [applyCall, Clear]⟩

/-- Keys are unique in every registry reached from the empty one. -/
theorem uniqueKeys_applyCalls (calls : List RegistryCall) :
    ∀ workAreaMap : WorkAreaMap, UniqueKeys workAreaMap →
      UniqueKeys (applyCalls workAreaMap calls) := by
  induction calls with
  | nil => intro _ h; exact h
  | cons c rest ih =>
    intro workAreaMap hu
    rw [applyCalls_cons]
    exact ih _ (uniqueKeys_applyCall _ c hu)

/-- Witness of C9: two desktops, handle 4 stored twice and an empty handle stored once. -/
theorem getAllWorkAreas_multiset_witness :
    (GetAllWorkAreas [(1, [(0, some 4), (2, some 4)]), (2, [(5, none)])]).count (some 4) =
      ((mapKeys [(1, [(0, some 4), (2, some 4)]), (2, [(5, none)])]).map (fun d =>
        ((mapKeys (GetWorkAreasByDesktopId
            [(1, [(0, some 4), (2, some 4)]), (2, [(5, none)])] d).1).filter
          (fun m => decide (GetWorkArea
            [(1, [(0, some 4), (2, some 4)]), (2, [(5, none)])] d m = some 4))).length)).sum :=
  (getAllWorkAreas_multiset [(1, [(0, some 4), (2, some 4)]), (2, [(5, none)])]).2.2
    (by unfold UniqueKeys; decide) (some 4)

/-! ## C10 -/

/-- C10: `UpdateDragState` sets `dragEnabled` to `shiftHeld XOR secondaryToggle` when
`shiftDrag` is true and to its negation when `shiftDrag` is false; it changes no other member,
and the value depends on these three booleans only. With `shiftDrag` and the secondary toggle
both false, `dragEnabled` is true exactly when shift is not held. -/
theorem updateDragState_decision (settings : Settings) (shiftHeld : Bool)
    (self : WindowMoveHandler) :
    (settings.shiftDrag = true →
      (UpdateDragState settings shiftHeld self).m_dragEnabled =
        xor shiftHeld self.m_mouseState) ∧
    (settings.shiftDrag = false →
      (UpdateDragState settings shiftHeld self).m_dragEnabled =
        !(xor shiftHeld self.m_mouseState)) ∧
    UpdateDragState settings shiftHeld self =
      { self with m_dragEnabled := (UpdateDragState settings shiftHeld self).m_dragEnabled } ∧
    (∀ (settings' : Settings) (self' : WindowMoveHandler),
      settings'.shiftDrag = settings.shiftDrag → self'.m_mouseState = self.m_mouseState →
      (UpdateDragState settings' shiftHeld self').m_dragEnabled =
        (UpdateDragState settings shiftHeld self).m_dragEnabled) ∧
    (settings.shiftDrag = false → self.m_mouseState = false →
      ((UpdateDragState settings shiftHeld self).m_dragEnabled = true ↔ shiftHeld = false)) := by
  refine ⟨?_, ?_, ?_, ?_, ?_⟩
  · intro h
    simp [UpdateDragState, h]
  · intro h
    simp [UpdateDragState, h]
  · unfold UpdateDragState
    cases settings.shiftDrag <;> rfl
  · intro settings' self' h1 h2
    unfold UpdateDragState
    rw [h1, h2]
    cases settings.shiftDrag <;> rfl
  · intro h1 h2
    unfold UpdateDragState
    rw [h1, h2]
    cases shiftHeld <;> simp

/-- Witness of C10: `shiftDrag` off, secondary toggle off, shift not held. -/
theorem updateDragState_decision_witness :
    (UpdateDragState ⟨false, true, false, true, false⟩ false
      ⟨false, false, false, false, ⟨true, true⟩, true, 5, none, false, ⟨0, 0, 0, 0, 0⟩⟩).m_dragEnabled
      = true :=
  ((updateDragState_decision ⟨false, true, false, true, false⟩ false
    ⟨false, false, false, false, ⟨true, true⟩, true, 5, none, false, ⟨0, 0, 0, 0, 0⟩⟩).2.2.2.2
    rfl rfl).2 rfl


/-! ## Lemmas on the drag session -/

theorem hideZoneWindows_eq (workAreaMap : PerDesktopData) (w : World) :
    hideZoneWindows workAreaMap w =
      { w with
        log := w.log ++ List.map
          (fun workArea => Effect.workArea workArea WorkAreaCall.HideZoneWindow)
          (workAreasOf workAreaMap) } := by
  unfold hideZoneWindows workAreasOf
  induction workAreaMap generalizing w with
  | nil => simp
  | cons e rest ih =>
    simp only [List.foldl_cons]
    rw [ih]
    by_cases he : e.2.isSome = true
    · simp [he, invoke, List.filter_cons]
    · simp [he, List.filter_cons]

theorem showOtherZoneWindows_eq (workAreaMap : PerDesktopData) (w : World) :
    showOtherZoneWindows workAreaMap w =
      { w with
        log := w.log ++ List.map
          (fun entry => Effect.workArea entry.2 WorkAreaCall.ShowZoneWindow)
          (workAreaMap.filter (fun entry =>
            entry.2.isSome && !decide (entry.2 = w.self.m_draggedWindowWorkArea))) } := by
  unfold showOtherZoneWindows
  induction workAreaMap generalizing w with
  | nil => simp
  | cons e rest ih =>
    simp only [List.foldl_cons]
    rw [ih]
    by_cases he : (e.2.isSome && !decide (e.2 = w.self.m_draggedWindowWorkArea)) = true
    · simp [he, invoke, List.filter_cons]
    · simp [he, List.filter_cons]

theorem forwardMoveSizeUpdate_eq (sys : System) (ptScreen : POINT)
    (workAreaMap : PerDesktopData) (w : World) :
    forwardMoveSizeUpdate sys ptScreen workAreaMap w =
      { w with
        log := w.log ++ List.map
          (fun entry => Effect.workArea entry.2
            (WorkAreaCall.MoveSizeUpdate ptScreen w.self.m_dragEnabled sys.ctrlKeyState))
          workAreaMap } := by
  unfold forwardMoveSizeUpdate
  induction workAreaMap generalizing w with
  | nil => simp
  | cons e rest ih =>
    simp only [List.foldl_cons]
    rw [ih]
    simp [invoke]

theorem effectsSince_eq (before after : World) (added : List Effect)
    (h : after.log = before.log ++ added) : effectsSince before after = added := by
  simp [effectsSince, h]

/-! ## C11 -/

/-- C11: for every `shiftDrag`, shift state and secondary toggle, flipping the shift state
alone flips `dragEnabled`, flipping the secondary toggle alone flips it, flipping both leaves
it unchanged, and swapping the two signals does not change it. -/
theorem updateDragState_flips (settings : Settings) (shiftHeld : Bool)
    (self : WindowMoveHandler) :
    (UpdateDragState settings (!shiftHeld) self).m_dragEnabled =
      !(UpdateDragState settings shiftHeld self).m_dragEnabled ∧
    (UpdateDragState settings shiftHeld
        { self with m_mouseState := !self.m_mouseState }).m_dragEnabled =
      !(UpdateDragState settings shiftHeld self).m_dragEnabled ∧
    (UpdateDragState settings (!shiftHeld)
        { self with m_mouseState := !self.m_mouseState }).m_dragEnabled =
      (UpdateDragState settings shiftHeld self).m_dragEnabled ∧
    (UpdateDragState settings self.m_mouseState
        { self with m_mouseState := shiftHeld }).m_dragEnabled =
      (UpdateDragState settings shiftHeld self).m_dragEnabled := by
  unfold UpdateDragState
  cases settings.shiftDrag <;> cases shiftHeld <;> cases self.m_mouseState <;> simp


/-- `removeAppLastZone` only appends effects, and which ones does not depend on the state. -/
theorem removeAppLastZone_log (sys : System) (window : HWND) (workAreaMap : PerDesktopData)
    (w w0 : World) (h0 : w0.log = []) :
    (removeAppLastZone sys window workAreaMap w).log =
      w.log ++ (removeAppLastZone sys window workAreaMap w0).log := by
  unfold removeAppLastZone
  simp only [invoke, perform]
  split_ifs
  · split
    · split
      · split <;> simp [h0]
      · simp [h0]
    · simp [h0]
  · simp [h0]

theorem removeAppLastZone_frame (sys : System) (window : HWND) (workAreaMap : PerDesktopData)
    (w : World) :
    (removeAppLastZone sys window workAreaMap w).self = w.self ∧
    (removeAppLastZone sys window workAreaMap w).warning_shown = w.warning_shown ∧
    (removeAppLastZone sys window workAreaMap w).windows = w.windows := by
  unfold removeAppLastZone
  simp only [invoke, perform]
  split_ifs
  · split
    · split
      · split <;> simp
      · simp
    · simp
  · simp

theorem removeAppLastZone_no_callback (sys : System) (window : HWND)
    (workAreaMap : PerDesktopData) (w : World) :
    ∀ e ∈ (removeAppLastZone sys window workAreaMap { w with log := [] }).log,
      e.isMoveSizeEnd = false ∧ e.isMoveSizeEnter = false ∧ e.isShowZoneWindow = false ∧
      e.isHideZoneWindow = false ∧ e.isClearSelectedZones = false := by
  unfold removeAppLastZone
  simp only [invoke, perform]
  split_ifs
  · split
    · split
      · split <;> simp [Effect.isMoveSizeEnd, Effect.isMoveSizeEnter, Effect.isShowZoneWindow,
          Effect.isHideZoneWindow, Effect.isClearSelectedZones]
      · simp [Effect.isMoveSizeEnd, Effect.isMoveSizeEnter, Effect.isShowZoneWindow,
          Effect.isHideZoneWindow, Effect.isClearSelectedZones]
    · simp
  · simp

/-- `ResetWindowTransparency` changes the saved attributes and the window only. -/
theorem resetWindowTransparency_frame (sys : System) (w : World) :
    (ResetWindowTransparency sys w).log = w.log ∧
    (ResetWindowTransparency sys w).warning_shown = w.warning_shown ∧
    (ResetWindowTransparency sys w).self.m_mouseState = w.self.m_mouseState ∧
    (ResetWindowTransparency sys w).self.m_mouseHookEnabled = w.self.m_mouseHookEnabled ∧
    (ResetWindowTransparency sys w).self.m_shiftKeyStateEnabled =
      w.self.m_shiftKeyStateEnabled ∧
    (ResetWindowTransparency sys w).self.m_ctrlKeyStateEnabled =
      w.self.m_ctrlKeyStateEnabled ∧
    (ResetWindowTransparency sys w).self.m_draggedWindowInfo = w.self.m_draggedWindowInfo ∧
    (ResetWindowTransparency sys w).self.m_inDragging = w.self.m_inDragging ∧
    (ResetWindowTransparency sys w).self.m_draggedWindow = w.self.m_draggedWindow ∧
    (ResetWindowTransparency sys w).self.m_draggedWindowWorkArea =
      w.self.m_draggedWindowWorkArea ∧
    (ResetWindowTransparency sys w).self.m_dragEnabled = w.self.m_dragEnabled := by
  unfold ResetWindowTransparency
  simp only
  split_ifs <;> simp

/-- `SetWindowTransparency` changes the saved attributes and the window only. -/
theorem setWindowTransparency_frame (sys : System) (window : HWND) (w : World) :
    (SetWindowTransparency sys window w).log = w.log ∧
    (SetWindowTransparency sys window w).warning_shown = w.warning_shown ∧
    (SetWindowTransparency sys window w).self.m_mouseState = w.self.m_mouseState ∧
    (SetWindowTransparency sys window w).self.m_mouseHookEnabled =
      w.self.m_mouseHookEnabled ∧
    (SetWindowTransparency sys window w).self.m_shiftKeyStateEnabled =
      w.self.m_shiftKeyStateEnabled ∧
    (SetWindowTransparency sys window w).self.m_ctrlKeyStateEnabled =
      w.self.m_ctrlKeyStateEnabled ∧
    (SetWindowTransparency sys window w).self.m_draggedWindowInfo =
      w.self.m_draggedWindowInfo ∧
    (SetWindowTransparency sys window w).self.m_inDragging = w.self.m_inDragging ∧
    (SetWindowTransparency sys window w).self.m_draggedWindow = w.self.m_draggedWindow ∧
    (SetWindowTransparency sys window w).self.m_draggedWindowWorkArea =
      w.self.m_draggedWindowWorkArea ∧
    (SetWindowTransparency sys window w).self.m_dragEnabled = w.self.m_dragEnabled := by
  unfold SetWindowTransparency
  simp only
  split_ifs <;> simp

/-- The log after `MoveSizeEnd`: nothing for a window that is not the tracked one; otherwise
the commit call unless the drop is aborted, or the effects of the branch without an active
work area, followed by one `HideZoneWindow` call for every non-empty handle of the map. -/
theorem moveSizeEnd_log (sys : System) (window : HWND) (ptScreen : POINT)
    (workAreaMap : PerDesktopData) (w : World) :
    (MoveSizeEnd sys window ptScreen workAreaMap w).log = w.log ++
      (if window ≠ w.self.m_draggedWindow then []
      else
        (if w.self.m_draggedWindowWorkArea.isSome then
          (if (sys.IsStandardWindow window == false && sys.HasNoVisibleOwner window == true &&
                w.self.m_draggedWindowInfo.isStandardWindow == true &&
                w.self.m_draggedWindowInfo.hasNoVisibleOwner == true) ||
                sys.IsWindowMaximized window then []
          else [Effect.workArea w.self.m_draggedWindowWorkArea
            (WorkAreaCall.MoveSizeEnd w.self.m_draggedWindow ptScreen)])
        else
          (if sys.settings.restoreSize then
            (if IsCursorTypeIndicatingSizeEvent sys then
              [Effect.RemoveProp window ZonedWindowProperty.PropertyRestoreSizeID]
            else if !sys.IsWindowMaximized window then [Effect.RestoreWindowSize window]
            else [])
          else []) ++
          (removeAppLastZone sys window workAreaMap { w with log := [] }).log ++
          [Effect.RemoveProp window ZonedWindowProperty.PropertyMultipleZoneID]) ++
        List.map (fun workArea => Effect.workArea workArea WorkAreaCall.HideZoneWindow)
          (workAreasOf workAreaMap)) := by
  unfold MoveSizeEnd
  by_cases hw : window = w.self.m_draggedWindow
  · subst hw
    simp only [bne_self_eq_false, Bool.false_eq_true, if_false, hideZoneWindows_eq,
      ne_eq, not_true_eq_false]
    by_cases ha : w.self.m_draggedWindowWorkArea.isSome = true
    · simp only [ha, if_true, (resetWindowTransparency_frame sys _).2.2.2.2.2.2.1,
        (resetWindowTransparency_frame sys _).2.2.2.2.2.2.2.2.1]
      split_ifs <;> simp [invoke, (resetWindowTransparency_frame sys _).1]
    · simp only [ha, Bool.false_eq_true, if_false, perform]
      rw [removeAppLastZone_log sys _ workAreaMap _ { w with log := [] } rfl]
      split_ifs <;> simp
  · have hne : (window != w.self.m_draggedWindow) = true := by simpa using hw
    simp [hne, hw]


theorem moveSizeEnd_ignored (sys : System) (window : HWND) (ptScreen : POINT)
    (workAreaMap : PerDesktopData) (w : World) (h : window ≠ w.self.m_draggedWindow) :
    MoveSizeEnd sys window ptScreen workAreaMap w = w := by
  unfold MoveSizeEnd
  have hne : (window != w.self.m_draggedWindow) = true := by simpa using h
  simp [hne]

/-- Members after a `MoveSizeEnd` for the tracked window. -/
theorem moveSizeEnd_fields (sys : System) (window : HWND) (ptScreen : POINT)
    (workAreaMap : PerDesktopData) (w : World) (h : window = w.self.m_draggedWindow) :
    (MoveSizeEnd sys window ptScreen workAreaMap w).self.m_inDragging = false ∧
    (MoveSizeEnd sys window ptScreen workAreaMap w).self.m_dragEnabled = false ∧
    (MoveSizeEnd sys window ptScreen workAreaMap w).self.m_draggedWindowWorkArea = none ∧
    (MoveSizeEnd sys window ptScreen workAreaMap w).self.m_draggedWindow = 0 ∧
    (MoveSizeEnd sys window ptScreen workAreaMap w).self.m_mouseState = false ∧
    (MoveSizeEnd sys window ptScreen workAreaMap w).self.m_mouseHookEnabled = false ∧
    (MoveSizeEnd sys window ptScreen workAreaMap w).self.m_shiftKeyStateEnabled = false ∧
    (MoveSizeEnd sys window ptScreen workAreaMap w).self.m_ctrlKeyStateEnabled = false ∧
    (MoveSizeEnd sys window ptScreen workAreaMap w).warning_shown = w.warning_shown := by
  unfold MoveSizeEnd
  subst h
  simp only [bne_self_eq_false, Bool.false_eq_true, if_false, hideZoneWindows_eq]
  by_cases ha : w.self.m_draggedWindowWorkArea.isSome = true
  · simp only [ha, if_true]
    split_ifs <;> simp [invoke, resetWindowTransparency_frame]
  · simp only [ha, Bool.false_eq_true, if_false, perform]
    have hnone : w.self.m_draggedWindowWorkArea = none := by
      cases hx : w.self.m_draggedWindowWorkArea with
      | none => rfl
      | some x => simp [hx] at ha
    simp only [removeAppLastZone_frame]
    split_ifs <;> simp [hnone]

theorem noEmptyHandle_mapFind (workAreaMap : PerDesktopData) (monitor : HMONITOR)
    (workArea : WorkAreaPtr) (h : NoEmptyHandle workAreaMap)
    (hfind : mapFind workAreaMap monitor = some workArea) : workArea.isSome = true := by
  induction workAreaMap with
  | nil => simp [mapFind] at hfind
  | cons e rest ih =>
    obtain ⟨k, v⟩ := e
    simp only [mapFind] at hfind
    split_ifs at hfind with hk
    · simp only [Option.some.injEq] at hfind
      subst hfind
      exact h (k, v) (by simp)
    · exact ih (fun entry he => h entry (List.mem_cons_of_mem _ he)) hfind

theorem isThroughEmptyHandle_workArea (receiver : WorkAreaPtr) (call : WorkAreaCall) :
    (Effect.workArea receiver call).isThroughEmptyHandle = !receiver.isSome := by
  cases receiver <;> rfl

theorem isSome_of_mem_workAreasOf (workAreaMap : PerDesktopData) (workArea : WorkAreaPtr)
    (h : workArea ∈ workAreasOf workAreaMap) : workArea.isSome = true := by
  unfold workAreasOf at h
  simp only [List.mem_map, List.mem_filter] at h
  obtain ⟨entry, ⟨_, hsome⟩, rfl⟩ := h
  exact hsome

/-- `removeAppLastZone` makes no call through an empty handle when the handle stored for the
monitor of the window is not empty. -/
theorem removeAppLastZone_no_empty_handle (sys : System) (window : HWND)
    (workAreaMap : PerDesktopData) (w0 : World) (h0 : w0.log = [])
    (hhandle : sys.MonitorFromWindow window ≠ 0 →
      mapFind workAreaMap (sys.MonitorFromWindow window) ≠ some none) :
    ∀ e ∈ (removeAppLastZone sys window workAreaMap w0).log,
      e.isThroughEmptyHandle = false := by
  unfold removeAppLastZone
  simp only [invoke, perform]
  by_cases hm : sys.MonitorFromWindow window = 0
  · simp [hm, h0]
  · have hne := hhandle hm
    cases hfind : mapFind workAreaMap (sys.MonitorFromWindow window) with
    | none => simp [hm, h0]
    | some workAreaPtr =>
      cases workAreaPtr with
      | none => exact absurd hfind hne
      | some workArea =>
        simp only [bne_iff_ne, ne_eq, hm, not_false_eq_true, if_true, Option.bind_some,
          Option.map_some, h0, List.nil_append]
        split
        · split <;> simp [Effect.isThroughEmptyHandle]
        · simp [Effect.isThroughEmptyHandle]

/-- `MoveSizeEnd` makes no call through an empty handle when, without an active work area,
the handle stored for the monitor of the window is not empty. -/
theorem moveSizeEnd_no_empty_handle (sys : System) (window : HWND) (ptScreen : POINT)
    (workAreaMap : PerDesktopData) (w : World)
    (hhandle : w.self.m_draggedWindowWorkArea = none → sys.MonitorFromWindow window ≠ 0 →
      mapFind workAreaMap (sys.MonitorFromWindow window) ≠ some none) :
    ∀ e ∈ effectsSince w (MoveSizeEnd sys window ptScreen workAreaMap w),
      e.isThroughEmptyHandle = false := by
  rw [effectsSince_eq w _ _ (moveSizeEnd_log sys window ptScreen workAreaMap w)]
  intro e he
  have hhides : ∀ e ∈ List.map
      (fun workArea => Effect.workArea workArea WorkAreaCall.HideZoneWindow)
      (workAreasOf workAreaMap), e.isThroughEmptyHandle = false := by
    intro e he
    simp only [List.mem_map] at he
    obtain ⟨workArea, hmem, rfl⟩ := he
    rw [isThroughEmptyHandle_workArea, isSome_of_mem_workAreasOf workAreaMap workArea hmem]
    rfl
  by_cases hw : window = w.self.m_draggedWindow
  · simp only [hw, ne_eq, not_true_eq_false, if_false, List.mem_append] at he
    rcases he with he | he
    swap
    · exact hhides e he
    by_cases ha : w.self.m_draggedWindowWorkArea.isSome = true
    · simp only [ha, if_true] at he
      split_ifs at he
      · simp at he
      · simp only [List.mem_singleton] at he
        rw [he, isThroughEmptyHandle_workArea, ha]
        rfl
    · have hnone : w.self.m_draggedWindowWorkArea = none := by
        cases hx : w.self.m_draggedWindowWorkArea with
        | none => rfl
        | some x => simp [hx] at ha
      simp only [ha, Bool.false_eq_true, if_false, List.mem_append] at he
      rcases he with (he | he) | he
      · split_ifs at he <;> simp at he <;> simp [he, Effect.isThroughEmptyHandle]
      · rw [← hw] at he
        exact removeAppLastZone_no_empty_handle sys window workAreaMap _ rfl
          (hhandle hnone) e he
      · simp only [List.mem_singleton] at he
        simp [he, Effect.isThroughEmptyHandle]
  · simp [hw] at he

/-! ## C12 -/

/-- C12: from the idle state, a `MoveSizeStart` for a window that is not a zoning candidate,
or made while the cursor glyph indicates a resize, leaves the whole state unchanged, log of
calls included, and so do a following `MoveSizeUpdate` and a following `MoveSizeEnd` for that
window. -/
theorem moveSizeStart_ignored_is_noop (sysStart sysUpdate sysEnd : System) (window : HWND)
    (monitor monitor' : HMONITOR) (ptScreen ptScreen' ptScreen'' : POINT)
    (workAreaMap workAreaMap' workAreaMap'' : PerDesktopData) (fuel : Nat) (w : World)
    (hdragging : w.self.m_inDragging = false) (hdragged : w.self.m_draggedWindow = 0)
    (_hactive : w.self.m_draggedWindowWorkArea = none) (hwindow : window ≠ 0)
    (hignored : sysStart.IsCandidateForZoning window = false ∨
      IsCursorTypeIndicatingSizeEvent sysStart = true) :
    MoveSizeStart sysStart window monitor ptScreen workAreaMap w = w ∧
    MoveSizeUpdate (fuel + 1) sysUpdate monitor' ptScreen' workAreaMap'
      (MoveSizeStart sysStart window monitor ptScreen workAreaMap w) = some w ∧
    MoveSizeEnd sysEnd window ptScreen'' workAreaMap'' w = w ∧
    effectsSince w (MoveSizeStart sysStart window monitor ptScreen workAreaMap w) = [] := by
  have hstart : MoveSizeStart sysStart window monitor ptScreen workAreaMap w = w := by
    unfold MoveSizeStart
    rcases hignored with h | h <;> simp [h]
  refine ⟨hstart, ?_, ?_, ?_⟩
  · rw [hstart]
    simp [MoveSizeUpdate, hdragging]
  · exact moveSizeEnd_ignored sysEnd window ptScreen'' workAreaMap'' w (by rw [hdragged]; exact hwindow)
  · rw [hstart]
    simp [effectsSince]

/-- Witness of C12: window 5 is excluded from zoning. -/
theorem moveSizeStart_ignored_is_noop_witness :
    MoveSizeStart { sampleSystem with IsCandidateForZoning := fun _ => false } 5 1 ⟨3, 4⟩
      [(1, some 7)] idleWorld = idleWorld ∧
    MoveSizeUpdate 1 sampleSystem 1 ⟨3, 4⟩ [(1, some 7)]
      (MoveSizeStart { sampleSystem with IsCandidateForZoning := fun _ => false } 5 1 ⟨3, 4⟩
        [(1, some 7)] idleWorld) = some idleWorld ∧
    MoveSizeEnd sampleSystem 5 ⟨3, 4⟩ [(1, some 7)] idleWorld = idleWorld :=
  ⟨(moveSizeStart_ignored_is_noop { sampleSystem with IsCandidateForZoning := fun _ => false }
      sampleSystem sampleSystem 5 1 1 ⟨3, 4⟩ ⟨3, 4⟩ ⟨3, 4⟩ [(1, some 7)] [(1, some 7)]
      [(1, some 7)] 0 idleWorld rfl rfl rfl (by decide) (Or.inl rfl)).1,
    (moveSizeStart_ignored_is_noop { sampleSystem with IsCandidateForZoning := fun _ => false }
      sampleSystem sampleSystem 5 1 1 ⟨3, 4⟩ ⟨3, 4⟩ ⟨3, 4⟩ [(1, some 7)] [(1, some 7)]
      [(1, some 7)] 0 idleWorld rfl rfl rfl (by decide) (Or.inl rfl)).2.1,
    (moveSizeStart_ignored_is_noop { sampleSystem with IsCandidateForZoning := fun _ => false }
      sampleSystem sampleSystem 5 1 1 ⟨3, 4⟩ ⟨3, 4⟩ ⟨3, 4⟩ [(1, some 7)] [(1, some 7)]
      [(1, some 7)] 0 idleWorld rfl rfl rfl (by decide) (Or.inl rfl)).2.2.1⟩

/-! ## C13 -/

/-- C13: a `MoveSizeEnd` call for a window that is maximized at drop time invokes the commit
callback `MoveSizeEnd` of no work area, whatever the state of the drag session and the
recorded traits are. -/
theorem moveSizeEnd_maximized_no_commit (sys : System) (window : HWND) (ptScreen : POINT)
    (workAreaMap : PerDesktopData) (w : World) (hmax : sys.IsWindowMaximized window = true) :
    (MoveSizeEnd sys window ptScreen workAreaMap w).log =
      w.log ++ effectsSince w (MoveSizeEnd sys window ptScreen workAreaMap w) ∧
    ∀ e ∈ effectsSince w (MoveSizeEnd sys window ptScreen workAreaMap w),
      e.isMoveSizeEnd = false := by
  have hlog := moveSizeEnd_log sys window ptScreen workAreaMap w
  have hsince := effectsSince_eq w _ _ hlog
  refine ⟨by rw [hsince]; exact hlog, ?_⟩
  rw [hsince]
  intro e he
  by_cases hw : window = w.self.m_draggedWindow
  · simp only [hw, ne_eq, not_true_eq_false, if_false, List.mem_append, List.mem_map] at he
    rcases he with he | ⟨wa, _, rfl⟩
    · by_cases ha : w.self.m_draggedWindowWorkArea.isSome = true
      · rw [← hw] at he
        simp [ha, hmax] at he
      · simp only [ha, Bool.false_eq_true, if_false, List.mem_append] at he
        rcases he with (he | he) | he
        · split_ifs at he <;> simp at he <;> simp [he, Effect.isMoveSizeEnd]
        · exact (removeAppLastZone_no_callback sys _ workAreaMap w e he).1
        · simp at he
          simp [he, Effect.isMoveSizeEnd]
    · rfl
  · simp [hw] at he

/-- Witness of C13: window 5 is dropped maximized while work area 7 is active, and the
commit call on work area 7 is not among the effects. -/
theorem moveSizeEnd_maximized_no_commit_witness :
    Effect.workArea (some 7) (WorkAreaCall.MoveSizeEnd 5 ⟨3, 4⟩) ∉
      effectsSince (MoveSizeStart sampleSystem 5 1 ⟨3, 4⟩ [(1, some 7)] idleWorld)
        (MoveSizeEnd { sampleSystem with IsWindowMaximized := fun _ => true } 5 ⟨3, 4⟩
          [(1, some 7)] (MoveSizeStart sampleSystem 5 1 ⟨3, 4⟩ [(1, some 7)] idleWorld)) :=
  fun h => Bool.noConfusion
    ((moveSizeEnd_maximized_no_commit
      { sampleSystem with IsWindowMaximized := fun _ => true } 5 ⟨3, 4⟩ [(1, some 7)]
      (MoveSizeStart sampleSystem 5 1 ⟨3, 4⟩ [(1, some 7)] idleWorld) rfl).2 _ h)

/-! ## C14 -/

/-- Counterexample to C14: window 5 is recorded at drag start as a standard window without
a visible owner; at drop time it is not standard and has a visible owner, it is not
maximized, and the commit callback of the active work area 7 is invoked. -/
theorem moveSizeEnd_commits_with_visible_owner :
    (MoveSizeStart sampleSystem 5 1 ⟨3, 4⟩ [(1, some 7)] idleWorld).self.m_draggedWindowInfo
      = ⟨true, true⟩ ∧
    (MoveSizeStart sampleSystem 5 1 ⟨3, 4⟩ [(1, some 7)] idleWorld).self.m_draggedWindow = 5 ∧
    (MoveSizeStart sampleSystem 5 1 ⟨3, 4⟩ [(1, some 7)]
      idleWorld).self.m_draggedWindowWorkArea = some 7 ∧
    effectsSince (MoveSizeStart sampleSystem 5 1 ⟨3, 4⟩ [(1, some 7)] idleWorld)
      (MoveSizeEnd
        { sampleSystem with
          IsStandardWindow := fun _ => false
          HasNoVisibleOwner := fun _ => false } 5 ⟨3, 4⟩ [(1, some 7)]
        (MoveSizeStart sampleSystem 5 1 ⟨3, 4⟩ [(1, some 7)] idleWorld)) =
      [Effect.workArea (some 7) (WorkAreaCall.MoveSizeEnd 5 ⟨3, 4⟩),
        Effect.workArea (some 7) WorkAreaCall.HideZoneWindow] := by
  refine ⟨by decide, by decide, by decide, by decide⟩

/-- C14, amended: for a `MoveSizeEnd` call for the tracked window with an active work area,
if at drop time the window is not a standard window and has no visible owner, while at drag
start it was recorded as a standard window with no visible owner, then the commit callback
`MoveSizeEnd` of no work area is invoked. -/
theorem moveSizeEnd_tab_merge_no_commit (sys : System) (window : HWND) (ptScreen : POINT)
    (workAreaMap : PerDesktopData) (w : World) (htracked : window = w.self.m_draggedWindow)
    (hactive : w.self.m_draggedWindowWorkArea.isSome = true)
    (hstandard : sys.IsStandardWindow window = false)
    (howner : sys.HasNoVisibleOwner window = true)
    (hwasStandard : w.self.m_draggedWindowInfo.isStandardWindow = true)
    (hwasOwnerless : w.self.m_draggedWindowInfo.hasNoVisibleOwner = true) :
    (MoveSizeEnd sys window ptScreen workAreaMap w).log =
      w.log ++ effectsSince w (MoveSizeEnd sys window ptScreen workAreaMap w) ∧
    ∀ e ∈ effectsSince w (MoveSizeEnd sys window ptScreen workAreaMap w),
      e.isMoveSizeEnd = false := by
  have hlog := moveSizeEnd_log sys window ptScreen workAreaMap w
  have hsince := effectsSince_eq w _ _ hlog
  refine ⟨by rw [hsince]; exact hlog, ?_⟩
  rw [hsince]
  intro e he
  simp only [htracked, ne_eq, not_true_eq_false, if_false, hactive, if_true] at he
  rw [← htracked] at he
  simp only [hstandard, howner, hwasStandard, hwasOwnerless, beq_self_eq_true, Bool.and_self,
    Bool.true_or, if_true, List.nil_append, List.mem_map] at he
  obtain ⟨wa, _, rfl⟩ := he
  rfl

/-- Witness of C14, amended: at drop time window 5 is not standard and has no visible
owner. -/
theorem moveSizeEnd_tab_merge_no_commit_witness :
    Effect.workArea (some 7) (WorkAreaCall.MoveSizeEnd 5 ⟨3, 4⟩) ∉
      effectsSince (MoveSizeStart sampleSystem 5 1 ⟨3, 4⟩ [(1, some 7)] idleWorld)
        (MoveSizeEnd { sampleSystem with IsStandardWindow := fun _ => false } 5 ⟨3, 4⟩
          [(1, some 7)] (MoveSizeStart sampleSystem 5 1 ⟨3, 4⟩ [(1, some 7)] idleWorld)) :=
  fun h => Bool.noConfusion
    ((moveSizeEnd_tab_merge_no_commit { sampleSystem with IsStandardWindow := fun _ => false }
      5 ⟨3, 4⟩ [(1, some 7)] (MoveSizeStart sampleSystem 5 1 ⟨3, 4⟩ [(1, some 7)] idleWorld)
      (by decide) (by decide) rfl rfl (by decide) (by decide)).2 _ h)

/-! ## C17 -/

theorem filter_isHideZoneWindow_hides (workAreas : List WorkAreaPtr) :
    (List.map (fun workArea => Effect.workArea workArea WorkAreaCall.HideZoneWindow)
      workAreas).filter Effect.isHideZoneWindow =
    List.map (fun workArea => Effect.workArea workArea WorkAreaCall.HideZoneWindow)
      workAreas := by
  induction workAreas with
  | nil => rfl
  | cons a rest ih => simp [List.filter_cons, Effect.isHideZoneWindow, ih]

theorem filter_eq_nil_of_forall {α : Type} (p : α → Bool) (l : List α)
    (h : ∀ e ∈ l, p e = false) : l.filter p = [] := by
  induction l with
  | nil => rfl
  | cons a rest ih =>
    have ha := h a (List.mem_cons_self _ _)
    simp [List.filter_cons, ha, ih (fun e he => h e (List.mem_cons_of_mem _ he))]

/-- A `MoveSizeEnd` call for the tracked window that reaches no empty handle (a work area
is active, or the handle stored for the monitor of the window is not empty) makes no call
through an empty handle and invokes `HideZoneWindow` exactly once for every non-empty work
area of the map, in whatever branch it takes; afterwards no window is tracked and the
secondary toggle is off. -/
theorem moveSizeEnd_hides_every_work_area (sys : System) (window : HWND) (ptScreen : POINT)
    (workAreaMap : PerDesktopData) (w : World) (htracked : window = w.self.m_draggedWindow)
    (hhandle : w.self.m_draggedWindowWorkArea = none → sys.MonitorFromWindow window ≠ 0 →
      mapFind workAreaMap (sys.MonitorFromWindow window) ≠ some none) :
    (∀ e ∈ effectsSince w (MoveSizeEnd sys window ptScreen workAreaMap w),
      e.isThroughEmptyHandle = false) ∧
    (MoveSizeEnd sys window ptScreen workAreaMap w).log =
      w.log ++ effectsSince w (MoveSizeEnd sys window ptScreen workAreaMap w) ∧
    (effectsSince w (MoveSizeEnd sys window ptScreen workAreaMap w)).filter
        Effect.isHideZoneWindow =
      List.map (fun workArea => Effect.workArea workArea WorkAreaCall.HideZoneWindow)
        (workAreasOf workAreaMap) ∧
    ((workAreasOf workAreaMap).Nodup → ∀ workArea ∈ workAreasOf workAreaMap,
      (effectsSince w (MoveSizeEnd sys window ptScreen workAreaMap w)).count
        (Effect.workArea workArea WorkAreaCall.HideZoneWindow) = 1) ∧
    (MoveSizeEnd sys window ptScreen workAreaMap w).self.m_draggedWindow = 0 ∧
    (MoveSizeEnd sys window ptScreen workAreaMap w).self.m_mouseState = false := by
  have hlog := moveSizeEnd_log sys window ptScreen workAreaMap w
  have hsince := effectsSince_eq w _ _ hlog
  have hfields := moveSizeEnd_fields sys window ptScreen workAreaMap w htracked
  have hfilter : (effectsSince w (MoveSizeEnd sys window ptScreen workAreaMap w)).filter
        Effect.isHideZoneWindow =
      List.map (fun workArea => Effect.workArea workArea WorkAreaCall.HideZoneWindow)
        (workAreasOf workAreaMap) := by
    rw [hsince]
    simp only [htracked, ne_eq, not_true_eq_false, if_false, List.filter_append,
      filter_isHideZoneWindow_hides]
    rw [← htracked]
    have hbranch : ∀ l : List Effect, (∀ e ∈ l, e.isHideZoneWindow = false) →
        l.filter Effect.isHideZoneWindow ++
          List.map (fun workArea => Effect.workArea workArea WorkAreaCall.HideZoneWindow)
            (workAreasOf workAreaMap) =
          List.map (fun workArea => Effect.workArea workArea WorkAreaCall.HideZoneWindow)
            (workAreasOf workAreaMap) := by
      intro l hl
      rw [filter_eq_nil_of_forall _ _ hl, List.nil_append]
    apply hbranch
    intro e he
    by_cases ha : w.self.m_draggedWindowWorkArea.isSome = true
    · simp only [ha, if_true] at he
      split_ifs at he
      · simp at he
      · simp at he
        simp [he, Effect.isHideZoneWindow]
    · simp only [ha, Bool.false_eq_true, if_false, List.mem_append] at he
      rcases he with (he | he) | he
      · split_ifs at he <;> simp at he <;> simp [he, Effect.isHideZoneWindow]
      · exact (removeAppLastZone_no_callback sys _ workAreaMap w e he).2.2.2.1
      · simp at he
        simp [he, Effect.isHideZoneWindow]
  refine ⟨moveSizeEnd_no_empty_handle sys window ptScreen workAreaMap w hhandle,
    by rw [hsince]; exact hlog, hfilter, ?_, hfields.2.2.2.1, hfields.2.2.2.2.1⟩
  intro hnodup workArea hmem
  have hcount : ∀ l : List Effect,
      l.count (Effect.workArea workArea WorkAreaCall.HideZoneWindow) =
        (l.filter Effect.isHideZoneWindow).count
          (Effect.workArea workArea WorkAreaCall.HideZoneWindow) := by
    intro l
    induction l with
    | nil => rfl
    | cons a rest ih =>
      by_cases hhide : a.isHideZoneWindow = true
      · simp [List.filter_cons, hhide, List.count_cons, ih]
      · have hne : ¬ a = Effect.workArea workArea WorkAreaCall.HideZoneWindow := by
          intro h
          rw [h] at hhide
          exact hhide rfl
        simp [List.filter_cons, hhide, List.count_cons, ih, hne]
  rw [hcount, hfilter]
  have hinj : Function.Injective
      (fun workArea : WorkAreaPtr => Effect.workArea workArea WorkAreaCall.HideZoneWindow) := by
    intro a b hab
    simpa using hab
  rw [List.count_map_of_injective _ _ hinj]
  exact List.count_eq_one_of_mem hnodup hmem

/-- Window 5 is dropped while work area 7 is active; work areas 7 and 8 are each hidden
once. -/
theorem moveSizeEnd_hides_every_work_area_witness :
    (effectsSince (MoveSizeStart sampleSystem 5 1 ⟨3, 4⟩ [(1, some 7), (2, some 8)] idleWorld)
      (MoveSizeEnd sampleSystem 5 ⟨3, 4⟩ [(1, some 7), (2, some 8)]
        (MoveSizeStart sampleSystem 5 1 ⟨3, 4⟩ [(1, some 7), (2, some 8)]
          idleWorld))).filter Effect.isHideZoneWindow =
      [Effect.workArea (some 7) WorkAreaCall.HideZoneWindow,
        Effect.workArea (some 8) WorkAreaCall.HideZoneWindow] :=
  (moveSizeEnd_hides_every_work_area sampleSystem 5 ⟨3, 4⟩ [(1, some 7), (2, some 8)]
    (MoveSizeStart sampleSystem 5 1 ⟨3, 4⟩ [(1, some 7), (2, some 8)] idleWorld)
    (by decide) (fun _ _ => by decide)).2.2.1

/-- C17: a `MoveSizeEnd` call for the tracked window that hides no work area. Window 5 is
tracked with no work area active and is on monitor 1; the map holds an empty handle for
monitor 1 and work area 8 for monitor 2. The first thing `MoveSizeEnd(5)` does is the call
of `ZoneSet` through the empty handle, before any `HideZoneWindow` and before the tracked
window and the secondary toggle are reset. -/
theorem moveSizeEnd_empty_handle_before_hides :
    (MoveSizeStart { sampleSystem with shiftKeyState := true } 5 1 ⟨3, 4⟩
      [(1, some 7), (2, some 8)] idleWorld).self.m_draggedWindow = 5 ∧
    (MoveSizeStart { sampleSystem with shiftKeyState := true } 5 1 ⟨3, 4⟩
      [(1, some 7), (2, some 8)] idleWorld).self.m_draggedWindowWorkArea = none ∧
    sampleSystem.MonitorFromWindow 5 = 1 ∧
    mapFind [(1, (none : WorkAreaPtr)), (2, some 8)] 1 = some none ∧
    (effectsSince
      (MoveSizeStart { sampleSystem with shiftKeyState := true } 5 1 ⟨3, 4⟩
        [(1, some 7), (2, some 8)] idleWorld)
      (MoveSizeEnd sampleSystem 5 ⟨3, 4⟩ [(1, none), (2, some 8)]
        (MoveSizeStart { sampleSystem with shiftKeyState := true } 5 1 ⟨3, 4⟩
          [(1, some 7), (2, some 8)] idleWorld))).head? =
      some (Effect.workArea none WorkAreaCall.ZoneSet) := by
  refine ⟨by decide, by decide, by decide, by decide, by decide⟩


/-! ## Lemmas on `MoveSizeStart` -/

/-- `UpdateDragState` writes `m_dragEnabled` only, from the three booleans. -/
theorem updateDragState_frame (settings : Settings) (shiftKeyState : Bool)
    (self : WindowMoveHandler) :
    (UpdateDragState settings shiftKeyState self).m_dragEnabled =
      (if settings.shiftDrag = true then xor shiftKeyState self.m_mouseState
        else !(xor shiftKeyState self.m_mouseState)) ∧
    (UpdateDragState settings shiftKeyState self).m_mouseState = self.m_mouseState ∧
    (UpdateDragState settings shiftKeyState self).m_mouseHookEnabled =
      self.m_mouseHookEnabled ∧
    (UpdateDragState settings shiftKeyState self).m_shiftKeyStateEnabled =
      self.m_shiftKeyStateEnabled ∧
    (UpdateDragState settings shiftKeyState self).m_ctrlKeyStateEnabled =
      self.m_ctrlKeyStateEnabled ∧
    (UpdateDragState settings shiftKeyState self).m_draggedWindowInfo =
      self.m_draggedWindowInfo ∧
    (UpdateDragState settings shiftKeyState self).m_inDragging = self.m_inDragging ∧
    (UpdateDragState settings shiftKeyState self).m_draggedWindow = self.m_draggedWindow ∧
    (UpdateDragState settings shiftKeyState self).m_draggedWindowWorkArea =
      self.m_draggedWindowWorkArea ∧
    (UpdateDragState settings shiftKeyState self).m_windowTransparencyProperties =
      self.m_windowTransparencyProperties := by
  unfold UpdateDragState
  split_ifs <;> simp

/-- What `WarnIfElevationIsRequired` changes: `m_dragEnabled`, the latch and the log. -/
theorem warnIfElevationIsRequired_frame (sys : System) (window : HWND) (w : World) :
    (WarnIfElevationIsRequired sys window w).log = w.log ++
      (if (!sys.is_process_elevated && sys.IsProcessOfWindowElevated window &&
          !w.warning_shown && !sys.is_toast_disabled) = true
        then [Effect.show_toast_with_activations] else []) ∧
    (WarnIfElevationIsRequired sys window w).warning_shown =
      (w.warning_shown || (!sys.is_process_elevated && sys.IsProcessOfWindowElevated window &&
          !sys.is_toast_disabled)) ∧
    (WarnIfElevationIsRequired sys window w).windows = w.windows ∧
    (WarnIfElevationIsRequired sys window w).self.m_dragEnabled =
      (!(!sys.is_process_elevated && sys.IsProcessOfWindowElevated window) &&
        w.self.m_dragEnabled) ∧
    (WarnIfElevationIsRequired sys window w).self.m_mouseState = w.self.m_mouseState ∧
    (WarnIfElevationIsRequired sys window w).self.m_mouseHookEnabled =
      w.self.m_mouseHookEnabled ∧
    (WarnIfElevationIsRequired sys window w).self.m_shiftKeyStateEnabled =
      w.self.m_shiftKeyStateEnabled ∧
    (WarnIfElevationIsRequired sys window w).self.m_ctrlKeyStateEnabled =
      w.self.m_ctrlKeyStateEnabled ∧
    (WarnIfElevationIsRequired sys window w).self.m_draggedWindowInfo =
      w.self.m_draggedWindowInfo ∧
    (WarnIfElevationIsRequired sys window w).self.m_inDragging = w.self.m_inDragging ∧
    (WarnIfElevationIsRequired sys window w).self.m_draggedWindow = w.self.m_draggedWindow ∧
    (WarnIfElevationIsRequired sys window w).self.m_draggedWindowWorkArea =
      w.self.m_draggedWindowWorkArea ∧
    (WarnIfElevationIsRequired sys window w).self.m_windowTransparencyProperties =
      w.self.m_windowTransparencyProperties := by
  unfold WarnIfElevationIsRequired
  cases h1 : sys.is_process_elevated <;> cases h2 : sys.IsProcessOfWindowElevated window <;>
    cases h3 : w.warning_shown <;> cases h4 : sys.is_toast_disabled <;> simp [perform, h3]

/-- `dismissWindow` only appends effects, and which ones does not depend on the state. -/
theorem dismissWindow_log (sys : System) (window : HWND) (monitor : HMONITOR)
    (workAreaMap : PerDesktopData) (w w0 : World) (h0 : w0.log = []) :
    (dismissWindow sys window monitor workAreaMap w).log =
      w.log ++ (dismissWindow sys window monitor workAreaMap w0).log := by
  unfold dismissWindow
  simp only [invoke, perform]
  split
  · split <;> simp [h0]
  · simp [h0]

theorem dismissWindow_frame (sys : System) (window : HWND) (monitor : HMONITOR)
    (workAreaMap : PerDesktopData) (w : World) :
    (dismissWindow sys window monitor workAreaMap w).self = w.self ∧
    (dismissWindow sys window monitor workAreaMap w).warning_shown = w.warning_shown ∧
    (dismissWindow sys window monitor workAreaMap w).windows = w.windows := by
  unfold dismissWindow
  simp only [invoke, perform]
  split
  · split <;> simp
  · simp

theorem dismissWindow_no_callback (sys : System) (window : HWND) (monitor : HMONITOR)
    (workAreaMap : PerDesktopData) (w0 : World) (h0 : w0.log = []) :
    ∀ e ∈ (dismissWindow sys window monitor workAreaMap w0).log,
      e.isMoveSizeEnd = false ∧ e.isMoveSizeEnter = false ∧ e.isShowZoneWindow = false ∧
      e.isHideZoneWindow = false ∧ e.isClearSelectedZones = false ∧
      e ≠ Effect.show_toast_with_activations := by
  unfold dismissWindow
  simp only [invoke, perform]
  split
  · split <;> simp [h0, Effect.isMoveSizeEnd, Effect.isMoveSizeEnter, Effect.isShowZoneWindow,
      Effect.isHideZoneWindow, Effect.isClearSelectedZones]
  · simp [h0]

theorem moveSizeStart_ignored (sys : System) (window : HWND) (monitor : HMONITOR)
    (ptScreen : POINT) (workAreaMap : PerDesktopData) (w : World)
    (h : (!sys.IsCandidateForZoning window || IsCursorTypeIndicatingSizeEvent sys) = true) :
    MoveSizeStart sys window monitor ptScreen workAreaMap w = w := by
  unfold MoveSizeStart
  simp only [h, if_true]

theorem moveSizeStart_no_monitor (sys : System) (window : HWND) (monitor : HMONITOR)
    (ptScreen : POINT) (workAreaMap : PerDesktopData) (w : World)
    (h : (!sys.IsCandidateForZoning window || IsCursorTypeIndicatingSizeEvent sys) = false)
    (hfind : mapFind workAreaMap monitor = none) :
    MoveSizeStart sys window monitor ptScreen workAreaMap w =
      { w with self := { w.self with
        m_draggedWindowInfo := ⟨sys.HasNoVisibleOwner window, sys.IsStandardWindow window⟩
        m_inDragging := true } } := by
  unfold MoveSizeStart
  simp only [h, Bool.false_eq_true, if_false, hfind]

/-- The log after a `MoveSizeStart` that is not ignored and finds the monitor in the map:
the warning toast when it is surfaced; then, when dragging is enabled, the `MoveSizeEnter`
call on the work area of the monitor and the `ShowZoneWindow` calls on the other non-empty
work areas when zones are shown on all monitors, or, when dragging is disabled and a work
area was active, the `HideZoneWindow` calls; and last the effects of `dismissWindow`. -/
theorem moveSizeStart_log (sys : System) (window : HWND) (monitor : HMONITOR)
    (ptScreen : POINT) (workAreaMap : PerDesktopData) (w : World) (iterSecond : WorkAreaPtr)
    (h : (!sys.IsCandidateForZoning window || IsCursorTypeIndicatingSizeEvent sys) = false)
    (hfind : mapFind workAreaMap monitor = some iterSecond) :
    (MoveSizeStart sys window monitor ptScreen workAreaMap w).log = w.log ++
      ((if (!sys.is_process_elevated && sys.IsProcessOfWindowElevated window &&
          !w.warning_shown && !sys.is_toast_disabled) = true
        then [Effect.show_toast_with_activations] else []) ++
      (if (!(!sys.is_process_elevated && sys.IsProcessOfWindowElevated window) &&
          (UpdateDragState sys.settings sys.shiftKeyState w.self).m_dragEnabled) = true then
        Effect.workArea iterSecond (WorkAreaCall.MoveSizeEnter window) ::
          (if sys.settings.showZonesOnAllMonitors = true then
            List.map (fun entry => Effect.workArea entry.2 WorkAreaCall.ShowZoneWindow)
              (workAreaMap.filter (fun entry =>
                entry.2.isSome && !decide (entry.2 = iterSecond)))
          else [])
      else if w.self.m_draggedWindowWorkArea.isSome = true then
        List.map (fun workArea => Effect.workArea workArea WorkAreaCall.HideZoneWindow)
          (workAreasOf workAreaMap)
      else []) ++
      (dismissWindow sys window monitor workAreaMap { w with log := [] }).log) := by
  unfold MoveSizeStart
  simp only [h, Bool.false_eq_true, if_false, hfind]
  rw [dismissWindow_log sys window monitor workAreaMap _ { w with log := [] } rfl,
    ← List.append_assoc]
  congr 1
  simp only [warnIfElevationIsRequired_frame, updateDragState_frame]
  split_ifs <;>
    simp_all [warnIfElevationIsRequired_frame, updateDragState_frame,
      setWindowTransparency_frame, resetWindowTransparency_frame, showOtherZoneWindows_eq,
      hideZoneWindows_eq, invoke]


theorem getWindowAttributes_mapAssign (windows : List (HWND × WindowAttributes))
    (window : HWND) (attributes : WindowAttributes) :
    getWindowAttributes (mapAssign windows window attributes) window = attributes := by
  simp [getWindowAttributes, mapFind_mapAssign]

theorem getWindowAttributes_mapAssign_ne (windows : List (HWND × WindowAttributes))
    (window other : HWND) (attributes : WindowAttributes) (h : window ≠ other) :
    getWindowAttributes (mapAssign windows window attributes) other =
      getWindowAttributes windows other := by
  simp [getWindowAttributes, mapFind_mapAssign, h]

theorem hasLayeredStyle_lor (exstyle : Nat) :
    hasLayeredStyle (exstyle ||| WS_EX_LAYERED) = true := by
  simp only [hasLayeredStyle, Nat.testBit_lor, WS_EX_LAYERED, Bool.or_eq_true]
  exact Or.inr (by decide)

theorem getWindowAttributes_SetWindowLong (windows : List (HWND × WindowAttributes))
    (window : HWND) (exstyle : Nat) :
    getWindowAttributes (SetWindowLong windows window exstyle) window =
      ⟨exstyle,
        if hasLayeredStyle exstyle then (getWindowAttributes windows window).layered
        else none⟩ := by
  simp [SetWindowLong, getWindowAttributes_mapAssign]

/-- After `SetWindowTransparency` the window has the style `WS_EX_LAYERED` added and is half
transparent. -/
theorem setWindowTransparency_windows (sys : System) (window : HWND) (w : World) :
    (SetWindowTransparency sys window w).windows =
      if sys.settings.makeDraggedWindowTransparent = true then
        mapAssign w.windows window
          ⟨(getWindowAttributes w.windows window).exstyle ||| WS_EX_LAYERED,
            some ⟨0, (255 * 50) / 100, LWA_ALPHA⟩⟩
      else w.windows := by
  unfold SetWindowTransparency
  split_ifs
  · simp [SetLayeredWindowAttributes, getWindowAttributes_SetWindowLong, hasLayeredStyle_lor]
    simp [SetWindowLong, mapAssign_mapAssign]
  · rfl

/-- After `ResetWindowTransparency` with a snapshot, the window has the saved extended
style; when that style has `WS_EX_LAYERED`, its layered attributes are the saved ones if the
window had the style when they were written and the ones it had otherwise; when it has not,
the window has no layered attributes. -/
theorem resetWindowTransparency_windows (sys : System) (w : World) :
    (ResetWindowTransparency sys w).windows =
      if (sys.settings.makeDraggedWindowTransparent &&
          w.self.m_windowTransparencyProperties.draggedWindow != 0) = true then
        mapAssign w.windows w.self.m_windowTransparencyProperties.draggedWindow
          ⟨w.self.m_windowTransparencyProperties.draggedWindowExstyle,
            if hasLayeredStyle w.self.m_windowTransparencyProperties.draggedWindowExstyle
            then
              (if hasLayeredStyle (getWindowAttributes w.windows
                  w.self.m_windowTransparencyProperties.draggedWindow).exstyle then
                some ⟨w.self.m_windowTransparencyProperties.draggedWindowCrKey,
                  w.self.m_windowTransparencyProperties.draggedWindowInitialAlpha,
                  w.self.m_windowTransparencyProperties.draggedWindowDwFlags⟩
              else (getWindowAttributes w.windows
                w.self.m_windowTransparencyProperties.draggedWindow).layered)
            else none⟩
      else w.windows := by
  unfold ResetWindowTransparency
  simp only
  by_cases h1 : (sys.settings.makeDraggedWindowTransparent &&
      w.self.m_windowTransparencyProperties.draggedWindow != 0) = true
  · rw [if_pos h1, if_pos h1]
    simp only [SetWindowLong, SetLayeredWindowAttributes]
    by_cases h3 : hasLayeredStyle (getWindowAttributes w.windows
        w.self.m_windowTransparencyProperties.draggedWindow).exstyle = true
    · simp only [h3, if_true, getWindowAttributes_mapAssign, mapAssign_mapAssign]
    · simp [h3]
  · rw [if_neg h1, if_neg h1]

/-- Members, latch and windows after a `MoveSizeStart` that is not ignored and finds the
monitor in the map. -/
theorem moveSizeStart_fields (sys : System) (window : HWND) (monitor : HMONITOR)
    (ptScreen : POINT) (workAreaMap : PerDesktopData) (w : World) (iterSecond : WorkAreaPtr)
    (h : (!sys.IsCandidateForZoning window || IsCursorTypeIndicatingSizeEvent sys) = false)
    (hfind : mapFind workAreaMap monitor = some iterSecond) :
    (MoveSizeStart sys window monitor ptScreen workAreaMap w).self.m_inDragging = true ∧
    (MoveSizeStart sys window monitor ptScreen workAreaMap w).self.m_draggedWindow = window ∧
    (MoveSizeStart sys window monitor ptScreen workAreaMap w).self.m_draggedWindowInfo =
      ⟨sys.HasNoVisibleOwner window, sys.IsStandardWindow window⟩ ∧
    (MoveSizeStart sys window monitor ptScreen workAreaMap w).self.m_dragEnabled =
      (!(!sys.is_process_elevated && sys.IsProcessOfWindowElevated window) &&
        (UpdateDragState sys.settings sys.shiftKeyState w.self).m_dragEnabled) ∧
    (MoveSizeStart sys window monitor ptScreen workAreaMap w).self.m_draggedWindowWorkArea =
      (if (!(!sys.is_process_elevated && sys.IsProcessOfWindowElevated window) &&
          (UpdateDragState sys.settings sys.shiftKeyState w.self).m_dragEnabled) = true
        then iterSecond else none) ∧
    (MoveSizeStart sys window monitor ptScreen workAreaMap w).self.m_mouseState =
      w.self.m_mouseState ∧
    (MoveSizeStart sys window monitor ptScreen workAreaMap w).self.m_mouseHookEnabled =
      (sys.settings.mouseSwitch || w.self.m_mouseHookEnabled) ∧
    (MoveSizeStart sys window monitor ptScreen workAreaMap w).self.m_shiftKeyStateEnabled =
      true ∧
    (MoveSizeStart sys window monitor ptScreen workAreaMap w).self.m_ctrlKeyStateEnabled =
      true ∧
    (MoveSizeStart sys window monitor ptScreen workAreaMap w).warning_shown =
      (w.warning_shown || (!sys.is_process_elevated && sys.IsProcessOfWindowElevated window &&
          !sys.is_toast_disabled)) ∧
    (MoveSizeStart sys window monitor ptScreen workAreaMap w).windows =
      (if (!(!sys.is_process_elevated && sys.IsProcessOfWindowElevated window) &&
          (UpdateDragState sys.settings sys.shiftKeyState w.self).m_dragEnabled) = true then
        (if sys.settings.makeDraggedWindowTransparent = true then
          mapAssign w.windows window
            ⟨(getWindowAttributes w.windows window).exstyle ||| WS_EX_LAYERED,
              some ⟨0, (255 * 50) / 100, LWA_ALPHA⟩⟩
        else w.windows)
      else if w.self.m_draggedWindowWorkArea.isSome = true then
        (ResetWindowTransparency sys w).windows
      else w.windows) := by
  unfold MoveSizeStart
  simp only [h, Bool.false_eq_true, if_false, hfind, dismissWindow_frame]
  simp only [warnIfElevationIsRequired_frame, updateDragState_frame]
  cases hms : sys.settings.mouseSwitch <;>
  split_ifs <;>
    simp_all [warnIfElevationIsRequired_frame, updateDragState_frame,
      setWindowTransparency_frame, resetWindowTransparency_frame, showOtherZoneWindows_eq,
      hideZoneWindows_eq, invoke, setWindowTransparency_windows,
      resetWindowTransparency_windows]

theorem setWindowTransparency_properties (sys : System) (window : HWND) (w : World) :
    (SetWindowTransparency sys window w).self.m_windowTransparencyProperties =
      if sys.settings.makeDraggedWindowTransparent = true then
        (match (getWindowAttributes w.windows window).layered with
        | some layered =>
          { draggedWindow := window
            draggedWindowExstyle := (getWindowAttributes w.windows window).exstyle
            draggedWindowCrKey := layered.crKey
            draggedWindowDwFlags := layered.flags
            draggedWindowInitialAlpha := layered.alpha }
        | none =>
          { w.self.m_windowTransparencyProperties with
            draggedWindow := window
            draggedWindowExstyle := (getWindowAttributes w.windows window).exstyle })
      else w.self.m_windowTransparencyProperties := by
  unfold SetWindowTransparency
  split_ifs
  · simp only [GetLayeredWindowAttributes, getWindowAttributes_SetWindowLong,
      hasLayeredStyle_lor, if_true]
  · rfl

/-- Saved attributes and windows after a `MoveSizeStart` that is not ignored and finds the
monitor in the map, when no work area was active. -/
theorem moveSizeStart_transparency (sys : System) (window : HWND) (monitor : HMONITOR)
    (ptScreen : POINT) (workAreaMap : PerDesktopData) (w : World) (iterSecond : WorkAreaPtr)
    (h : (!sys.IsCandidateForZoning window || IsCursorTypeIndicatingSizeEvent sys) = false)
    (hfind : mapFind workAreaMap monitor = some iterSecond)
    (hactive : w.self.m_draggedWindowWorkArea = none) :
    (MoveSizeStart sys window monitor ptScreen workAreaMap w
      ).self.m_windowTransparencyProperties =
      (if (!(!sys.is_process_elevated && sys.IsProcessOfWindowElevated window) &&
          (UpdateDragState sys.settings sys.shiftKeyState w.self).m_dragEnabled) = true then
        (SetWindowTransparency sys window w).self.m_windowTransparencyProperties
      else w.self.m_windowTransparencyProperties) ∧
    (MoveSizeStart sys window monitor ptScreen workAreaMap w).windows =
      (if (!(!sys.is_process_elevated && sys.IsProcessOfWindowElevated window) &&
          (UpdateDragState sys.settings sys.shiftKeyState w.self).m_dragEnabled) = true then
        (SetWindowTransparency sys window w).windows
      else w.windows) := by
  unfold MoveSizeStart
  simp only [h, Bool.false_eq_true, if_false, hfind, dismissWindow_frame]
  simp only [warnIfElevationIsRequired_frame, updateDragState_frame]
  cases hms : sys.settings.mouseSwitch <;>
  split_ifs <;>
    simp_all [warnIfElevationIsRequired_frame, updateDragState_frame,
      setWindowTransparency_frame, resetWindowTransparency_frame, showOtherZoneWindows_eq,
      hideZoneWindows_eq, invoke, setWindowTransparency_windows,
      setWindowTransparency_properties]

/-- A `MoveSizeStart` from two states at rest with the same latch and the same windows has
the same effects and leaves the same per-drag members, latch and windows. -/
theorem moveSizeStart_congr (sys : System) (window : HWND) (monitor : HMONITOR)
    (ptScreen : POINT) (workAreaMap : PerDesktopData) (a b : World) (ha : IsIdle a)
    (hb : IsIdle b) (hlatch : b.warning_shown = a.warning_shown)
    (hwindows : b.windows = a.windows) :
    effectsSince a (MoveSizeStart sys window monitor ptScreen workAreaMap a) =
      effectsSince b (MoveSizeStart sys window monitor ptScreen workAreaMap b) ∧
    dragFields (MoveSizeStart sys window monitor ptScreen workAreaMap a) =
      dragFields (MoveSizeStart sys window monitor ptScreen workAreaMap b) := by
  obtain ⟨ha1, ha2, ha3, ha4, ha5, ha6, ha7, ha8⟩ := ha
  obtain ⟨hb1, hb2, hb3, hb4, hb5, hb6, hb7, hb8⟩ := hb
  cases h : (!sys.IsCandidateForZoning window || IsCursorTypeIndicatingSizeEvent sys) with
  | true =>
    rw [moveSizeStart_ignored sys window monitor ptScreen workAreaMap a h,
      moveSizeStart_ignored sys window monitor ptScreen workAreaMap b h]
    simp [effectsSince, dragFields, ha1, ha2, ha3, ha4, ha5, ha6, ha7, ha8, hb1, hb2, hb3,
      hb4, hb5, hb6, hb7, hb8, hlatch, hwindows]
  | false =>
    cases hfind : mapFind workAreaMap monitor with
    | none =>
      rw [moveSizeStart_no_monitor sys window monitor ptScreen workAreaMap a h hfind,
        moveSizeStart_no_monitor sys window monitor ptScreen workAreaMap b h hfind]
      simp [effectsSince, dragFields, ha2, ha3, ha4, ha5, ha6, ha7, ha8, hb2, hb3,
        hb4, hb5, hb6, hb7, hb8, hlatch, hwindows]
    | some iterSecond =>
      have hla := moveSizeStart_log sys window monitor ptScreen workAreaMap a iterSecond h hfind
      have hlb := moveSizeStart_log sys window monitor ptScreen workAreaMap b iterSecond h hfind
      have hfa := moveSizeStart_fields sys window monitor ptScreen workAreaMap a iterSecond
        h hfind
      have hfb := moveSizeStart_fields sys window monitor ptScreen workAreaMap b iterSecond
        h hfind
      have hda := dismissWindow_log sys window monitor workAreaMap { a with log := [] }
        idleWorld rfl
      have hdb := dismissWindow_log sys window monitor workAreaMap { b with log := [] }
        idleWorld rfl
      constructor
      · rw [effectsSince_eq a _ _ hla, effectsSince_eq b _ _ hlb, hda, hdb]
        simp [updateDragState_frame, ha3, hb3, ha5, hb5, hlatch]
      · simp only [dragFields, hfa, hfb]
        simp [updateDragState_frame, ha3, hb3, ha5, hb5, ha6, hb6, hlatch, hwindows]

/-! ## C16 -/

/-- Counterexample to C16: while window 5 is dragged with work area 7 active, a
`MoveSizeEnd` call for window 6 leaves `inDragging` true, `dragEnabled` true and the active
work area in place. -/
theorem moveSizeEnd_other_window_keeps_drag :
    (MoveSizeEnd sampleSystem 6 ⟨3, 4⟩ [(1, some 7)]
      (MoveSizeStart sampleSystem 5 1 ⟨3, 4⟩ [(1, some 7)] idleWorld)).self.m_inDragging
      = true ∧
    (MoveSizeEnd sampleSystem 6 ⟨3, 4⟩ [(1, some 7)]
      (MoveSizeStart sampleSystem 5 1 ⟨3, 4⟩ [(1, some 7)] idleWorld)).self.m_dragEnabled
      = true ∧
    (MoveSizeEnd sampleSystem 6 ⟨3, 4⟩ [(1, some 7)]
      (MoveSizeStart sampleSystem 5 1 ⟨3, 4⟩ [(1, some 7)]
        idleWorld)).self.m_draggedWindowWorkArea = some 7 := by
  refine ⟨by decide, by decide, by decide⟩

theorem windowMoveHandler_ext (x y : WindowMoveHandler)
    (h1 : x.m_mouseState = y.m_mouseState) (h2 : x.m_mouseHookEnabled = y.m_mouseHookEnabled)
    (h3 : x.m_shiftKeyStateEnabled = y.m_shiftKeyStateEnabled)
    (h4 : x.m_ctrlKeyStateEnabled = y.m_ctrlKeyStateEnabled)
    (h5 : x.m_draggedWindowInfo = y.m_draggedWindowInfo)
    (h6 : x.m_inDragging = y.m_inDragging) (h7 : x.m_draggedWindow = y.m_draggedWindow)
    (h8 : x.m_draggedWindowWorkArea = y.m_draggedWindowWorkArea)
    (h9 : x.m_dragEnabled = y.m_dragEnabled)
    (h10 : x.m_windowTransparencyProperties = y.m_windowTransparencyProperties) : x = y := by
  cases x
  cases y
  simp only at h1 h2 h3 h4 h5 h6 h7 h8 h9 h10
  subst h1 h2 h3 h4 h5 h6 h7 h8 h9 h10
  rfl

/-- `MoveSizeStart` from two states without an active work area that differ in the log only
has the same effects and leaves the same members, latch and windows. -/
theorem moveSizeStart_same_members (sys : System) (window : HWND) (monitor : HMONITOR)
    (ptScreen : POINT) (workAreaMap : PerDesktopData) (a b : World)
    (hself : b.self = a.self) (hlatch : b.warning_shown = a.warning_shown)
    (hwindows : b.windows = a.windows) (hactive : a.self.m_draggedWindowWorkArea = none) :
    effectsSince a (MoveSizeStart sys window monitor ptScreen workAreaMap a) =
      effectsSince b (MoveSizeStart sys window monitor ptScreen workAreaMap b) ∧
    (MoveSizeStart sys window monitor ptScreen workAreaMap a).self =
      (MoveSizeStart sys window monitor ptScreen workAreaMap b).self ∧
    (MoveSizeStart sys window monitor ptScreen workAreaMap a).warning_shown =
      (MoveSizeStart sys window monitor ptScreen workAreaMap b).warning_shown ∧
    (MoveSizeStart sys window monitor ptScreen workAreaMap a).windows =
      (MoveSizeStart sys window monitor ptScreen workAreaMap b).windows := by
  obtain ⟨aself, alatch, awindows, alog⟩ := a
  obtain ⟨bself, blatch, bwindows, blog⟩ := b
  simp only at hself hlatch hwindows hactive
  subst hself hlatch hwindows
  cases h : (!sys.IsCandidateForZoning window || IsCursorTypeIndicatingSizeEvent sys) with
  | true =>
    rw [moveSizeStart_ignored sys window monitor ptScreen workAreaMap _ h,
      moveSizeStart_ignored sys window monitor ptScreen workAreaMap _ h]
    simp [effectsSince]
  | false =>
    cases hfind : mapFind workAreaMap monitor with
    | none =>
      rw [moveSizeStart_no_monitor sys window monitor ptScreen workAreaMap _ h hfind,
        moveSizeStart_no_monitor sys window monitor ptScreen workAreaMap _ h hfind]
      simp [effectsSince]
    | some iterSecond =>
      have hla := moveSizeStart_log sys window monitor ptScreen workAreaMap
        ⟨bself, blatch, bwindows, alog⟩ iterSecond h hfind
      have hlb := moveSizeStart_log sys window monitor ptScreen workAreaMap
        ⟨bself, blatch, bwindows, blog⟩ iterSecond h hfind
      have hfa := moveSizeStart_fields sys window monitor ptScreen workAreaMap
        ⟨bself, blatch, bwindows, alog⟩ iterSecond h hfind
      have hfb := moveSizeStart_fields sys window monitor ptScreen workAreaMap
        ⟨bself, blatch, bwindows, blog⟩ iterSecond h hfind
      have hta := moveSizeStart_transparency sys window monitor ptScreen workAreaMap
        ⟨bself, blatch, bwindows, alog⟩ iterSecond h hfind hactive
      have htb := moveSizeStart_transparency sys window monitor ptScreen workAreaMap
        ⟨bself, blatch, bwindows, blog⟩ iterSecond h hfind hactive
      refine ⟨?_, ?_, hfa.2.2.2.2.2.2.2.2.2.1.trans hfb.2.2.2.2.2.2.2.2.2.1.symm, ?_⟩
      rotate_left 2
      · rw [hta.2, htb.2]
        simp only [setWindowTransparency_windows]
      · rw [effectsSince_eq _ _ _ hla, effectsSince_eq _ _ _ hlb]
      · refine windowMoveHandler_ext _ _ (hfa.2.2.2.2.2.1.trans hfb.2.2.2.2.2.1.symm)
          (hfa.2.2.2.2.2.2.1.trans hfb.2.2.2.2.2.2.1.symm)
          (hfa.2.2.2.2.2.2.2.1.trans hfb.2.2.2.2.2.2.2.1.symm)
          (hfa.2.2.2.2.2.2.2.2.1.trans hfb.2.2.2.2.2.2.2.2.1.symm)
          (hfa.2.2.1.trans hfb.2.2.1.symm) (hfa.1.trans hfb.1.symm)
          (hfa.2.1.trans hfb.2.1.symm) (hfa.2.2.2.2.1.trans hfb.2.2.2.2.1.symm)
          (hfa.2.2.2.1.trans hfb.2.2.2.1.symm) ?_
        rw [hta.1, htb.1]
        simp only [setWindowTransparency_properties]

/-- C16, amended: a `MoveSizeEnd` call for the tracked window that reaches no empty handle
(a work area is active, or the handle stored for the monitor of the window is not empty)
makes no call through an empty handle, and after it `inDragging` is false, `dragEnabled` is
false and no work area is active; the per-drag members are those of a session at rest. A
following `MoveSizeStart` has the same effects and leaves the same per-drag members, latch
and windows as from any state at rest with the same latch and windows, and it leaves the
same state altogether as from the state at rest with the same recorded traits, snapshot
members, latch and windows. -/
theorem moveSizeEnd_resets (sys : System) (window : HWND) (ptScreen : POINT)
    (workAreaMap : PerDesktopData) (w : World) (htracked : window = w.self.m_draggedWindow)
    (hhandle : w.self.m_draggedWindowWorkArea = none → sys.MonitorFromWindow window ≠ 0 →
      mapFind workAreaMap (sys.MonitorFromWindow window) ≠ some none) :
    (∀ e ∈ effectsSince w (MoveSizeEnd sys window ptScreen workAreaMap w),
      e.isThroughEmptyHandle = false) ∧
    (MoveSizeEnd sys window ptScreen workAreaMap w).self.m_inDragging = false ∧
    (MoveSizeEnd sys window ptScreen workAreaMap w).self.m_dragEnabled = false ∧
    (MoveSizeEnd sys window ptScreen workAreaMap w).self.m_draggedWindowWorkArea = none ∧
    IsIdle (MoveSizeEnd sys window ptScreen workAreaMap w) ∧
    (∀ (sys' : System) (window' : HWND) (monitor' : HMONITOR) (ptScreen' : POINT)
        (workAreaMap' : PerDesktopData) (rest : World), IsIdle rest →
      rest.warning_shown = (MoveSizeEnd sys window ptScreen workAreaMap w).warning_shown →
      rest.windows = (MoveSizeEnd sys window ptScreen workAreaMap w).windows →
      effectsSince (MoveSizeEnd sys window ptScreen workAreaMap w)
          (MoveSizeStart sys' window' monitor' ptScreen' workAreaMap'
            (MoveSizeEnd sys window ptScreen workAreaMap w)) =
        effectsSince rest (MoveSizeStart sys' window' monitor' ptScreen' workAreaMap' rest) ∧
      dragFields (MoveSizeStart sys' window' monitor' ptScreen' workAreaMap'
          (MoveSizeEnd sys window ptScreen workAreaMap w)) =
        dragFields (MoveSizeStart sys' window' monitor' ptScreen' workAreaMap' rest)) ∧
    (∀ (sys' : System) (window' : HWND) (monitor' : HMONITOR) (ptScreen' : POINT)
        (workAreaMap' : PerDesktopData) (rest : World), IsIdle rest →
      rest.self.m_draggedWindowInfo =
        (MoveSizeEnd sys window ptScreen workAreaMap w).self.m_draggedWindowInfo →
      rest.self.m_windowTransparencyProperties =
        (MoveSizeEnd sys window ptScreen workAreaMap w).self.m_windowTransparencyProperties →
      rest.warning_shown = (MoveSizeEnd sys window ptScreen workAreaMap w).warning_shown →
      rest.windows = (MoveSizeEnd sys window ptScreen workAreaMap w).windows →
      effectsSince (MoveSizeEnd sys window ptScreen workAreaMap w)
          (MoveSizeStart sys' window' monitor' ptScreen' workAreaMap'
            (MoveSizeEnd sys window ptScreen workAreaMap w)) =
        effectsSince rest (MoveSizeStart sys' window' monitor' ptScreen' workAreaMap' rest) ∧
      (MoveSizeStart sys' window' monitor' ptScreen' workAreaMap'
          (MoveSizeEnd sys window ptScreen workAreaMap w)).self =
        (MoveSizeStart sys' window' monitor' ptScreen' workAreaMap' rest).self ∧
      (MoveSizeStart sys' window' monitor' ptScreen' workAreaMap'
          (MoveSizeEnd sys window ptScreen workAreaMap w)).warning_shown =
        (MoveSizeStart sys' window' monitor' ptScreen' workAreaMap' rest).warning_shown ∧
      (MoveSizeStart sys' window' monitor' ptScreen' workAreaMap'
          (MoveSizeEnd sys window ptScreen workAreaMap w)).windows =
        (MoveSizeStart sys' window' monitor' ptScreen' workAreaMap' rest).windows) := by
  have hf := moveSizeEnd_fields sys window ptScreen workAreaMap w htracked
  have hidle : IsIdle (MoveSizeEnd sys window ptScreen workAreaMap w) :=
    ⟨hf.1, hf.2.1, hf.2.2.2.2.1, hf.2.2.2.1, hf.2.2.1, hf.2.2.2.2.2.1, hf.2.2.2.2.2.2.1,
      hf.2.2.2.2.2.2.2.1⟩
  refine ⟨moveSizeEnd_no_empty_handle sys window ptScreen workAreaMap w hhandle,
    hf.1, hf.2.1, hf.2.2.1, hidle, ?_, ?_⟩
  · intro sys' window' monitor' ptScreen' workAreaMap' rest hrest hlatch hwindows
    exact moveSizeStart_congr sys' window' monitor' ptScreen' workAreaMap' _ rest hidle hrest
      hlatch hwindows
  · intro sys' window' monitor' ptScreen' workAreaMap' rest hrest htraits hsnapshot hlatch
      hwindows
    obtain ⟨r1, r2, r3, r4, r5, r6, r7, r8⟩ := hrest
    obtain ⟨e1, e2, e3, e4, e5, e6, e7, e8⟩ := hidle
    exact moveSizeStart_same_members sys' window' monitor' ptScreen' workAreaMap' _ rest
      (windowMoveHandler_ext _ _ (r3.trans e3.symm) (r6.trans e6.symm) (r7.trans e7.symm)
        (r8.trans e8.symm) htraits (r1.trans e1.symm) (r4.trans e4.symm) (r5.trans e5.symm)
        (r2.trans e2.symm) hsnapshot)
      hlatch hwindows e5

/-- Witness of C16, amended: the drag of window 5 is ended. -/
theorem moveSizeEnd_resets_witness :
    (MoveSizeEnd sampleSystem 5 ⟨3, 4⟩ [(1, some 7)]
      (MoveSizeStart sampleSystem 5 1 ⟨3, 4⟩ [(1, some 7)] idleWorld)).self.m_inDragging
      = false ∧
    (MoveSizeEnd sampleSystem 5 ⟨3, 4⟩ [(1, some 7)]
      (MoveSizeStart sampleSystem 5 1 ⟨3, 4⟩ [(1, some 7)] idleWorld)).self.m_dragEnabled
      = false ∧
    (MoveSizeEnd sampleSystem 5 ⟨3, 4⟩ [(1, some 7)]
      (MoveSizeStart sampleSystem 5 1 ⟨3, 4⟩ [(1, some 7)]
        idleWorld)).self.m_draggedWindowWorkArea = none :=
  match moveSizeEnd_resets sampleSystem 5 ⟨3, 4⟩ [(1, some 7)]
      (MoveSizeStart sampleSystem 5 1 ⟨3, 4⟩ [(1, some 7)] idleWorld) (by decide)
      (fun _ _ => by decide) with
  | ⟨_, h2, h3, h4, _⟩ => ⟨h2, h3, h4⟩


/-! ## C18 -/

/-- Counterexample to C18: window 5 is dragged with work area 7 active and dragging enabled;
a `MoveSizeStart` for it, a candidate whose monitor is in the map, made while its process is
elevated, the hosting process is not and the cursor glyph indicates a resize, is ignored:
`dragEnabled` stays true and work area 7 stays active. -/
theorem moveSizeStart_elevated_resize_cursor :
    ({ sampleSystem with
        IsProcessOfWindowElevated := fun _ => true
        GetCursorInfo := some IDC_SIZENS } : System).is_process_elevated = false ∧
    ({ sampleSystem with
        IsProcessOfWindowElevated := fun _ => true
        GetCursorInfo := some IDC_SIZENS } : System).IsProcessOfWindowElevated 5 = true ∧
    ({ sampleSystem with
        IsProcessOfWindowElevated := fun _ => true
        GetCursorInfo := some IDC_SIZENS } : System).IsCandidateForZoning 5 = true ∧
    mapFind [((1 : Nat), (some 7 : WorkAreaPtr))] 1 = some (some 7) ∧
    (MoveSizeStart
      { sampleSystem with
        IsProcessOfWindowElevated := fun _ => true
        GetCursorInfo := some IDC_SIZENS } 5 1 ⟨3, 4⟩ [(1, some 7)]
      (MoveSizeStart sampleSystem 5 1 ⟨3, 4⟩ [(1, some 7)] idleWorld)).self.m_dragEnabled
      = true ∧
    (MoveSizeStart
      { sampleSystem with
        IsProcessOfWindowElevated := fun _ => true
        GetCursorInfo := some IDC_SIZENS } 5 1 ⟨3, 4⟩ [(1, some 7)]
      (MoveSizeStart sampleSystem 5 1 ⟨3, 4⟩ [(1, some 7)]
        idleWorld)).self.m_draggedWindowWorkArea = some 7 := by
  refine ⟨rfl, rfl, by decide, by decide, by decide, by decide⟩

/-- C18, amended: for a `MoveSizeStart` on a candidate window whose monitor is in the map,
made while the hosting process is not elevated and the process of the window is: if the
cursor glyph does not indicate a resize, or `dragEnabled` was false and no work area was
active before, then afterwards `dragEnabled` is false, no work area is active, and the call
invoked neither `MoveSizeEnter` nor `ShowZoneWindow`, for every key state, secondary toggle
and `shiftDrag` setting. When the hosting process is elevated or the process of the window is
not, the guard changes nothing, and a call that is not ignored leaves `dragEnabled` as the
zone-enabled decision computes it. -/
theorem moveSizeStart_elevation_guard (sys : System) (window : HWND) (monitor : HMONITOR)
    (ptScreen : POINT) (workAreaMap : PerDesktopData) (w : World) (iterSecond : WorkAreaPtr)
    (hcandidate : sys.IsCandidateForZoning window = true)
    (hfind : mapFind workAreaMap monitor = some iterSecond) :
    (sys.is_process_elevated = false → sys.IsProcessOfWindowElevated window = true →
      (IsCursorTypeIndicatingSizeEvent sys = false ∨
        (w.self.m_dragEnabled = false ∧ w.self.m_draggedWindowWorkArea = none)) →
      (MoveSizeStart sys window monitor ptScreen workAreaMap w).self.m_dragEnabled = false ∧
      (MoveSizeStart sys window monitor ptScreen workAreaMap w).self.m_draggedWindowWorkArea
        = none ∧
      ∀ e ∈ effectsSince w (MoveSizeStart sys window monitor ptScreen workAreaMap w),
        e.isMoveSizeEnter = false ∧ e.isShowZoneWindow = false) ∧
    ((sys.is_process_elevated = true ∨ sys.IsProcessOfWindowElevated window = false) →
      (∀ x : World, WarnIfElevationIsRequired sys window x = x) ∧
      (IsCursorTypeIndicatingSizeEvent sys = false →
        (MoveSizeStart sys window monitor ptScreen workAreaMap w).self.m_dragEnabled =
          (UpdateDragState sys.settings sys.shiftKeyState w.self).m_dragEnabled)) := by
  constructor
  · intro helevated hwindow hstate
    cases hcursor : IsCursorTypeIndicatingSizeEvent sys with
    | true =>
      have hignored : (!sys.IsCandidateForZoning window ||
          IsCursorTypeIndicatingSizeEvent sys) = true := by simp [hcursor]
      rw [moveSizeStart_ignored sys window monitor ptScreen workAreaMap w hignored]
      rcases hstate with h | ⟨h1, h2⟩
      · rw [hcursor] at h
        exact absurd h (by decide)
      · exact ⟨h1, h2, by simp [effectsSince]⟩
    | false =>
      have haccepted : (!sys.IsCandidateForZoning window ||
          IsCursorTypeIndicatingSizeEvent sys) = false := by simp [hcursor, hcandidate]
      have hlog := moveSizeStart_log sys window monitor ptScreen workAreaMap w iterSecond
        haccepted hfind
      have hf := moveSizeStart_fields sys window monitor ptScreen workAreaMap w iterSecond
        haccepted hfind
      refine ⟨by simp [hf, helevated, hwindow], by simp [hf, helevated, hwindow], ?_⟩
      rw [effectsSince_eq w _ _ hlog]
      intro e he
      simp only [helevated, hwindow, Bool.not_false, Bool.and_self, Bool.true_and,
        Bool.not_true, Bool.false_and, Bool.false_eq_true, if_false, List.mem_append] at he
      rcases he with (he | he) | he
      · split_ifs at he <;> simp at he
        simp [he, Effect.isMoveSizeEnter, Effect.isShowZoneWindow]
      · split_ifs at he
        · simp only [List.mem_map] at he
          obtain ⟨wa, _, rfl⟩ := he
          exact ⟨rfl, rfl⟩
        · simp at he
      · have := dismissWindow_no_callback sys window monitor workAreaMap { w with log := [] }
          rfl e he
        exact ⟨this.2.1, this.2.2.1⟩
  · intro hno
    have hmismatch : (!sys.is_process_elevated && sys.IsProcessOfWindowElevated window)
        = false := by
      rcases hno with h | h <;> simp [h]
    refine ⟨?_, ?_⟩
    · intro x
      unfold WarnIfElevationIsRequired
      simp [hmismatch]
    · intro hcursor
      have haccepted : (!sys.IsCandidateForZoning window ||
          IsCursorTypeIndicatingSizeEvent sys) = false := by simp [hcursor, hcandidate]
      have hf := moveSizeStart_fields sys window monitor ptScreen workAreaMap w iterSecond
        haccepted hfind
      rw [hf.2.2.2.1, hmismatch]
      simp

/-- Witness of C18, amended: the process of window 5 is elevated and the hosting process is
not; the start is not ignored and dragging ends up disabled. -/
theorem moveSizeStart_elevation_guard_witness :
    (MoveSizeStart { sampleSystem with IsProcessOfWindowElevated := fun _ => true } 5 1 ⟨3, 4⟩
      [(1, some 7)] idleWorld).self.m_dragEnabled = false ∧
    (MoveSizeStart { sampleSystem with IsProcessOfWindowElevated := fun _ => true } 5 1 ⟨3, 4⟩
      [(1, some 7)] idleWorld).self.m_draggedWindowWorkArea = none :=
  ⟨((moveSizeStart_elevation_guard
      { sampleSystem with IsProcessOfWindowElevated := fun _ => true } 5 1 ⟨3, 4⟩
      [(1, some 7)] idleWorld (some 7) (by decide) (by decide)).1 rfl rfl
      (Or.inl (by decide))).1,
    ((moveSizeStart_elevation_guard
      { sampleSystem with IsProcessOfWindowElevated := fun _ => true } 5 1 ⟨3, 4⟩
      [(1, some 7)] idleWorld (some 7) (by decide) (by decide)).1 rfl rfl
      (Or.inl (by decide))).2.1⟩


/-! ## Lemmas on `MoveSizeUpdate` -/

theorem moveSizeUpdate_not_dragging (fuel : Nat) (sys : System) (monitor : HMONITOR)
    (ptScreen : POINT) (workAreaMap : PerDesktopData) (w : World)
    (hdragging : w.self.m_inDragging = false) :
    MoveSizeUpdate (fuel + 1) sys monitor ptScreen workAreaMap w = some w := by
  simp [MoveSizeUpdate, hdragging]

/-- Branch of `MoveSizeUpdate` with an active work area and dragging still enabled, the
monitor being in the map: the hand-off calls when the work area of the monitor is not the
active one, then one `MoveSizeUpdate` call for every entry of the map. -/
theorem moveSizeUpdate_enabled (fuel : Nat) (sys : System) (monitor : HMONITOR)
    (ptScreen : POINT) (workAreaMap : PerDesktopData) (w : World) (active : Nat)
    (iterSecond : WorkAreaPtr) (hdragging : w.self.m_inDragging = true)
    (hactive : w.self.m_draggedWindowWorkArea = some active)
    (hdecision : (UpdateDragState sys.settings sys.shiftKeyState w.self).m_dragEnabled = true)
    (hfind : mapFind workAreaMap monitor = some iterSecond) :
    ∃ w', MoveSizeUpdate (fuel + 1) sys monitor ptScreen workAreaMap w = some w' ∧
      w'.log = w.log ++
        ((if iterSecond ≠ some active then
            Effect.workArea (some active) WorkAreaCall.ClearSelectedZones ::
              ((if sys.settings.showZonesOnAllMonitors = true then []
                else [Effect.workArea (some active) WorkAreaCall.HideZoneWindow]) ++
              [Effect.workArea iterSecond (WorkAreaCall.MoveSizeEnter w.self.m_draggedWindow)])
          else []) ++
        List.map (fun entry => Effect.workArea entry.2
            (WorkAreaCall.MoveSizeUpdate ptScreen true sys.ctrlKeyState)) workAreaMap) ∧
      w'.self.m_draggedWindowWorkArea = iterSecond ∧
      w'.self.m_inDragging = true ∧ w'.self.m_dragEnabled = true ∧
      w'.self.m_draggedWindow = w.self.m_draggedWindow ∧
      w'.self.m_mouseState = w.self.m_mouseState ∧
      w'.self.m_draggedWindowInfo = w.self.m_draggedWindowInfo ∧
      w'.warning_shown = w.warning_shown ∧ w'.windows = w.windows := by
  have hd := hdecision
  rw [(updateDragState_frame _ _ _).1] at hd
  unfold MoveSizeUpdate
  simp only [hdragging, Bool.not_true, Bool.false_eq_true, if_false, updateDragState_frame,
    hactive, Option.isSome_some, if_true, hd, hfind, forwardMoveSizeUpdate_eq]
  by_cases hsame : iterSecond = some active
  · subst hsame
    refine ⟨_, rfl, ?_⟩
    simp [updateDragState_frame, hd, hactive, hdragging]
  · have hne : (iterSecond != some active) = true := by simpa using hsame
    refine ⟨_, rfl, ?_⟩
    cases hshow : sys.settings.showZonesOnAllMonitors <;>
      simp [hne, hsame, invoke, updateDragState_frame, hd, hactive, hshow, hdragging]

/-- Branch of `MoveSizeUpdate` with an active work area when dragging got disabled: the
active work area is dropped, the transparency is reset and every non-empty work area of
the map is hidden. -/
theorem moveSizeUpdate_disabled (fuel : Nat) (sys : System) (monitor : HMONITOR)
    (ptScreen : POINT) (workAreaMap : PerDesktopData) (w : World)
    (hdragging : w.self.m_inDragging = true)
    (hactive : w.self.m_draggedWindowWorkArea.isSome = true)
    (hdecision : (UpdateDragState sys.settings sys.shiftKeyState w.self).m_dragEnabled
      = false) :
    ∃ w', MoveSizeUpdate (fuel + 1) sys monitor ptScreen workAreaMap w = some w' ∧
      w'.log = w.log ++
        List.map (fun workArea => Effect.workArea workArea WorkAreaCall.HideZoneWindow)
          (workAreasOf workAreaMap) ∧
      w'.self.m_draggedWindowWorkArea = none ∧
      w'.self.m_inDragging = true ∧ w'.self.m_dragEnabled = false ∧
      w'.self.m_draggedWindow = w.self.m_draggedWindow ∧
      w'.self.m_mouseState = w.self.m_mouseState ∧
      w'.warning_shown = w.warning_shown := by
  have hd := hdecision
  rw [(updateDragState_frame _ _ _).1] at hd
  unfold MoveSizeUpdate
  simp only [hdragging, Bool.not_true, Bool.false_eq_true, if_false, updateDragState_frame,
    hactive, if_true, hd, Bool.not_false, hideZoneWindows_eq]
  refine ⟨_, rfl, ?_⟩
  simp [resetWindowTransparency_frame, updateDragState_frame, hd, hdragging]


/-! ## C15 -/

theorem forwarded_updates_no_callback (ptScreen : POINT) (dragEnabled ctrl : Bool)
    (workAreaMap : PerDesktopData) :
    ∀ e ∈ List.map (fun entry : HMONITOR × WorkAreaPtr => Effect.workArea entry.2
        (WorkAreaCall.MoveSizeUpdate ptScreen dragEnabled ctrl)) workAreaMap,
      e.isClearSelectedZones = false ∧ e.isMoveSizeEnter = false ∧
      e.isHideZoneWindow = false ∧ e.isShowZoneWindow = false ∧ e.isMoveSizeEnd = false ∧
      e ≠ Effect.show_toast_with_activations := by
  intro e he
  simp only [List.mem_map] at he
  obtain ⟨entry, _, rfl⟩ := he
  simp [Effect.isClearSelectedZones, Effect.isMoveSizeEnter, Effect.isHideZoneWindow,
    Effect.isShowZoneWindow, Effect.isMoveSizeEnd]

/-- Updates on the monitor of the active work area, dragging staying enabled: every call
returns, and none of them invokes `ClearSelectedZones` or `MoveSizeEnter`. -/
theorem moveSizeUpdate_same_monitor_run (fuel : Nat) (monitor : HMONITOR)
    (workAreaMap : PerDesktopData) (active : Nat)
    (hfind : mapFind workAreaMap monitor = some (some active))
    (later : List (System × POINT)) :
    ∀ w : World, w.self.m_inDragging = true →
      w.self.m_draggedWindowWorkArea = some active →
      (∀ c ∈ later,
        (UpdateDragState c.1.settings c.1.shiftKeyState w.self).m_dragEnabled = true) →
      ∃ wn, applyDragCalls (fuel + 1) w
          (later.map (fun c => (c.1, DragCall.moveSizeUpdate monitor c.2 workAreaMap)))
          = some wn ∧
        ∃ added, wn.log = w.log ++ added ∧
          ∀ e ∈ added, e.isClearSelectedZones = false ∧ e.isMoveSizeEnter = false := by
  induction later with
  | nil =>
    intro w _ _ _
    exact ⟨w, rfl, [], by simp, by simp⟩
  | cons c rest ih =>
    intro w hdragging hactive hdecision
    obtain ⟨w1, hrun, hlog, hact1, hdrag1, _, _, hmouse, _, _, _⟩ :=
      moveSizeUpdate_enabled fuel c.1 monitor c.2 workAreaMap w active (some active)
        hdragging hactive (hdecision c (List.mem_cons_self _ _)) hfind
    have hrest : ∀ c' ∈ rest,
        (UpdateDragState c'.1.settings c'.1.shiftKeyState w1.self).m_dragEnabled = true := by
      intro c' hc'
      have := hdecision c' (List.mem_cons_of_mem _ hc')
      rw [(updateDragState_frame _ _ _).1] at this ⊢
      rw [hmouse]
      exact this
    obtain ⟨wn, hrunn, added, hlogn, hadded⟩ := ih w1 hdrag1 hact1 hrest
    simp only [ne_eq, not_true_eq_false, if_false, List.nil_append] at hlog
    refine ⟨wn, ?_, List.map (fun entry : HMONITOR × WorkAreaPtr => Effect.workArea entry.2
        (WorkAreaCall.MoveSizeUpdate c.2 true c.1.ctrlKeyState)) workAreaMap ++ added, ?_, ?_⟩
    · simp only [List.map_cons, applyDragCalls, applyDragCall, hrun]
      exact hrunn
    · rw [hlogn, hlog, List.append_assoc]
    · intro e he
      simp only [List.mem_append] at he
      rcases he with he | he
      · have := forwarded_updates_no_callback c.2 true c.1.ctrlKeyState workAreaMap e he
        exact ⟨this.1, this.2.1⟩
      · exact hadded e he

/-- C15: with work area `a1` (of monitor M1) active and dragging enabled, a `MoveSizeUpdate`
for a monitor M2 whose work area `a2` differs invokes `ClearSelectedZones` on `a1` once,
`HideZoneWindow` on `a1` exactly when zones are not shown on all monitors, makes `a2` the
active work area and invokes `MoveSizeEnter` for the dragged window on `a2` once; the later
updates for M2, dragging staying enabled, invoke neither `ClearSelectedZones` nor
`MoveSizeEnter`. -/
theorem moveSizeUpdate_hand_off_once (fuel : Nat) (sys : System) (m1 m2 : HMONITOR)
    (ptScreen : POINT) (workAreaMap : PerDesktopData) (w : World) (a1 a2 : Nat)
    (hdragging : w.self.m_inDragging = true)
    (hactive : w.self.m_draggedWindowWorkArea = some a1)
    (_hm1 : mapFind workAreaMap m1 = some (some a1))
    (hm2 : mapFind workAreaMap m2 = some (some a2)) (hne : a2 ≠ a1)
    (hdecision : (UpdateDragState sys.settings sys.shiftKeyState w.self).m_dragEnabled
      = true) :
    ∃ w', MoveSizeUpdate (fuel + 1) sys m2 ptScreen workAreaMap w = some w' ∧
      effectsSince w w' =
        Effect.workArea (some a1) WorkAreaCall.ClearSelectedZones ::
          ((if sys.settings.showZonesOnAllMonitors = true then []
            else [Effect.workArea (some a1) WorkAreaCall.HideZoneWindow]) ++
          [Effect.workArea (some a2) (WorkAreaCall.MoveSizeEnter w.self.m_draggedWindow)]) ++
        List.map (fun entry => Effect.workArea entry.2
            (WorkAreaCall.MoveSizeUpdate ptScreen true sys.ctrlKeyState)) workAreaMap ∧
      (effectsSince w w').filter Effect.isClearSelectedZones =
        [Effect.workArea (some a1) WorkAreaCall.ClearSelectedZones] ∧
      (effectsSince w w').filter Effect.isMoveSizeEnter =
        [Effect.workArea (some a2) (WorkAreaCall.MoveSizeEnter w.self.m_draggedWindow)] ∧
      (effectsSince w w').filter Effect.isHideZoneWindow =
        (if sys.settings.showZonesOnAllMonitors = true then []
          else [Effect.workArea (some a1) WorkAreaCall.HideZoneWindow]) ∧
      w'.self.m_draggedWindowWorkArea = some a2 ∧
      (∀ later : List (System × POINT),
        (∀ c ∈ later,
          (UpdateDragState c.1.settings c.1.shiftKeyState w'.self).m_dragEnabled = true) →
        ∃ wn, applyDragCalls (fuel + 1) w'
            (later.map (fun c => (c.1, DragCall.moveSizeUpdate m2 c.2 workAreaMap)))
            = some wn ∧
          wn.log = w'.log ++ effectsSince w' wn ∧
          ∀ e ∈ effectsSince w' wn,
            e.isClearSelectedZones = false ∧ e.isMoveSizeEnter = false) := by
  obtain ⟨w', hrun, hlog, hact, hdrag', _, _, _, _, _, _⟩ :=
    moveSizeUpdate_enabled fuel sys m2 ptScreen workAreaMap w a1 (some a2) hdragging hactive
      hdecision hm2
  have hdiff : (some a2 : WorkAreaPtr) ≠ some a1 := by
    intro h
    exact hne (Option.some.inj h)
  simp only [ne_eq, hdiff, not_false_eq_true, if_true] at hlog
  have hsince := effectsSince_eq w w' _ hlog
  have hupd := forwarded_updates_no_callback ptScreen true sys.ctrlKeyState workAreaMap
  refine ⟨w', hrun, hsince, ?_, ?_, ?_, hact, ?_⟩
  · rw [hsince, List.filter_append,
      filter_eq_nil_of_forall _ _ (fun e he => (hupd e he).1)]
    cases sys.settings.showZonesOnAllMonitors <;>
      simp [List.filter_cons, Effect.isClearSelectedZones]
  · rw [hsince, List.filter_append,
      filter_eq_nil_of_forall _ _ (fun e he => (hupd e he).2.1)]
    cases sys.settings.showZonesOnAllMonitors <;>
      simp [List.filter_cons, Effect.isMoveSizeEnter]
  · rw [hsince, List.filter_append,
      filter_eq_nil_of_forall _ _ (fun e he => (hupd e he).2.2.1)]
    cases sys.settings.showZonesOnAllMonitors <;>
      simp [List.filter_cons, Effect.isHideZoneWindow]
  · intro later hlater
    obtain ⟨wn, hrunn, added, hlogn, hadded⟩ :=
      moveSizeUpdate_same_monitor_run fuel m2 workAreaMap a2 hm2 later w' hdrag' hact hlater
    have hs := effectsSince_eq w' wn _ hlogn
    exact ⟨wn, hrunn, by rw [hs]; exact hlogn, by rw [hs]; exact hadded⟩

/-- Witness of C15: the drag of window 5 moves from monitor 1 (work area 7) to monitor 2
(work area 8). -/
theorem moveSizeUpdate_hand_off_once_witness :
    ∃ w', MoveSizeUpdate 1 sampleSystem 2 ⟨3, 4⟩ [(1, some 7), (2, some 8)]
        (MoveSizeStart sampleSystem 5 1 ⟨3, 4⟩ [(1, some 7), (2, some 8)] idleWorld)
        = some w' ∧
      effectsSince
          (MoveSizeStart sampleSystem 5 1 ⟨3, 4⟩ [(1, some 7), (2, some 8)] idleWorld) w' =
        Effect.workArea (some 7) WorkAreaCall.ClearSelectedZones ::
          ((if sampleSystem.settings.showZonesOnAllMonitors = true then []
            else [Effect.workArea (some 7) WorkAreaCall.HideZoneWindow]) ++
          [Effect.workArea (some 8) (WorkAreaCall.MoveSizeEnter
            (MoveSizeStart sampleSystem 5 1 ⟨3, 4⟩ [(1, some 7), (2, some 8)]
              idleWorld).self.m_draggedWindow)]) ++
        List.map (fun entry => Effect.workArea entry.2
            (WorkAreaCall.MoveSizeUpdate ⟨3, 4⟩ true sampleSystem.ctrlKeyState))
          [(1, some 7), (2, some 8)] ∧
      w'.self.m_draggedWindowWorkArea = some 8 :=
  match moveSizeUpdate_hand_off_once 0 sampleSystem 1 2 ⟨3, 4⟩ [(1, some 7), (2, some 8)]
      (MoveSizeStart sampleSystem 5 1 ⟨3, 4⟩ [(1, some 7), (2, some 8)] idleWorld) 7 8
      (by decide) (by decide) (by decide) (by decide) (by decide) (by decide) with
  | ⟨w', h1, h2, _, _, _, h6, _⟩ => ⟨w', h1, h2, h6⟩

/-! ## C19 -/

theorem toastCount_of_log (w w' : World) (added : List Effect)
    (h : w'.log = w.log ++ added) :
    toastCount w' = toastCount w + added.count Effect.show_toast_with_activations := by
  simp [toastCount, h, List.count_append]

theorem count_toast_eq_zero (l : List Effect)
    (h : ∀ e ∈ l, e ≠ Effect.show_toast_with_activations) :
    l.count Effect.show_toast_with_activations = 0 :=
  List.count_eq_zero_of_not_mem (fun hmem => h _ hmem rfl)

/-- Warnings and latch across `MoveSizeStart`: the count grows by at most one, it grows only
when the hosting process is not elevated, the process of the window is and the latch was not
set, and then the latch is set; the latch is never cleared, and it changes only when a
warning is surfaced or the toast is disabled. -/
theorem moveSizeStart_toast (sys : System) (window : HWND) (monitor : HMONITOR)
    (ptScreen : POINT) (workAreaMap : PerDesktopData) (w : World) :
    (toastCount (MoveSizeStart sys window monitor ptScreen workAreaMap w) = toastCount w ∧
      (w.warning_shown = true →
        (MoveSizeStart sys window monitor ptScreen workAreaMap w).warning_shown = true) ∧
      ((MoveSizeStart sys window monitor ptScreen workAreaMap w).warning_shown = false →
        w.warning_shown = false)) ∨
    (toastCount (MoveSizeStart sys window monitor ptScreen workAreaMap w) = toastCount w + 1 ∧
      w.warning_shown = false ∧
      (MoveSizeStart sys window monitor ptScreen workAreaMap w).warning_shown = true ∧
      sys.is_process_elevated = false ∧ sys.IsProcessOfWindowElevated window = true) := by
  cases h : (!sys.IsCandidateForZoning window || IsCursorTypeIndicatingSizeEvent sys) with
  | true =>
    rw [moveSizeStart_ignored sys window monitor ptScreen workAreaMap w h]
    exact Or.inl ⟨rfl, id, id⟩
  | false =>
    cases hfind : mapFind workAreaMap monitor with
    | none =>
      rw [moveSizeStart_no_monitor sys window monitor ptScreen workAreaMap w h hfind]
      exact Or.inl ⟨rfl, id, id⟩
    | some iterSecond =>
      have hlog := moveSizeStart_log sys window monitor ptScreen workAreaMap w iterSecond
        h hfind
      have hf := moveSizeStart_fields sys window monitor ptScreen workAreaMap w iterSecond
        h hfind
      have hcount := toastCount_of_log w _ _ hlog
      have hdismiss : (dismissWindow sys window monitor workAreaMap
          { w with log := [] }).log.count Effect.show_toast_with_activations = 0 :=
        count_toast_eq_zero _ (fun e he =>
          (dismissWindow_no_callback sys window monitor workAreaMap { w with log := [] }
            rfl e he).2.2.2.2.2)
      have hmiddle : (if (!(!sys.is_process_elevated && sys.IsProcessOfWindowElevated window)
            && (UpdateDragState sys.settings sys.shiftKeyState w.self).m_dragEnabled) = true
          then
            Effect.workArea iterSecond (WorkAreaCall.MoveSizeEnter window) ::
              (if sys.settings.showZonesOnAllMonitors = true then
                List.map (fun entry => Effect.workArea entry.2 WorkAreaCall.ShowZoneWindow)
                  (workAreaMap.filter (fun entry =>
                    entry.2.isSome && !decide (entry.2 = iterSecond)))
              else [])
          else if w.self.m_draggedWindowWorkArea.isSome = true then
            List.map (fun workArea => Effect.workArea workArea WorkAreaCall.HideZoneWindow)
              (workAreasOf workAreaMap)
          else []).count Effect.show_toast_with_activations = 0 := by
        apply count_toast_eq_zero
        intro e he
        split_ifs at he
        · simp only [List.mem_cons, List.mem_map] at he
          rcases he with rfl | ⟨entry, _, rfl⟩ <;> simp
        · simp only [List.mem_cons, List.not_mem_nil, or_false] at he
          rw [he]
          simp
        · simp only [List.mem_map] at he
          obtain ⟨wa, _, rfl⟩ := he
          simp
        · simp at he
      rw [List.count_append, List.count_append, hdismiss, hmiddle] at hcount
      rw [hcount, hf.2.2.2.2.2.2.2.2.2.1]
      cases h1 : sys.is_process_elevated <;> cases h2 : sys.IsProcessOfWindowElevated window <;>
        cases h3 : w.warning_shown <;> cases h4 : sys.is_toast_disabled <;> simp

/-- `MoveSizeStart` keeps the latch and the warnings in agreement. -/
theorem moveSizeStart_toastLatchInvariant (sys : System) (window : HWND) (monitor : HMONITOR)
    (ptScreen : POINT) (workAreaMap : PerDesktopData) (w : World)
    (hinv : ToastLatchInvariant w) :
    ToastLatchInvariant (MoveSizeStart sys window monitor ptScreen workAreaMap w) := by
  obtain ⟨h1, h2⟩ := hinv
  rcases moveSizeStart_toast sys window monitor ptScreen workAreaMap w with
    ⟨hc, _, hl⟩ | ⟨hc, hl, hs, _, _⟩
  · exact ⟨by rw [hc]; exact h1, fun h => by rw [hc]; exact h2 (hl h)⟩
  · refine ⟨by rw [hc, h2 hl], fun h => ?_⟩
    rw [hs] at h
    exact absurd h (by decide)


theorem removeAppLastZone_no_toast (sys : System) (window : HWND)
    (workAreaMap : PerDesktopData) (w : World) :
    ∀ e ∈ (removeAppLastZone sys window workAreaMap { w with log := [] }).log,
      e ≠ Effect.show_toast_with_activations := by
  unfold removeAppLastZone
  simp only [invoke, perform]
  split_ifs
  · split
    · split
      · split <;> simp
      · simp
    · simp
  · simp

/-- `MoveSizeEnd` surfaces no warning and leaves the latch as it is. -/
theorem moveSizeEnd_toast (sys : System) (window : HWND) (ptScreen : POINT)
    (workAreaMap : PerDesktopData) (w : World) :
    toastCount (MoveSizeEnd sys window ptScreen workAreaMap w) = toastCount w ∧
    (MoveSizeEnd sys window ptScreen workAreaMap w).warning_shown = w.warning_shown := by
  by_cases hw : window = w.self.m_draggedWindow
  · have hlog := moveSizeEnd_log sys window ptScreen workAreaMap w
    refine ⟨?_, (moveSizeEnd_fields sys window ptScreen workAreaMap w hw).2.2.2.2.2.2.2.2⟩
    rw [toastCount_of_log w _ _ hlog]
    have hzero : ∀ l : List Effect, (∀ e ∈ l, e ≠ Effect.show_toast_with_activations) →
        toastCount w + l.count Effect.show_toast_with_activations = toastCount w := by
      intro l hl
      rw [count_toast_eq_zero l hl, Nat.add_zero]
    apply hzero
    intro e he
    simp only [hw, ne_eq, not_true_eq_false, if_false, List.mem_append, List.mem_map] at he
    rcases he with he | ⟨wa, _, rfl⟩
    · by_cases ha : w.self.m_draggedWindowWorkArea.isSome = true
      · simp only [ha, if_true] at he
        split_ifs at he
        · simp at he
        · simp at he
          simp [he]
      · simp only [ha, Bool.false_eq_true, if_false, List.mem_append] at he
        rcases he with (he | he) | he
        · split_ifs at he <;> simp at he <;> simp [he]
        · exact removeAppLastZone_no_toast sys _ workAreaMap w e he
        · simp at he
          simp [he]
    · simp
  · rw [moveSizeEnd_ignored sys window ptScreen workAreaMap w hw]
    exact ⟨rfl, rfl⟩

/-- Branch of `MoveSizeUpdate` without an active work area when dragging is enabled: the
drag is restarted through `MoveSizeStart`, and `MoveSizeUpdate` is re-entered when dragging
is still enabled after it. -/
theorem moveSizeUpdate_restart (fuel : Nat) (sys : System) (monitor : HMONITOR)
    (ptScreen : POINT) (workAreaMap : PerDesktopData) (w : World)
    (hdragging : w.self.m_inDragging = true)
    (hactive : w.self.m_draggedWindowWorkArea = none)
    (hdecision : (UpdateDragState sys.settings sys.shiftKeyState w.self).m_dragEnabled
      = true) :
    MoveSizeUpdate (fuel + 1) sys monitor ptScreen workAreaMap w =
      if (MoveSizeStart sys w.self.m_draggedWindow monitor ptScreen workAreaMap
          { w with self := UpdateDragState sys.settings sys.shiftKeyState w.self }
          ).self.m_dragEnabled = true then
        MoveSizeUpdate fuel sys monitor ptScreen workAreaMap
          (MoveSizeStart sys w.self.m_draggedWindow monitor ptScreen workAreaMap
            { w with self := UpdateDragState sys.settings sys.shiftKeyState w.self })
      else
        some (MoveSizeStart sys w.self.m_draggedWindow monitor ptScreen workAreaMap
          { w with self := UpdateDragState sys.settings sys.shiftKeyState w.self }) := by
  conv => lhs; unfold MoveSizeUpdate
  simp only [hdragging, Bool.not_true, Bool.false_eq_true, if_false,
    (updateDragState_frame _ _ _).2.2.2.2.2.2.2.2.1, hactive, Option.isSome_none, hdecision,
    if_true, (updateDragState_frame _ _ _).2.2.2.2.2.2.2.1]

/-- The remaining branches of `MoveSizeUpdate` only recompute `dragEnabled`: no active work
area and dragging disabled, or an active work area, dragging enabled and the monitor not in
the map. -/
theorem moveSizeUpdate_recompute_only (fuel : Nat) (sys : System) (monitor : HMONITOR)
    (ptScreen : POINT) (workAreaMap : PerDesktopData) (w : World)
    (hdragging : w.self.m_inDragging = true)
    (h : (w.self.m_draggedWindowWorkArea = none ∧
        (UpdateDragState sys.settings sys.shiftKeyState w.self).m_dragEnabled = false) ∨
      (w.self.m_draggedWindowWorkArea.isSome = true ∧
        (UpdateDragState sys.settings sys.shiftKeyState w.self).m_dragEnabled = true ∧
        mapFind workAreaMap monitor = none)) :
    MoveSizeUpdate (fuel + 1) sys monitor ptScreen workAreaMap w =
      some { w with self := UpdateDragState sys.settings sys.shiftKeyState w.self } := by
  unfold MoveSizeUpdate
  rcases h with ⟨h1, h2⟩ | ⟨h1, h2, h3⟩
  · simp only [hdragging, Bool.not_true, Bool.false_eq_true, if_false,
      (updateDragState_frame _ _ _).2.2.2.2.2.2.2.2.1, h1, Option.isSome_none, h2]
  · simp only [hdragging, Bool.not_true, Bool.false_eq_true, if_false,
      (updateDragState_frame _ _ _).2.2.2.2.2.2.2.2.1, h1, if_true, h2, h3]

theorem moveSizeStart_draggedWindow (sys : System) (monitor : HMONITOR)
    (ptScreen : POINT) (workAreaMap : PerDesktopData) (w : World) :
    (MoveSizeStart sys w.self.m_draggedWindow monitor ptScreen workAreaMap w
      ).self.m_draggedWindow = w.self.m_draggedWindow := by
  cases h : (!sys.IsCandidateForZoning w.self.m_draggedWindow ||
      IsCursorTypeIndicatingSizeEvent sys) with
  | true => rw [moveSizeStart_ignored sys _ monitor ptScreen workAreaMap w h]
  | false =>
    cases hfind : mapFind workAreaMap monitor with
    | none => rw [moveSizeStart_no_monitor sys _ monitor ptScreen workAreaMap w h hfind]
    | some iterSecond =>
      exact (moveSizeStart_fields sys _ monitor ptScreen workAreaMap w iterSecond h hfind).2.1

/-- Warnings and latch across `MoveSizeUpdate`, when it returns: the latch and the warnings
stay in agreement, and a warning is surfaced only when the hosting process is not elevated
and the process of the tracked window is. -/
theorem moveSizeUpdate_toast (sys : System) (monitor : HMONITOR) (ptScreen : POINT)
    (workAreaMap : PerDesktopData) (fuel : Nat) :
    ∀ w w' : World, MoveSizeUpdate fuel sys monitor ptScreen workAreaMap w = some w' →
      ToastLatchInvariant w →
      ToastLatchInvariant w' ∧
      (toastCount w < toastCount w' →
        sys.is_process_elevated = false ∧
        sys.IsProcessOfWindowElevated w.self.m_draggedWindow = true) := by
  induction fuel with
  | zero =>
    intro w w' h
    simp [MoveSizeUpdate] at h
  | succ fuel ih =>
    intro w w' hrun hinv
    have hsame : ∀ v : World, toastCount v = toastCount w → v.warning_shown = w.warning_shown →
        ToastLatchInvariant v ∧
        (toastCount w < toastCount v →
          sys.is_process_elevated = false ∧
          sys.IsProcessOfWindowElevated w.self.m_draggedWindow = true) := by
      intro v hc hl
      refine ⟨⟨by rw [hc]; exact hinv.1, fun h => by rw [hc]; exact hinv.2 (hl ▸ h)⟩, ?_⟩
      intro hlt
      rw [hc] at hlt
      exact absurd hlt (Nat.lt_irrefl _)
    cases hdragging : w.self.m_inDragging with
    | false =>
      rw [moveSizeUpdate_not_dragging fuel sys monitor ptScreen workAreaMap w hdragging] at hrun
      cases hrun
      exact hsame w rfl rfl
    | true =>
      cases hdecision : (UpdateDragState sys.settings sys.shiftKeyState w.self).m_dragEnabled with
      | false =>
        cases hactive : w.self.m_draggedWindowWorkArea with
        | none =>
          rw [moveSizeUpdate_recompute_only fuel sys monitor ptScreen workAreaMap w hdragging
            (Or.inl ⟨hactive, hdecision⟩)] at hrun
          cases hrun
          exact hsame _ rfl rfl
        | some active =>
          obtain ⟨v, hv, hlog, _, _, _, _, _, hlatch⟩ :=
            moveSizeUpdate_disabled fuel sys monitor ptScreen workAreaMap w hdragging
              (by simp [hactive]) hdecision
          rw [hv] at hrun
          cases hrun
          refine hsame _ ?_ hlatch
          rw [toastCount_of_log w _ _ hlog, count_toast_eq_zero, Nat.add_zero]
          intro e he
          simp only [List.mem_map] at he
          obtain ⟨wa, _, rfl⟩ := he
          simp
      | true =>
        cases hactive : w.self.m_draggedWindowWorkArea with
        | some active =>
          cases hfind : mapFind workAreaMap monitor with
          | none =>
            rw [moveSizeUpdate_recompute_only fuel sys monitor ptScreen workAreaMap w hdragging
              (Or.inr ⟨by simp [hactive], hdecision, hfind⟩)] at hrun
            cases hrun
            exact hsame _ rfl rfl
          | some iterSecond =>
            obtain ⟨v, hv, hlog, _, _, _, _, _, _, hlatch, _⟩ :=
              moveSizeUpdate_enabled fuel sys monitor ptScreen workAreaMap w active iterSecond
                hdragging hactive hdecision hfind
            rw [hv] at hrun
            cases hrun
            refine hsame _ ?_ hlatch
            rw [toastCount_of_log w _ _ hlog, count_toast_eq_zero, Nat.add_zero]
            intro e he
            simp only [List.mem_append] at he
            rcases he with he | he
            · by_cases hsame' : iterSecond = some active
              · simp [hsame'] at he
              · cases hshow : sys.settings.showZonesOnAllMonitors
                · simp only [ne_eq, hsame', not_false_eq_true, if_true, hshow,
                    Bool.false_eq_true, if_false, List.mem_cons, List.cons_append,
                    List.nil_append, List.not_mem_nil, or_false] at he
                  rcases he with rfl | rfl | rfl <;> simp
                · simp only [ne_eq, hsame', not_false_eq_true, if_true, hshow,
                    List.mem_cons, List.nil_append, List.not_mem_nil, or_false] at he
                  rcases he with rfl | rfl <;> simp
            · exact (forwarded_updates_no_callback ptScreen true sys.ctrlKeyState workAreaMap
                e he).2.2.2.2.2
        | none =>
          rw [moveSizeUpdate_restart fuel sys monitor ptScreen workAreaMap w hdragging hactive
            hdecision] at hrun
          have hinv1 : ToastLatchInvariant
              { w with self := UpdateDragState sys.settings sys.shiftKeyState w.self } := hinv
          have hstart := moveSizeStart_toast sys w.self.m_draggedWindow monitor ptScreen
            workAreaMap { w with self := UpdateDragState sys.settings sys.shiftKeyState w.self }
          have hinv2 := moveSizeStart_toastLatchInvariant sys w.self.m_draggedWindow monitor
            ptScreen workAreaMap
            { w with self := UpdateDragState sys.settings sys.shiftKeyState w.self } hinv1
          have hwin := moveSizeStart_draggedWindow sys monitor ptScreen workAreaMap
            { w with self := UpdateDragState sys.settings sys.shiftKeyState w.self }
          simp only [(updateDragState_frame _ _ _).2.2.2.2.2.2.2.1] at hwin hstart hinv2 hrun
          have hcount1 : toastCount
              { w with self := UpdateDragState sys.settings sys.shiftKeyState w.self } =
              toastCount w := rfl
          generalize MoveSizeStart sys w.self.m_draggedWindow monitor ptScreen workAreaMap
            { w with self := UpdateDragState sys.settings sys.shiftKeyState w.self } = w2
            at hrun hstart hinv2 hwin
          have hfirst : toastCount w ≤ toastCount w2 ∧ (toastCount w < toastCount w2 →
              sys.is_process_elevated = false ∧
              sys.IsProcessOfWindowElevated w.self.m_draggedWindow = true) := by
            rcases hstart with ⟨hc, _, _⟩ | ⟨hc, _, _, he1, he2⟩
            · rw [hc, hcount1]
              exact ⟨Nat.le_refl _, fun h => absurd h (Nat.lt_irrefl _)⟩
            · rw [hc, hcount1]
              exact ⟨Nat.le_succ _, fun _ => ⟨he1, he2⟩⟩
          split_ifs at hrun
          · obtain ⟨hinv', hlt'⟩ := ih w2 w' hrun hinv2
            refine ⟨hinv', fun hlt => ?_⟩
            by_cases hstep : toastCount w < toastCount w2
            · exact hfirst.2 hstep
            · have heq : toastCount w2 = toastCount w :=
                Nat.le_antisymm (Nat.not_lt.1 hstep) hfirst.1
              rw [← heq] at hlt
              rw [← hwin]
              exact hlt' hlt
          · cases hrun
            exact ⟨hinv2, hfirst.2⟩


theorem applyDragCall_toast (fuel : Nat) (sys : System) (call : DragCall) (x x' : World)
    (hrun : applyDragCall fuel x sys call = some x') (hinv : ToastLatchInvariant x) :
    ToastLatchInvariant x' ∧
    (toastCount x < toastCount x' →
      sys.is_process_elevated = false ∧
      sys.IsProcessOfWindowElevated (dragCallWindow x call) = true) := by
  cases call with
  | moveSizeStart window monitor ptScreen workAreaMap =>
    simp only [applyDragCall, Option.some.injEq] at hrun
    subst hrun
    refine ⟨moveSizeStart_toastLatchInvariant sys window monitor ptScreen workAreaMap x hinv,
      fun hlt => ?_⟩
    rcases moveSizeStart_toast sys window monitor ptScreen workAreaMap x with
      ⟨hc, _, _⟩ | ⟨_, _, _, h1, h2⟩
    · rw [hc] at hlt
      exact absurd hlt (Nat.lt_irrefl _)
    · exact ⟨h1, h2⟩
  | moveSizeUpdate monitor ptScreen workAreaMap =>
    exact moveSizeUpdate_toast sys monitor ptScreen workAreaMap fuel x x' hrun hinv
  | moveSizeEnd window ptScreen workAreaMap =>
    simp only [applyDragCall, Option.some.injEq] at hrun
    subst hrun
    obtain ⟨hc, hl⟩ := moveSizeEnd_toast sys window ptScreen workAreaMap x
    refine ⟨⟨by rw [hc]; exact hinv.1, fun h => by rw [hc]; exact hinv.2 (hl ▸ h)⟩, fun hlt => ?_⟩
    rw [hc] at hlt
    exact absurd hlt (Nat.lt_irrefl _)

theorem applyDragCalls_toastLatchInvariant (fuel : Nat) (calls : List (System × DragCall)) :
    ∀ x x' : World, applyDragCalls fuel x calls = some x' → ToastLatchInvariant x →
      ToastLatchInvariant x' := by
  induction calls with
  | nil =>
    intro x x' h hinv
    simp only [applyDragCalls, Option.some.injEq] at h
    exact h ▸ hinv
  | cons c rest ih =>
    intro x x' h hinv
    obtain ⟨sys, call⟩ := c
    simp only [applyDragCalls] at h
    cases hstep : applyDragCall fuel x sys call with
    | none => simp [hstep] at h
    | some x1 =>
      simp only [hstep] at h
      exact ih x1 x' h (applyDragCall_toast fuel sys call x x1 hstep hinv).1

/-- C19: along every sequence of `MoveSizeStart`, `MoveSizeUpdate` and `MoveSizeEnd` calls
that starts with the latch `warning_shown` not set and no warning surfaced, at most one
warning is surfaced; a call surfaces a warning only when the hosting process is not elevated
and the process of the window of the call is; and every `MoveSizeStart`, the only place where
the warning is surfaced, keeps the latch and the warnings in agreement. -/
theorem toast_at_most_once (fuel : Nat) (calls : List (System × DragCall)) (w0 w : World)
    (_hlatch : w0.warning_shown = false) (hnone : toastCount w0 = 0)
    (hrun : applyDragCalls fuel w0 calls = some w) :
    toastCount w ≤ 1 ∧
    (∀ (pre post : List (System × DragCall)) (sys : System) (call : DragCall) (x x' : World),
      calls = pre ++ (sys, call) :: post → applyDragCalls fuel w0 pre = some x →
      applyDragCall fuel x sys call = some x' → toastCount x < toastCount x' →
      sys.is_process_elevated = false ∧
      sys.IsProcessOfWindowElevated (dragCallWindow x call) = true) ∧
    (∀ (sys : System) (window : HWND) (monitor : HMONITOR) (ptScreen : POINT)
      (workAreaMap : PerDesktopData) (x : World), ToastLatchInvariant x →
      ToastLatchInvariant (MoveSizeStart sys window monitor ptScreen workAreaMap x)) := by
  have hinv0 : ToastLatchInvariant w0 := ⟨by rw [hnone]; exact Nat.zero_le _, fun _ => hnone⟩
  refine ⟨(applyDragCalls_toastLatchInvariant fuel calls w0 w hrun hinv0).1, ?_, ?_⟩
  · intro pre post sys call x x' _ hpre hstep hlt
    have hinvx := applyDragCalls_toastLatchInvariant fuel pre w0 x hpre hinv0
    exact (applyDragCall_toast fuel sys call x x' hstep hinvx).2 hlt
  · intro sys window monitor ptScreen workAreaMap x hx
    exact moveSizeStart_toastLatchInvariant sys window monitor ptScreen workAreaMap x hx

/-- Witness of C19: two drags of elevated windows 5 and 6 from a process that is not
elevated; the warning is surfaced once. -/
theorem toast_at_most_once_witness :
    toastCount
      (MoveSizeStart { sampleSystem with IsProcessOfWindowElevated := fun _ => true } 6 1
        ⟨3, 4⟩ [(1, some 7)]
        (MoveSizeEnd { sampleSystem with IsProcessOfWindowElevated := fun _ => true } 5 ⟨3, 4⟩
          [(1, some 7)]
          (MoveSizeStart { sampleSystem with IsProcessOfWindowElevated := fun _ => true } 5 1
            ⟨3, 4⟩ [(1, some 7)] idleWorld))) ≤ 1 :=
  (toast_at_most_once 1
    [({ sampleSystem with IsProcessOfWindowElevated := fun _ => true },
        DragCall.moveSizeStart 5 1 ⟨3, 4⟩ [(1, some 7)]),
      ({ sampleSystem with IsProcessOfWindowElevated := fun _ => true },
        DragCall.moveSizeEnd 5 ⟨3, 4⟩ [(1, some 7)]),
      ({ sampleSystem with IsProcessOfWindowElevated := fun _ => true },
        DragCall.moveSizeStart 6 1 ⟨3, 4⟩ [(1, some 7)])]
    idleWorld _ rfl rfl rfl).1

/-! ## C20 -/

/-- `MoveSizeUpdate` never returns when a drag is in progress without an active work area,
dragging is enabled by the zone-enabled decision, and the restart through `MoveSizeStart` is
ignored or does not find the monitor in the map: the restart leaves `dragEnabled` true and no
work area active, and `MoveSizeUpdate` re-enters itself in the same situation. -/
theorem moveSizeUpdate_diverges (sys : System) (monitor : HMONITOR) (ptScreen : POINT)
    (workAreaMap : PerDesktopData) (fuel : Nat) :
    ∀ w : World, w.self.m_inDragging = true → w.self.m_draggedWindowWorkArea = none →
      (UpdateDragState sys.settings sys.shiftKeyState w.self).m_dragEnabled = true →
      ((!sys.IsCandidateForZoning w.self.m_draggedWindow ||
          IsCursorTypeIndicatingSizeEvent sys) = true ∨
        mapFind workAreaMap monitor = none) →
      MoveSizeUpdate fuel sys monitor ptScreen workAreaMap w = none := by
  induction fuel with
  | zero =>
    intro w _ _ _ _
    rfl
  | succ fuel ih =>
    intro w hdragging hactive hdecision hmiss
    rw [moveSizeUpdate_restart fuel sys monitor ptScreen workAreaMap w hdragging hactive
      hdecision]
    have hd := hdecision
    rw [(updateDragState_frame _ _ _).1] at hd
    cases h : (!sys.IsCandidateForZoning w.self.m_draggedWindow ||
        IsCursorTypeIndicatingSizeEvent sys) with
    | true =>
      rw [moveSizeStart_ignored sys _ monitor ptScreen workAreaMap _ h]
      simp only [hdecision, if_true]
      apply ih
      · simp [updateDragState_frame, hdragging]
      · simp [updateDragState_frame, hactive]
      · simp [updateDragState_frame, hd]
      · simp only [(updateDragState_frame _ _ _).2.2.2.2.2.2.2.1]
        exact Or.inl h
    | false =>
      have hfind : mapFind workAreaMap monitor = none := by
        rcases hmiss with h' | h'
        · rw [h] at h'
          exact absurd h' (by decide)
        · exact h'
      rw [moveSizeStart_no_monitor sys _ monitor ptScreen workAreaMap _ h hfind]
      simp only [hdecision, if_true]
      apply ih
      · rfl
      · simp [updateDragState_frame, hactive]
      · simp [updateDragState_frame, hd]
      · exact Or.inr hfind

/-- C20, at the failing input: window 5 is being dragged with shift held, so that dragging is
disabled and no work area is active; shift is released while the pointer is on monitor 3,
which has no work area in the map. `MoveSizeUpdate` for monitor 3 then re-enters itself
without end: it returns for no bound on the depth of the recursion. -/
theorem moveSizeUpdate_unbounded_recursion :
    (MoveSizeStart { sampleSystem with shiftKeyState := true } 5 1 ⟨3, 4⟩ [(1, some 7)]
      idleWorld).self.m_inDragging = true ∧
    (MoveSizeStart { sampleSystem with shiftKeyState := true } 5 1 ⟨3, 4⟩ [(1, some 7)]
      idleWorld).self.m_draggedWindow = 5 ∧
    (MoveSizeStart { sampleSystem with shiftKeyState := true } 5 1 ⟨3, 4⟩ [(1, some 7)]
      idleWorld).self.m_draggedWindowWorkArea = none ∧
    ∀ fuel : Nat, MoveSizeUpdate fuel sampleSystem 3 ⟨3, 4⟩ [(1, some 7)]
      (MoveSizeStart { sampleSystem with shiftKeyState := true } 5 1 ⟨3, 4⟩ [(1, some 7)]
        idleWorld) = none := by
  refine ⟨by decide, by decide, by decide, fun fuel => ?_⟩
  exact moveSizeUpdate_diverges sampleSystem 3 ⟨3, 4⟩ [(1, some 7)] fuel _ (by decide)
    (by decide) (by decide) (Or.inr (by decide))

/-- In every other situation `MoveSizeUpdate` returns, and its recursion has depth at most
one: the nested call does not re-enter `MoveSizeUpdate`. -/
theorem moveSizeUpdate_returns (sys : System) (monitor : HMONITOR) (ptScreen : POINT)
    (workAreaMap : PerDesktopData) (w : World)
    (h : ¬ (w.self.m_inDragging = true ∧ w.self.m_draggedWindowWorkArea = none ∧
      (UpdateDragState sys.settings sys.shiftKeyState w.self).m_dragEnabled = true ∧
      ((!sys.IsCandidateForZoning w.self.m_draggedWindow ||
          IsCursorTypeIndicatingSizeEvent sys) = true ∨
        mapFind workAreaMap monitor = none ∨
        (mapFind workAreaMap monitor = some none ∧
          (!sys.is_process_elevated &&
            sys.IsProcessOfWindowElevated w.self.m_draggedWindow) = false)))) :
    ∃ w', MoveSizeUpdate 2 sys monitor ptScreen workAreaMap w = some w' := by
  cases hdragging : w.self.m_inDragging with
  | false => exact ⟨w, moveSizeUpdate_not_dragging 1 sys monitor ptScreen workAreaMap w hdragging⟩
  | true =>
    cases hdecision : (UpdateDragState sys.settings sys.shiftKeyState w.self).m_dragEnabled with
    | false =>
      cases hactive : w.self.m_draggedWindowWorkArea with
      | none =>
        exact ⟨_, moveSizeUpdate_recompute_only 1 sys monitor ptScreen workAreaMap w hdragging
          (Or.inl ⟨hactive, hdecision⟩)⟩
      | some active =>
        obtain ⟨w', hw', _⟩ := moveSizeUpdate_disabled 1 sys monitor ptScreen workAreaMap w
          hdragging (by simp [hactive]) hdecision
        exact ⟨w', hw'⟩
    | true =>
      cases hactive : w.self.m_draggedWindowWorkArea with
      | some active =>
        cases hfind : mapFind workAreaMap monitor with
        | none =>
          exact ⟨_, moveSizeUpdate_recompute_only 1 sys monitor ptScreen workAreaMap w
            hdragging (Or.inr ⟨by simp [hactive], hdecision, hfind⟩)⟩
        | some iterSecond =>
          obtain ⟨w', hw', _⟩ := moveSizeUpdate_enabled 1 sys monitor ptScreen workAreaMap w
            active iterSecond hdragging hactive hdecision hfind
          exact ⟨w', hw'⟩
      | none =>
        have hd := hdecision
        rw [(updateDragState_frame _ _ _).1] at hd
        have haccepted : (!sys.IsCandidateForZoning w.self.m_draggedWindow ||
            IsCursorTypeIndicatingSizeEvent sys) = false := by
          cases hx : (!sys.IsCandidateForZoning w.self.m_draggedWindow ||
              IsCursorTypeIndicatingSizeEvent sys) with
          | false => rfl
          | true => exact absurd ⟨hdragging, hactive, hdecision, Or.inl hx⟩ h
        cases hfind : mapFind workAreaMap monitor with
        | none => exact absurd ⟨hdragging, hactive, hdecision, Or.inr (Or.inl hfind)⟩ h
        | some iterSecond =>
          rw [moveSizeUpdate_restart 1 sys monitor ptScreen workAreaMap w hdragging hactive
            hdecision]
          have hf := moveSizeStart_fields sys w.self.m_draggedWindow monitor ptScreen
            workAreaMap { w with self := UpdateDragState sys.settings sys.shiftKeyState w.self }
            iterSecond haccepted hfind
          simp only [updateDragState_frame, hd, Bool.and_true] at hf
          cases hmismatch : (!sys.is_process_elevated &&
              sys.IsProcessOfWindowElevated w.self.m_draggedWindow) with
          | true =>
            rw [hmismatch] at hf
            simp only [hf.2.2.2.1, Bool.not_true, Bool.false_eq_true, if_false]
            exact ⟨_, rfl⟩
          | false =>
            rw [hmismatch] at hf
            simp only [hf.2.2.2.1, Bool.not_false, if_true]
            cases hiter : iterSecond with
            | none =>
              rw [hiter] at hfind
              exact absurd ⟨hdragging, hactive, hdecision, Or.inr (Or.inr ⟨hfind, hmismatch⟩)⟩ h
            | some a =>
              rw [hiter] at hfind
              obtain ⟨w', hw', _⟩ := moveSizeUpdate_enabled 0 sys monitor ptScreen workAreaMap
                (MoveSizeStart sys w.self.m_draggedWindow monitor ptScreen workAreaMap
                  { w with self := UpdateDragState sys.settings sys.shiftKeyState w.self })
                a (some a) hf.1 (by rw [hf.2.2.2.2.1, hiter]; simp)
                (by rw [(updateDragState_frame _ _ _).1, hf.2.2.2.2.2.1]; exact hd) hfind
              exact ⟨w', hw'⟩


/-! ## C28 -/

theorem filter_hides_eq_nil (p : Effect → Bool) (workAreas : List WorkAreaPtr)
    (hp : ∀ workArea, p (Effect.workArea workArea WorkAreaCall.HideZoneWindow) = false) :
    (List.map (fun workArea => Effect.workArea workArea WorkAreaCall.HideZoneWindow)
      workAreas).filter p = [] := by
  apply filter_eq_nil_of_forall
  intro e he
  simp only [List.mem_map] at he
  obtain ⟨wa, _, rfl⟩ := he
  exact hp wa

/-- C28: the effects of a `MoveSizeEnd` call hold a commit call exactly when the window is
the tracked one, a work area is active, the window is not maximized, and it is not the case
that the window is now not standard with no visible owner while it was recorded at drag
start as standard with no visible owner; the commit call is then made once, on the work area
that was active, with the tracked window and the pointer position, and on no other. -/
theorem moveSizeEnd_commit_condition (sys : System) (window : HWND) (ptScreen : POINT)
    (workAreaMap : PerDesktopData) (w : World) :
    (MoveSizeEnd sys window ptScreen workAreaMap w).log =
      w.log ++ effectsSince w (MoveSizeEnd sys window ptScreen workAreaMap w) ∧
    ((window = w.self.m_draggedWindow ∧ w.self.m_draggedWindowWorkArea.isSome = true ∧
        sys.IsWindowMaximized window = false ∧
        ¬ (sys.IsStandardWindow window = false ∧ sys.HasNoVisibleOwner window = true ∧
          w.self.m_draggedWindowInfo.isStandardWindow = true ∧
          w.self.m_draggedWindowInfo.hasNoVisibleOwner = true)) →
      (effectsSince w (MoveSizeEnd sys window ptScreen workAreaMap w)).filter
          Effect.isMoveSizeEnd =
        [Effect.workArea w.self.m_draggedWindowWorkArea
          (WorkAreaCall.MoveSizeEnd w.self.m_draggedWindow ptScreen)]) ∧
    (¬ (window = w.self.m_draggedWindow ∧ w.self.m_draggedWindowWorkArea.isSome = true ∧
        sys.IsWindowMaximized window = false ∧
        ¬ (sys.IsStandardWindow window = false ∧ sys.HasNoVisibleOwner window = true ∧
          w.self.m_draggedWindowInfo.isStandardWindow = true ∧
          w.self.m_draggedWindowInfo.hasNoVisibleOwner = true)) →
      (effectsSince w (MoveSizeEnd sys window ptScreen workAreaMap w)).filter
          Effect.isMoveSizeEnd = []) := by
  have hlog := moveSizeEnd_log sys window ptScreen workAreaMap w
  have hsince := effectsSince_eq w _ _ hlog
  have hhides := filter_hides_eq_nil Effect.isMoveSizeEnd (workAreasOf workAreaMap)
    (fun _ => rfl)
  refine ⟨by rw [hsince]; exact hlog, ?_, ?_⟩
  · rintro ⟨htracked, hactive, hmax, htab⟩
    rw [hsince]
    simp only [htracked, ne_eq, not_true_eq_false, if_false, hactive, if_true,
      List.filter_append, hhides, List.append_nil]
    rw [← htracked]
    rw [if_neg]
    · simp [List.filter_cons, Effect.isMoveSizeEnd]
    · intro hc
      simp only [Bool.or_eq_true, Bool.and_eq_true, beq_iff_eq] at hc
      rcases hc with ⟨⟨⟨h1, h2⟩, h3⟩, h4⟩ | h5
      · exact htab ⟨h1, h2, h3, h4⟩
      · rw [hmax] at h5
        exact absurd h5 (by decide)
  · intro hnot
    rw [hsince]
    apply filter_eq_nil_of_forall
    intro e he
    by_cases hw : window = w.self.m_draggedWindow
    · simp only [hw, ne_eq, not_true_eq_false, if_false, List.mem_append, List.mem_map] at he
      rcases he with he | ⟨wa, _, rfl⟩
      · by_cases ha : w.self.m_draggedWindowWorkArea.isSome = true
        · simp only [ha, if_true] at he
          rw [← hw] at he
          split_ifs at he with hc
          · simp at he
          · exfalso
            apply hnot
            refine ⟨hw, ha, ?_, ?_⟩
            · cases hm : sys.IsWindowMaximized window
              · rfl
              · simp [hm] at hc
            · rintro ⟨h1, h2, h3, h4⟩
              simp [h1, h2, h3, h4] at hc
        · simp only [ha, Bool.false_eq_true, if_false, List.mem_append] at he
          rcases he with (he | he) | he
          · split_ifs at he <;> simp at he <;> simp [he, Effect.isMoveSizeEnd]
          · exact (removeAppLastZone_no_callback sys _ workAreaMap w e he).1
          · simp at he
            simp [he, Effect.isMoveSizeEnd]
      · rfl
    · simp [hw] at he

/-- Witness of C28: the drag of window 5 ends with work area 7 active, the window neither
maximized nor merged back: the commit call is made once on work area 7. -/
theorem moveSizeEnd_commit_condition_witness :
    (effectsSince (MoveSizeStart sampleSystem 5 1 ⟨3, 4⟩ [(1, some 7)] idleWorld)
      (MoveSizeEnd sampleSystem 5 ⟨3, 4⟩ [(1, some 7)]
        (MoveSizeStart sampleSystem 5 1 ⟨3, 4⟩ [(1, some 7)] idleWorld))).filter
        Effect.isMoveSizeEnd =
      [Effect.workArea
        (MoveSizeStart sampleSystem 5 1 ⟨3, 4⟩ [(1, some 7)]
          idleWorld).self.m_draggedWindowWorkArea
        (WorkAreaCall.MoveSizeEnd
          (MoveSizeStart sampleSystem 5 1 ⟨3, 4⟩ [(1, some 7)]
            idleWorld).self.m_draggedWindow ⟨3, 4⟩)] :=
  (moveSizeEnd_commit_condition sampleSystem 5 ⟨3, 4⟩ [(1, some 7)]
    (MoveSizeStart sampleSystem 5 1 ⟨3, 4⟩ [(1, some 7)] idleWorld)).2.1
    ⟨by decide, by decide, by decide, by decide⟩


/-! ## C23 -/

theorem filter_shows (workAreaMap : PerDesktopData) (active : WorkAreaPtr) :
    (List.map (fun entry : HMONITOR × WorkAreaPtr =>
        Effect.workArea entry.2 WorkAreaCall.ShowZoneWindow)
      (workAreaMap.filter (fun entry => entry.2.isSome && !decide (entry.2 = active)))).filter
        Effect.isShowZoneWindow =
    List.map (fun entry : HMONITOR × WorkAreaPtr =>
        Effect.workArea entry.2 WorkAreaCall.ShowZoneWindow)
      (workAreaMap.filter (fun entry => entry.2.isSome && !decide (entry.2 = active))) := by
  rw [List.filter_eq_self]
  intro e he
  simp only [List.mem_map] at he
  obtain ⟨entry, _, rfl⟩ := he
  rfl

theorem shows_eq_map_workAreasOf (workAreaMap : PerDesktopData) (active : WorkAreaPtr) :
    List.map (fun entry : HMONITOR × WorkAreaPtr =>
        Effect.workArea entry.2 WorkAreaCall.ShowZoneWindow)
      (workAreaMap.filter (fun entry => entry.2.isSome && !decide (entry.2 = active))) =
    List.map (fun workArea => Effect.workArea workArea WorkAreaCall.ShowZoneWindow)
      ((workAreasOf workAreaMap).filter (fun workArea => !decide (workArea = active))) := by
  unfold workAreasOf
  rw [List.filter_map, List.filter_filter, List.map_map]
  congr 1
  apply List.filter_congr
  intro entry _
  simp [Bool.and_comm]

/-- C23: a `MoveSizeStart` for a candidate window, without resize cursor and without elevation
mismatch, whose monitor has the work area `wa` in the map, when the zone-enabled decision is
true: the window is tracked, `wa` is active, `MoveSizeEnter(window)` is invoked once, on `wa`;
with `showZonesOnAllMonitors` on, `ShowZoneWindow` is invoked once for every other non-empty
work area of the map and never on `wa`, and with the setting off on no work area. -/
theorem moveSizeStart_enabled (sys : System) (window : HWND) (monitor : HMONITOR)
    (ptScreen : POINT) (workAreaMap : PerDesktopData) (w : World) (wa : Nat)
    (hcandidate : sys.IsCandidateForZoning window = true)
    (hcursor : IsCursorTypeIndicatingSizeEvent sys = false)
    (hmismatch : sys.is_process_elevated = true ∨ sys.IsProcessOfWindowElevated window = false)
    (hfind : mapFind workAreaMap monitor = some (some wa))
    (hdecision : (UpdateDragState sys.settings sys.shiftKeyState w.self).m_dragEnabled
      = true) :
    (MoveSizeStart sys window monitor ptScreen workAreaMap w).self.m_draggedWindow = window ∧
    (MoveSizeStart sys window monitor ptScreen workAreaMap w).self.m_draggedWindowWorkArea
      = some wa ∧
    (MoveSizeStart sys window monitor ptScreen workAreaMap w).log =
      w.log ++ effectsSince w (MoveSizeStart sys window monitor ptScreen workAreaMap w) ∧
    (effectsSince w (MoveSizeStart sys window monitor ptScreen workAreaMap w)).filter
        Effect.isMoveSizeEnter =
      [Effect.workArea (some wa) (WorkAreaCall.MoveSizeEnter window)] ∧
    (effectsSince w (MoveSizeStart sys window monitor ptScreen workAreaMap w)).filter
        Effect.isShowZoneWindow =
      (if sys.settings.showZonesOnAllMonitors = true then
        List.map (fun workArea => Effect.workArea workArea WorkAreaCall.ShowZoneWindow)
          ((workAreasOf workAreaMap).filter (fun workArea => !decide (workArea = some wa)))
      else []) ∧
    (effectsSince w (MoveSizeStart sys window monitor ptScreen workAreaMap w)).count
        (Effect.workArea (some wa) WorkAreaCall.ShowZoneWindow) = 0 ∧
    (sys.settings.showZonesOnAllMonitors = true → (workAreasOf workAreaMap).Nodup →
      ∀ other ∈ workAreasOf workAreaMap, other ≠ some wa →
        (effectsSince w (MoveSizeStart sys window monitor ptScreen workAreaMap w)).count
          (Effect.workArea other WorkAreaCall.ShowZoneWindow) = 1) := by
  have haccepted : (!sys.IsCandidateForZoning window ||
      IsCursorTypeIndicatingSizeEvent sys) = false := by simp [hcursor, hcandidate]
  have hm : (!sys.is_process_elevated && sys.IsProcessOfWindowElevated window) = false := by
    rcases hmismatch with h | h <;> simp [h]
  have hlog := moveSizeStart_log sys window monitor ptScreen workAreaMap w (some wa)
    haccepted hfind
  have hf := moveSizeStart_fields sys window monitor ptScreen workAreaMap w (some wa)
    haccepted hfind
  have hsince := effectsSince_eq w _ _ hlog
  simp only [hm, hdecision, Bool.false_and, Bool.not_false, Bool.and_self, Bool.true_and,
    if_true, Bool.false_eq_true, if_false, List.nil_append, Bool.or_false] at hsince hf
  have hdismiss := dismissWindow_no_callback sys window monitor workAreaMap
    { w with log := [] } rfl
  have hshowFilter : (effectsSince w
        (MoveSizeStart sys window monitor ptScreen workAreaMap w)).filter
        Effect.isShowZoneWindow =
      (if sys.settings.showZonesOnAllMonitors = true then
        List.map (fun workArea => Effect.workArea workArea WorkAreaCall.ShowZoneWindow)
          ((workAreasOf workAreaMap).filter (fun workArea => !decide (workArea = some wa)))
      else []) := by
    rw [hsince, List.filter_append,
      filter_eq_nil_of_forall _ _ (fun e he => (hdismiss e he).2.2.1), List.append_nil,
      List.filter_cons]
    simp only [Effect.isShowZoneWindow, Bool.false_eq_true, if_false]
    split_ifs
    · rw [filter_shows, shows_eq_map_workAreasOf]
    · rfl
  have hinj : Function.Injective
      (fun workArea : WorkAreaPtr => Effect.workArea workArea WorkAreaCall.ShowZoneWindow) := by
    intro a b hab
    simpa using hab
  refine ⟨hf.2.1, hf.2.2.2.2.1, by rw [effectsSince_eq w _ _ hlog]; exact hlog, ?_, hshowFilter,
    ?_, ?_⟩
  · rw [hsince, List.filter_append,
      filter_eq_nil_of_forall _ _ (fun e he => (hdismiss e he).2.1), List.append_nil,
      List.filter_cons]
    simp only [Effect.isMoveSizeEnter, if_true]
    rw [filter_eq_nil_of_forall]
    intro e he
    split_ifs at he
    · simp only [List.mem_map] at he
      obtain ⟨entry, _, rfl⟩ := he
      rfl
    · simp at he
  · rw [← List.count_filter (p := Effect.isShowZoneWindow) (by rfl), hshowFilter]
    apply List.count_eq_zero_of_not_mem
    split_ifs <;> simp
  · intro hshow hnodup other hmem hne
    rw [← List.count_filter (p := Effect.isShowZoneWindow) (by rfl), hshowFilter, if_pos hshow]
    apply List.count_eq_one_of_mem
    · exact (hnodup.filter _).map hinj
    · simp only [List.mem_map, List.mem_filter]
      exact ⟨other, ⟨hmem, by simpa using hne⟩, rfl⟩

/-- Witness of C23: window 5 starts on monitor 1 (work area 7) with zones shown on all
monitors; work area 8 of monitor 2 is shown once. -/
theorem moveSizeStart_enabled_witness :
    (MoveSizeStart
      { sampleSystem with settings := ⟨false, false, true, false, false⟩ } 5 1 ⟨3, 4⟩
      [(1, some 7), (2, some 8)] idleWorld).self.m_draggedWindowWorkArea = some 7 ∧
    (effectsSince idleWorld
      (MoveSizeStart
        { sampleSystem with settings := ⟨false, false, true, false, false⟩ } 5 1 ⟨3, 4⟩
        [(1, some 7), (2, some 8)] idleWorld)).count
      (Effect.workArea (some 8) WorkAreaCall.ShowZoneWindow) = 1 :=
  ⟨(moveSizeStart_enabled
      { sampleSystem with settings := ⟨false, false, true, false, false⟩ } 5 1 ⟨3, 4⟩
      [(1, some 7), (2, some 8)] idleWorld 7 (by decide) (by decide) (Or.inr (by decide))
      (by decide) (by decide)).2.1,
    (moveSizeStart_enabled
      { sampleSystem with settings := ⟨false, false, true, false, false⟩ } 5 1 ⟨3, 4⟩
      [(1, some 7), (2, some 8)] idleWorld 7 (by decide) (by decide) (Or.inr (by decide))
      (by decide) (by decide)).2.2.2.2.2.2 rfl (by decide) (some 8) (by decide) (by decide)⟩


/-! ## C24 -/

theorem resetWindowTransparency_properties (sys : System) (w : World) :
    (ResetWindowTransparency sys w).self.m_windowTransparencyProperties =
      if (sys.settings.makeDraggedWindowTransparent &&
          w.self.m_windowTransparencyProperties.draggedWindow != 0) = true then
        { w.self.m_windowTransparencyProperties with draggedWindow := 0 }
      else w.self.m_windowTransparencyProperties := by
  unfold ResetWindowTransparency
  simp only
  split_ifs <;> rfl

/-- The result of the branch of `MoveSizeUpdate` with an active work area when dragging got
disabled. -/
theorem moveSizeUpdate_disabled_eq (fuel : Nat) (sys : System) (monitor : HMONITOR)
    (ptScreen : POINT) (workAreaMap : PerDesktopData) (w : World)
    (hdragging : w.self.m_inDragging = true)
    (hactive : w.self.m_draggedWindowWorkArea.isSome = true)
    (hdecision : (UpdateDragState sys.settings sys.shiftKeyState w.self).m_dragEnabled
      = false) :
    MoveSizeUpdate (fuel + 1) sys monitor ptScreen workAreaMap w =
      some (hideZoneWindows workAreaMap (ResetWindowTransparency sys
        { w with self := { UpdateDragState sys.settings sys.shiftKeyState w.self with
          m_draggedWindowWorkArea := none } })) := by
  unfold MoveSizeUpdate
  simp only [hdragging, Bool.not_true, Bool.false_eq_true, if_false,
    (updateDragState_frame _ _ _).2.2.2.2.2.2.2.2.1, hactive, if_true, hdecision,
    Bool.not_false]

theorem filter_forwarded_updates (ptScreen : POINT) (dragEnabled ctrl : Bool)
    (workAreaMap : PerDesktopData) :
    (List.map (fun entry : HMONITOR × WorkAreaPtr => Effect.workArea entry.2
        (WorkAreaCall.MoveSizeUpdate ptScreen dragEnabled ctrl)) workAreaMap).filter
        Effect.isMoveSizeUpdate =
    List.map (fun entry : HMONITOR × WorkAreaPtr => Effect.workArea entry.2
        (WorkAreaCall.MoveSizeUpdate ptScreen dragEnabled ctrl)) workAreaMap := by
  rw [List.filter_eq_self]
  intro e he
  simp only [List.mem_map] at he
  obtain ⟨entry, _, rfl⟩ := he
  rfl

theorem hand_off_no_update (sys : System) (active : Nat) (iterSecond : WorkAreaPtr)
    (window : HWND) :
    (if iterSecond ≠ some active then
        Effect.workArea (some active) WorkAreaCall.ClearSelectedZones ::
          ((if sys.settings.showZonesOnAllMonitors = true then []
            else [Effect.workArea (some active) WorkAreaCall.HideZoneWindow]) ++
          [Effect.workArea iterSecond (WorkAreaCall.MoveSizeEnter window)])
      else []).filter Effect.isMoveSizeUpdate = [] := by
  apply filter_eq_nil_of_forall
  intro e he
  by_cases hsame : iterSecond = some active
  · simp [hsame] at he
  · cases hshow : sys.settings.showZonesOnAllMonitors
    · simp only [ne_eq, hsame, not_false_eq_true, if_true, hshow, Bool.false_eq_true,
        if_false, List.mem_cons, List.cons_append, List.nil_append, List.not_mem_nil,
        or_false] at he
      rcases he with rfl | rfl | rfl <;> rfl
    · simp only [ne_eq, hsame, not_false_eq_true, if_true, hshow, List.mem_cons,
        List.nil_append, List.not_mem_nil, or_false] at he
      rcases he with rfl | rfl <;> rfl

/-- The effects of the branch of `MoveSizeUpdate` with an active work area and dragging
enabled go through no empty handle when the map holds none. -/
theorem enabled_update_no_empty_handle (sys : System) (ptScreen : POINT)
    (workAreaMap : PerDesktopData) (active : Nat) (iterSecond : WorkAreaPtr) (window : HWND)
    (hmap : NoEmptyHandle workAreaMap) (hsome : iterSecond.isSome = true) :
    ∀ e ∈ (if iterSecond ≠ some active then
          Effect.workArea (some active) WorkAreaCall.ClearSelectedZones ::
            ((if sys.settings.showZonesOnAllMonitors = true then []
              else [Effect.workArea (some active) WorkAreaCall.HideZoneWindow]) ++
            [Effect.workArea iterSecond (WorkAreaCall.MoveSizeEnter window)])
        else []) ++
        List.map (fun entry => Effect.workArea entry.2
          (WorkAreaCall.MoveSizeUpdate ptScreen true sys.ctrlKeyState)) workAreaMap,
      e.isThroughEmptyHandle = false := by
  intro e he
  rw [List.mem_append] at he
  rcases he with he | he
  · split_ifs at he with h1 h2
    · simp only [List.nil_append, List.mem_cons, List.not_mem_nil, or_false] at he
      rcases he with rfl | rfl
      · rfl
      · rw [isThroughEmptyHandle_workArea, hsome]
        rfl
    · simp only [List.cons_append, List.nil_append, List.mem_cons, List.not_mem_nil,
        or_false] at he
      rcases he with rfl | rfl | rfl
      · rfl
      · rfl
      · rw [isThroughEmptyHandle_workArea, hsome]
        rfl
    · simp at he
  · simp only [List.mem_map] at he
    obtain ⟨entry, hmem, rfl⟩ := he
    rw [isThroughEmptyHandle_workArea, hmap entry hmem]
    rfl

/-- Counterexample to C25: window 5 is dragged with work area 7 active and dragging enabled;
a `MoveSizeUpdate` for monitor 3, which has no entry in the map, forwards no call at all,
although the map holds work area 7. -/
theorem moveSizeUpdate_unknown_monitor_forwards_nothing :
    (MoveSizeStart sampleSystem 5 1 ⟨3, 4⟩ [(1, some 7)] idleWorld).self.m_inDragging
      = true ∧
    (MoveSizeStart sampleSystem 5 1 ⟨3, 4⟩ [(1, some 7)]
      idleWorld).self.m_draggedWindowWorkArea = some 7 ∧
    (UpdateDragState sampleSystem.settings sampleSystem.shiftKeyState
      (MoveSizeStart sampleSystem 5 1 ⟨3, 4⟩ [(1, some 7)] idleWorld).self).m_dragEnabled
      = true ∧
    (MoveSizeUpdate 1 sampleSystem 3 ⟨3, 4⟩ [(1, some 7)]
      (MoveSizeStart sampleSystem 5 1 ⟨3, 4⟩ [(1, some 7)] idleWorld)).map
      (effectsSince (MoveSizeStart sampleSystem 5 1 ⟨3, 4⟩ [(1, some 7)] idleWorld))
      = some [] := by
  refine ⟨by decide, by decide, by decide, by decide⟩

/-- C25, amended: when a drag is in progress, a work area is active and the recomputed
`dragEnabled` is true, a `MoveSizeUpdate` for a monitor that has an entry in a map without
empty handles returns, makes no call through an empty handle and forwards one
`MoveSizeUpdate(ptScreen, true, ctrl state)` call for every entry of the map; for a monitor
that has no entry in the map it returns and forwards nothing. -/
theorem moveSizeUpdate_forwards (fuel : Nat) (sys : System) (monitor : HMONITOR)
    (ptScreen : POINT) (workAreaMap : PerDesktopData) (w : World) (active : Nat)
    (hdragging : w.self.m_inDragging = true)
    (hactive : w.self.m_draggedWindowWorkArea = some active)
    (hdecision : (UpdateDragState sys.settings sys.shiftKeyState w.self).m_dragEnabled
      = true) :
    (∀ iterSecond, mapFind workAreaMap monitor = some iterSecond →
      NoEmptyHandle workAreaMap →
      ∃ w', MoveSizeUpdate (fuel + 1) sys monitor ptScreen workAreaMap w = some w' ∧
        w'.log = w.log ++ effectsSince w w' ∧
        (∀ e ∈ effectsSince w w', e.isThroughEmptyHandle = false) ∧
        (effectsSince w w').filter Effect.isMoveSizeUpdate =
          List.map (fun entry => Effect.workArea entry.2
            (WorkAreaCall.MoveSizeUpdate ptScreen true sys.ctrlKeyState)) workAreaMap ∧
        ((List.map Prod.snd workAreaMap).Nodup → ∀ entry ∈ workAreaMap,
          (effectsSince w w').count (Effect.workArea entry.2
            (WorkAreaCall.MoveSizeUpdate ptScreen true sys.ctrlKeyState)) = 1)) ∧
    (mapFind workAreaMap monitor = none →
      ∃ w', MoveSizeUpdate (fuel + 1) sys monitor ptScreen workAreaMap w = some w' ∧
        effectsSince w w' = []) := by
  constructor
  · intro iterSecond hfind hmap
    obtain ⟨w', hrun, hlog, _⟩ := moveSizeUpdate_enabled fuel sys monitor ptScreen workAreaMap
      w active iterSecond hdragging hactive hdecision hfind
    have hsince := effectsSince_eq w w' _ hlog
    have hsafe : ∀ e ∈ effectsSince w w', e.isThroughEmptyHandle = false := by
      rw [hsince]
      exact enabled_update_no_empty_handle sys ptScreen workAreaMap active iterSecond
        w.self.m_draggedWindow hmap
        (noEmptyHandle_mapFind workAreaMap monitor iterSecond hmap hfind)
    have hfilter : (effectsSince w w').filter Effect.isMoveSizeUpdate =
        List.map (fun entry => Effect.workArea entry.2
          (WorkAreaCall.MoveSizeUpdate ptScreen true sys.ctrlKeyState)) workAreaMap := by
      rw [hsince, List.filter_append, hand_off_no_update, List.nil_append,
        filter_forwarded_updates]
    refine ⟨w', hrun, by rw [hsince]; exact hlog, hsafe, hfilter, ?_⟩
    intro hnodup entry hmem
    rw [← List.count_filter (p := Effect.isMoveSizeUpdate) (by rfl), hfilter]
    have hinj : Function.Injective (fun workArea : WorkAreaPtr => Effect.workArea workArea
        (WorkAreaCall.MoveSizeUpdate ptScreen true sys.ctrlKeyState)) := by
      intro a b hab
      simpa using hab
    have hmap : List.map (fun entry : HMONITOR × WorkAreaPtr => Effect.workArea entry.2
          (WorkAreaCall.MoveSizeUpdate ptScreen true sys.ctrlKeyState)) workAreaMap =
        List.map (fun workArea : WorkAreaPtr => Effect.workArea workArea
          (WorkAreaCall.MoveSizeUpdate ptScreen true sys.ctrlKeyState))
          (List.map Prod.snd workAreaMap) := by
      rw [List.map_map]
      rfl
    rw [hmap]
    apply List.count_eq_one_of_mem (hnodup.map hinj)
    exact List.mem_map.2 ⟨entry.2, List.mem_map.2 ⟨entry, hmem, rfl⟩, rfl⟩
  · intro hfind
    refine ⟨_, moveSizeUpdate_recompute_only fuel sys monitor ptScreen workAreaMap w hdragging
      (Or.inr ⟨by simp [hactive], hdecision, hfind⟩), ?_⟩
    simp [effectsSince]

/-- Witness of C25, amended: the update for monitor 2 is forwarded to the work areas 7
and 8. -/
theorem moveSizeUpdate_forwards_witness :
    ∃ w', MoveSizeUpdate 1 sampleSystem 2 ⟨3, 4⟩ [(1, some 7), (2, some 8)]
        (MoveSizeStart sampleSystem 5 1 ⟨3, 4⟩ [(1, some 7), (2, some 8)] idleWorld)
        = some w' ∧
      (effectsSince
          (MoveSizeStart sampleSystem 5 1 ⟨3, 4⟩ [(1, some 7), (2, some 8)] idleWorld)
          w').filter Effect.isMoveSizeUpdate =
        List.map (fun entry => Effect.workArea entry.2
          (WorkAreaCall.MoveSizeUpdate ⟨3, 4⟩ true sampleSystem.ctrlKeyState))
          [(1, some 7), (2, some 8)] :=
  match (moveSizeUpdate_forwards 0 sampleSystem 2 ⟨3, 4⟩ [(1, some 7), (2, some 8)]
      (MoveSizeStart sampleSystem 5 1 ⟨3, 4⟩ [(1, some 7), (2, some 8)] idleWorld) 7
      (by decide) (by decide) (by decide)).1 (some 8) (by decide)
      (by unfold NoEmptyHandle; decide) with
  | ⟨w', h1, _, _, h3, _⟩ => ⟨w', h1, h3⟩


/-! ## C26 -/

theorem dismissWindow_no_update (sys : System) (window : HWND) (monitor : HMONITOR)
    (workAreaMap : PerDesktopData) (w0 : World) (h0 : w0.log = []) :
    ∀ e ∈ (dismissWindow sys window monitor workAreaMap w0).log,
      e.isMoveSizeUpdate = false := by
  unfold dismissWindow
  simp only [invoke, perform]
  split
  · split <;> simp [h0, Effect.isMoveSizeUpdate]
  · simp [h0]

/-- Log and members after a `MoveSizeStart` that is not ignored, finds the non-empty work
area `wa` for the monitor, meets no elevation mismatch and has dragging enabled. -/
theorem moveSizeStart_enabled_log (sys : System) (window : HWND) (monitor : HMONITOR)
    (ptScreen : POINT) (workAreaMap : PerDesktopData) (w : World) (wa : Nat)
    (haccepted : (!sys.IsCandidateForZoning window || IsCursorTypeIndicatingSizeEvent sys)
      = false)
    (hm : (!sys.is_process_elevated && sys.IsProcessOfWindowElevated window) = false)
    (hfind : mapFind workAreaMap monitor = some (some wa))
    (hdecision : (UpdateDragState sys.settings sys.shiftKeyState w.self).m_dragEnabled
      = true) :
    (MoveSizeStart sys window monitor ptScreen workAreaMap w).log = w.log ++
      ((Effect.workArea (some wa) (WorkAreaCall.MoveSizeEnter window) ::
        (if sys.settings.showZonesOnAllMonitors = true then
          List.map (fun entry => Effect.workArea entry.2 WorkAreaCall.ShowZoneWindow)
            (workAreaMap.filter (fun entry =>
              entry.2.isSome && !decide (entry.2 = some wa)))
        else [])) ++
      (dismissWindow sys window monitor workAreaMap { w with log := [] }).log) ∧
    (MoveSizeStart sys window monitor ptScreen workAreaMap w).self.m_inDragging = true ∧
    (MoveSizeStart sys window monitor ptScreen workAreaMap w).self.m_draggedWindow = window ∧
    (MoveSizeStart sys window monitor ptScreen workAreaMap w).self.m_dragEnabled = true ∧
    (MoveSizeStart sys window monitor ptScreen workAreaMap w).self.m_draggedWindowWorkArea
      = some wa ∧
    (MoveSizeStart sys window monitor ptScreen workAreaMap w).self.m_mouseState
      = w.self.m_mouseState := by
  have hlog := moveSizeStart_log sys window monitor ptScreen workAreaMap w (some wa)
    haccepted hfind
  have hf := moveSizeStart_fields sys window monitor ptScreen workAreaMap w (some wa)
    haccepted hfind
  simp only [hm, hdecision, Bool.false_and, Bool.not_false, Bool.and_self, Bool.true_and,
    if_true, Bool.false_eq_true, if_false, List.nil_append, Bool.or_false] at hlog hf
  exact ⟨hlog, hf.1, hf.2.1, hf.2.2.2.1, hf.2.2.2.2.1, hf.2.2.2.2.2.1⟩

theorem enabled_start_effects_filters (sys : System) (window : HWND) (monitor : HMONITOR)
    (workAreaMap : PerDesktopData) (w0 : World) (h0 : w0.log = []) (wa : Nat) :
    ((Effect.workArea (some wa) (WorkAreaCall.MoveSizeEnter window) ::
        (if sys.settings.showZonesOnAllMonitors = true then
          List.map (fun entry : HMONITOR × WorkAreaPtr =>
              Effect.workArea entry.2 WorkAreaCall.ShowZoneWindow)
            (workAreaMap.filter (fun entry =>
              entry.2.isSome && !decide (entry.2 = some wa)))
        else [])) ++
      (dismissWindow sys window monitor workAreaMap w0).log).filter Effect.isMoveSizeEnter =
      [Effect.workArea (some wa) (WorkAreaCall.MoveSizeEnter window)] ∧
    ((Effect.workArea (some wa) (WorkAreaCall.MoveSizeEnter window) ::
        (if sys.settings.showZonesOnAllMonitors = true then
          List.map (fun entry : HMONITOR × WorkAreaPtr =>
              Effect.workArea entry.2 WorkAreaCall.ShowZoneWindow)
            (workAreaMap.filter (fun entry =>
              entry.2.isSome && !decide (entry.2 = some wa)))
        else [])) ++
      (dismissWindow sys window monitor workAreaMap w0).log).filter Effect.isMoveSizeUpdate
      = [] := by
  have hdismiss := dismissWindow_no_callback sys window monitor workAreaMap w0 h0
  have hdismiss' := dismissWindow_no_update sys window monitor workAreaMap w0 h0
  have hshows : ∀ p : Effect → Bool,
      (∀ wa', p (Effect.workArea wa' WorkAreaCall.ShowZoneWindow) = false) →
      (if sys.settings.showZonesOnAllMonitors = true then
          List.map (fun entry : HMONITOR × WorkAreaPtr =>
              Effect.workArea entry.2 WorkAreaCall.ShowZoneWindow)
            (workAreaMap.filter (fun entry =>
              entry.2.isSome && !decide (entry.2 = some wa)))
        else []).filter p = [] := by
    intro p hp
    apply filter_eq_nil_of_forall
    intro e he
    split_ifs at he
    · simp only [List.mem_map] at he
      obtain ⟨entry, _, rfl⟩ := he
      exact hp _
    · simp at he
  constructor
  · rw [List.filter_append, filter_eq_nil_of_forall _ _ (fun e he => (hdismiss e he).2.1),
      List.append_nil, List.filter_cons, hshows _ (fun _ => rfl)]
    rfl
  · rw [List.filter_append, filter_eq_nil_of_forall _ _ hdismiss', List.append_nil,
      List.filter_cons, hshows _ (fun _ => rfl)]
    rfl

theorem dismissWindow_no_empty_handle (sys : System) (window : HWND) (monitor : HMONITOR)
    (workAreaMap : PerDesktopData) (w0 : World) (h0 : w0.log = []) (wa : Nat)
    (hfind : mapFind workAreaMap monitor = some (some wa)) :
    ∀ e ∈ (dismissWindow sys window monitor workAreaMap w0).log,
      e.isThroughEmptyHandle = false := by
  unfold dismissWindow
  simp only [invoke, perform, hfind, Option.bind_some, h0, List.nil_append]
  split <;> simp [Effect.isThroughEmptyHandle]

theorem enabled_start_no_empty_handle (sys : System) (window : HWND) (monitor : HMONITOR)
    (workAreaMap : PerDesktopData) (w0 : World) (h0 : w0.log = []) (wa : Nat)
    (hfind : mapFind workAreaMap monitor = some (some wa)) :
    ∀ e ∈ (Effect.workArea (some wa) (WorkAreaCall.MoveSizeEnter window) ::
        (if sys.settings.showZonesOnAllMonitors = true then
          List.map (fun entry : HMONITOR × WorkAreaPtr =>
              Effect.workArea entry.2 WorkAreaCall.ShowZoneWindow)
            (workAreaMap.filter (fun entry =>
              entry.2.isSome && !decide (entry.2 = some wa)))
        else [])) ++
      (dismissWindow sys window monitor workAreaMap w0).log,
      e.isThroughEmptyHandle = false := by
  intro e he
  rw [List.mem_append, List.mem_cons] at he
  rcases he with (rfl | he) | he
  · rfl
  · split_ifs at he
    · simp only [List.mem_map, List.mem_filter, Bool.and_eq_true] at he
      obtain ⟨entry, ⟨_, hsome, _⟩, rfl⟩ := he
      rw [isThroughEmptyHandle_workArea, hsome]
      rfl
    · simp at he
  · exact dismissWindow_no_empty_handle sys window monitor workAreaMap w0 h0 wa hfind e he

/-- The restart of `MoveSizeUpdate`: when a drag of the tracked window W is in progress
without an active work area, the recomputed `dragEnabled` is true, W is a zoning candidate,
the cursor is no resize cursor and the monitor has the non-empty work area `wa` in the map:
without elevation mismatch and with a map without empty handles, one `MoveSizeUpdate` call
returns with `wa` active, having made no call through an empty handle and having invoked
`MoveSizeEnter(W)` once, on `wa`, and after it one `MoveSizeUpdate(ptScreen, true, ctrl
state)` for every entry of the map; with the elevation mismatch it returns with no work area
active, no call through an empty handle and nothing forwarded. -/
theorem moveSizeUpdate_restart_enabled (fuel : Nat) (sys : System) (monitor : HMONITOR)
    (ptScreen : POINT) (workAreaMap : PerDesktopData) (w : World) (wa : Nat)
    (hdragging : w.self.m_inDragging = true)
    (hactive : w.self.m_draggedWindowWorkArea = none)
    (hdecision : (UpdateDragState sys.settings sys.shiftKeyState w.self).m_dragEnabled
      = true)
    (hcandidate : sys.IsCandidateForZoning w.self.m_draggedWindow = true)
    (hcursor : IsCursorTypeIndicatingSizeEvent sys = false)
    (hfind : mapFind workAreaMap monitor = some (some wa)) :
    ((sys.is_process_elevated = true ∨
        sys.IsProcessOfWindowElevated w.self.m_draggedWindow = false) →
      NoEmptyHandle workAreaMap →
      ∃ w', MoveSizeUpdate (fuel + 2) sys monitor ptScreen workAreaMap w = some w' ∧
        w'.self.m_draggedWindowWorkArea = some wa ∧
        w'.log = w.log ++ effectsSince w w' ∧
        (∀ e ∈ effectsSince w w', e.isThroughEmptyHandle = false) ∧
        (effectsSince w w').filter Effect.isMoveSizeEnter =
          [Effect.workArea (some wa) (WorkAreaCall.MoveSizeEnter w.self.m_draggedWindow)] ∧
        (effectsSince w w').filter Effect.isMoveSizeUpdate =
          List.map (fun entry => Effect.workArea entry.2
            (WorkAreaCall.MoveSizeUpdate ptScreen true sys.ctrlKeyState)) workAreaMap ∧
        ∃ before, effectsSince w w' = before ++
            List.map (fun entry => Effect.workArea entry.2
              (WorkAreaCall.MoveSizeUpdate ptScreen true sys.ctrlKeyState)) workAreaMap ∧
          Effect.workArea (some wa) (WorkAreaCall.MoveSizeEnter w.self.m_draggedWindow)
            ∈ before) ∧
    (sys.is_process_elevated = false →
      sys.IsProcessOfWindowElevated w.self.m_draggedWindow = true →
      ∃ w', MoveSizeUpdate (fuel + 1) sys monitor ptScreen workAreaMap w = some w' ∧
        w'.self.m_draggedWindowWorkArea = none ∧ w'.self.m_dragEnabled = false ∧
        w'.log = w.log ++ effectsSince w w' ∧
        (∀ e ∈ effectsSince w w', e.isThroughEmptyHandle = false) ∧
        (effectsSince w w').filter Effect.isMoveSizeUpdate = []) := by
  have hd := hdecision
  rw [(updateDragState_frame _ _ _).1] at hd
  have haccepted : (!sys.IsCandidateForZoning w.self.m_draggedWindow ||
      IsCursorTypeIndicatingSizeEvent sys) = false := by simp [hcursor, hcandidate]
  have hdecision1 : (UpdateDragState sys.settings sys.shiftKeyState
      ({ w with self := UpdateDragState sys.settings sys.shiftKeyState w.self } : World).self
      ).m_dragEnabled = true := by
    simp only [updateDragState_frame]
    exact hd
  constructor
  · intro hno hmap
    have hm : (!sys.is_process_elevated &&
        sys.IsProcessOfWindowElevated w.self.m_draggedWindow) = false := by
      rcases hno with h | h <;> simp [h]
    obtain ⟨hlog2, hdrag2, hwin2, hen2, hact2, hmouse2⟩ :=
      moveSizeStart_enabled_log sys w.self.m_draggedWindow monitor ptScreen workAreaMap
        { w with self := UpdateDragState sys.settings sys.shiftKeyState w.self } wa
        haccepted hm hfind hdecision1
    rw [moveSizeUpdate_restart (fuel + 1) sys monitor ptScreen workAreaMap w hdragging hactive
      hdecision, if_pos hen2]
    have hdecision2 : (UpdateDragState sys.settings sys.shiftKeyState
        (MoveSizeStart sys w.self.m_draggedWindow monitor ptScreen workAreaMap
          { w with self := UpdateDragState sys.settings sys.shiftKeyState w.self }).self
        ).m_dragEnabled = true := by
      rw [(updateDragState_frame _ _ _).1, hmouse2]
      simp only [updateDragState_frame]
      exact hd
    obtain ⟨w', hrun, hlog, hact, _, _, _, _, _, _, _⟩ :=
      moveSizeUpdate_enabled fuel sys monitor ptScreen workAreaMap _ wa (some wa) hdrag2
        hact2 hdecision2 hfind
    simp only [ne_eq, not_true_eq_false, if_false, List.nil_append] at hlog
    rw [hlog2] at hlog
    rw [List.append_assoc] at hlog
    have hlog' : w'.log = w.log ++ _ := hlog
    have hsince := effectsSince_eq w w' _ hlog'
    have hfilters := enabled_start_effects_filters sys w.self.m_draggedWindow monitor
      workAreaMap
      { ({ w with
            self := UpdateDragState sys.settings sys.shiftKeyState w.self } : World) with
        log := [] }
      rfl wa
    have hupd := forwarded_updates_no_callback ptScreen true sys.ctrlKeyState workAreaMap
    have hsafe := enabled_start_no_empty_handle sys w.self.m_draggedWindow monitor
      workAreaMap
      { ({ w with
            self := UpdateDragState sys.settings sys.shiftKeyState w.self } : World) with
        log := [] }
      rfl wa hfind
    refine ⟨w', hrun, hact, by rw [hsince]; exact hlog', ?_, ?_, ?_, _, hsince, ?_⟩
    · rw [hsince]
      intro e he
      rw [List.mem_append] at he
      rcases he with he | he
      · exact hsafe e he
      · simp only [List.mem_map] at he
        obtain ⟨entry, hmem, rfl⟩ := he
        rw [isThroughEmptyHandle_workArea, hmap entry hmem]
        rfl
    · rw [hsince, List.filter_append, hfilters.1,
        filter_eq_nil_of_forall _ _ (fun e he => (hupd e he).2.1), List.append_nil]
    · rw [hsince, List.filter_append, hfilters.2, List.nil_append, filter_forwarded_updates]
    · simp
  · intro h1 h2
    have hlog2 := moveSizeStart_log sys w.self.m_draggedWindow monitor ptScreen workAreaMap
      { w with self := UpdateDragState sys.settings sys.shiftKeyState w.self } (some wa)
      haccepted hfind
    have hf := moveSizeStart_fields sys w.self.m_draggedWindow monitor ptScreen workAreaMap
      { w with self := UpdateDragState sys.settings sys.shiftKeyState w.self } (some wa)
      haccepted hfind
    simp only [h1, h2, Bool.not_false, Bool.and_self, Bool.not_true, Bool.false_and,
      Bool.false_eq_true, if_false, Bool.true_and,
      (updateDragState_frame _ _ _).2.2.2.2.2.2.2.2.1, hactive, Option.isSome_none,
      List.append_nil] at hlog2 hf
    have hdis : (MoveSizeStart sys w.self.m_draggedWindow monitor ptScreen workAreaMap
        { w with self := UpdateDragState sys.settings sys.shiftKeyState w.self }
        ).self.m_dragEnabled ≠ true := by
      rw [hf.2.2.2.1]
      decide
    rw [moveSizeUpdate_restart fuel sys monitor ptScreen workAreaMap w hdragging hactive
      hdecision, if_neg hdis]
    have hsince := effectsSince_eq w _ _ hlog2
    refine ⟨_, rfl, hf.2.2.2.2.1, hf.2.2.2.1, by rw [hsince]; exact hlog2, ?_, ?_⟩
    · rw [hsince]
      intro e he
      rw [List.mem_append] at he
      rcases he with he | he
      · split_ifs at he
        · simp only [List.mem_singleton] at he
          rw [he]
          rfl
        · simp at he
      · exact dismissWindow_no_empty_handle sys _ monitor workAreaMap _ rfl wa hfind e he
    · rw [hsince, List.filter_append,
        filter_eq_nil_of_forall _ _ (dismissWindow_no_update sys _ monitor workAreaMap
          _ rfl), List.append_nil]
      split_ifs <;> rfl

/-- Window 5 was started with shift held and dragging disabled; shift is released and the
update on monitor 1 makes work area 7 active. -/
theorem moveSizeUpdate_restart_enabled_witness :
    ∃ w', MoveSizeUpdate 2 sampleSystem 1 ⟨3, 4⟩ [(1, some 7), (2, some 8)]
        (MoveSizeStart { sampleSystem with shiftKeyState := true } 5 1 ⟨3, 4⟩
          [(1, some 7), (2, some 8)] idleWorld) = some w' ∧
      w'.self.m_draggedWindowWorkArea = some 7 :=
  match (moveSizeUpdate_restart_enabled 0 sampleSystem 1 ⟨3, 4⟩ [(1, some 7), (2, some 8)]
      (MoveSizeStart { sampleSystem with shiftKeyState := true } 5 1 ⟨3, 4⟩
        [(1, some 7), (2, some 8)] idleWorld) 7
      (by decide) (by decide) (by decide) (by decide) (by decide) (by decide)).1
      (Or.inr (by decide)) (by unfold NoEmptyHandle; decide) with
  | ⟨w', h1, h2, _⟩ => ⟨w', h1, h2⟩

/-- C26: the restart of `MoveSizeUpdate` on a map that holds an empty handle. Window 5 is
tracked in a drag without an active work area, the recomputed `dragEnabled` is true and
monitor 1 has work area 7 in the map, which also holds an empty handle for monitor 2. The
call re-enters `MoveSizeStart`, which invokes `MoveSizeEnter(5)` on work area 7 and asks it
for its zone set; the first update it then forwards goes through the empty handle, so no
update reaches a work area. -/
theorem moveSizeUpdate_restart_empty_handle :
    (MoveSizeStart { sampleSystem with shiftKeyState := true } 5 1 ⟨3, 4⟩
      [(2, none), (1, some 7)] idleWorld).self.m_inDragging = true ∧
    (MoveSizeStart { sampleSystem with shiftKeyState := true } 5 1 ⟨3, 4⟩
      [(2, none), (1, some 7)] idleWorld).self.m_draggedWindow = 5 ∧
    (MoveSizeStart { sampleSystem with shiftKeyState := true } 5 1 ⟨3, 4⟩
      [(2, none), (1, some 7)] idleWorld).self.m_draggedWindowWorkArea = none ∧
    (∀ e ∈ (MoveSizeStart { sampleSystem with shiftKeyState := true } 5 1 ⟨3, 4⟩
      [(2, none), (1, some 7)] idleWorld).log, e.isThroughEmptyHandle = false) ∧
    (UpdateDragState sampleSystem.settings sampleSystem.shiftKeyState
      (MoveSizeStart { sampleSystem with shiftKeyState := true } 5 1 ⟨3, 4⟩
        [(2, none), (1, some 7)] idleWorld).self).m_dragEnabled = true ∧
    mapFind [(2, (none : WorkAreaPtr)), (1, some 7)] 1 = some (some 7) ∧
    (MoveSizeUpdate 2 sampleSystem 1 ⟨3, 4⟩ [(2, none), (1, some 7)]
      (MoveSizeStart { sampleSystem with shiftKeyState := true } 5 1 ⟨3, 4⟩
        [(2, none), (1, some 7)] idleWorld)).map
      (fun w' => (effectsSince
        (MoveSizeStart { sampleSystem with shiftKeyState := true } 5 1 ⟨3, 4⟩
          [(2, none), (1, some 7)] idleWorld) w').takeWhile
        (fun e => !e.isThroughEmptyHandle)) =
      some [Effect.workArea (some 7) (WorkAreaCall.MoveSizeEnter 5),
        Effect.workArea (some 7) WorkAreaCall.ZoneSet, Effect.DismissWindow 107 5] ∧
    (MoveSizeUpdate 2 sampleSystem 1 ⟨3, 4⟩ [(2, none), (1, some 7)]
      (MoveSizeStart { sampleSystem with shiftKeyState := true } 5 1 ⟨3, 4⟩
        [(2, none), (1, some 7)] idleWorld)).map
      (fun w' => ((effectsSince
        (MoveSizeStart { sampleSystem with shiftKeyState := true } 5 1 ⟨3, 4⟩
          [(2, none), (1, some 7)] idleWorld) w').filter Effect.isMoveSizeUpdate).head?) =
      some (some (Effect.workArea none (WorkAreaCall.MoveSizeUpdate ⟨3, 4⟩ true false))) := by
  refine ⟨by decide, by decide, by decide, by decide, by decide, by decide, by decide,
    by decide⟩


/-! ## C21 -/

/-- Counterexample to C21: while the drag of window 5 is in progress on work area 7, a
`MoveSizeStart` for the candidate window 6 on monitor 2 is accepted: the tracked window
becomes 6, work area 8 becomes active and `MoveSizeEnter(6)` is invoked on it. -/
theorem moveSizeStart_second_window_accepted :
    (MoveSizeStart sampleSystem 5 1 ⟨3, 4⟩ [(1, some 7), (2, some 8)]
      idleWorld).self.m_inDragging = true ∧
    (MoveSizeStart sampleSystem 5 1 ⟨3, 4⟩ [(1, some 7), (2, some 8)]
      idleWorld).self.m_draggedWindow = 5 ∧
    (MoveSizeStart sampleSystem 5 1 ⟨3, 4⟩ [(1, some 7), (2, some 8)]
      idleWorld).self.m_draggedWindowWorkArea = some 7 ∧
    (MoveSizeStart sampleSystem 6 2 ⟨3, 4⟩ [(1, some 7), (2, some 8)]
      (MoveSizeStart sampleSystem 5 1 ⟨3, 4⟩ [(1, some 7), (2, some 8)]
        idleWorld)).self.m_draggedWindow = 6 ∧
    (MoveSizeStart sampleSystem 6 2 ⟨3, 4⟩ [(1, some 7), (2, some 8)]
      (MoveSizeStart sampleSystem 5 1 ⟨3, 4⟩ [(1, some 7), (2, some 8)]
        idleWorld)).self.m_draggedWindowWorkArea = some 8 ∧
    Effect.workArea (some 8) (WorkAreaCall.MoveSizeEnter 6) ∈
      effectsSince
        (MoveSizeStart sampleSystem 5 1 ⟨3, 4⟩ [(1, some 7), (2, some 8)] idleWorld)
        (MoveSizeStart sampleSystem 6 2 ⟨3, 4⟩ [(1, some 7), (2, some 8)]
          (MoveSizeStart sampleSystem 5 1 ⟨3, 4⟩ [(1, some 7), (2, some 8)] idleWorld)) := by
  refine ⟨by decide, by decide, by decide, by decide, by decide, by decide⟩

/-- C21, amended: whether or not a drag is in progress, `MoveSizeStart` for a window is
ignored, leaving the state as it was, only when the window is no zoning candidate or the
cursor indicates a resize. Otherwise the start is accepted: the traits of the window are
recorded and `inDragging` is set; when the monitor has no entry in the map the tracked
window, the active work area and the log stay as they were; when it has one the window
becomes the tracked window, and with dragging enabled the work area of the monitor becomes
active and `MoveSizeEnter` is invoked on it for the window. -/
theorem moveSizeStart_acceptance (sys : System) (window : HWND) (monitor : HMONITOR)
    (ptScreen : POINT) (workAreaMap : PerDesktopData) (w : World) :
    ((!sys.IsCandidateForZoning window || IsCursorTypeIndicatingSizeEvent sys) = true →
      MoveSizeStart sys window monitor ptScreen workAreaMap w = w) ∧
    ((!sys.IsCandidateForZoning window || IsCursorTypeIndicatingSizeEvent sys) = false →
      mapFind workAreaMap monitor = none →
      (MoveSizeStart sys window monitor ptScreen workAreaMap w).self.m_inDragging = true ∧
      (MoveSizeStart sys window monitor ptScreen workAreaMap w).self.m_draggedWindowInfo =
        ⟨sys.HasNoVisibleOwner window, sys.IsStandardWindow window⟩ ∧
      (MoveSizeStart sys window monitor ptScreen workAreaMap w).self.m_draggedWindow =
        w.self.m_draggedWindow ∧
      (MoveSizeStart sys window monitor ptScreen workAreaMap w).self.m_draggedWindowWorkArea =
        w.self.m_draggedWindowWorkArea ∧
      (MoveSizeStart sys window monitor ptScreen workAreaMap w).log = w.log) ∧
    ((!sys.IsCandidateForZoning window || IsCursorTypeIndicatingSizeEvent sys) = false →
      ∀ iterSecond, mapFind workAreaMap monitor = some iterSecond →
      (MoveSizeStart sys window monitor ptScreen workAreaMap w).self.m_inDragging = true ∧
      (MoveSizeStart sys window monitor ptScreen workAreaMap w).self.m_draggedWindowInfo =
        ⟨sys.HasNoVisibleOwner window, sys.IsStandardWindow window⟩ ∧
      (MoveSizeStart sys window monitor ptScreen workAreaMap w).self.m_draggedWindow =
        window ∧
      ((MoveSizeStart sys window monitor ptScreen workAreaMap w).self.m_dragEnabled = true →
        (MoveSizeStart sys window monitor ptScreen workAreaMap w).self.m_draggedWindowWorkArea
          = iterSecond ∧
        Effect.workArea iterSecond (WorkAreaCall.MoveSizeEnter window) ∈
          effectsSince w (MoveSizeStart sys window monitor ptScreen workAreaMap w))) := by
  refine ⟨moveSizeStart_ignored sys window monitor ptScreen workAreaMap w, ?_, ?_⟩
  · intro h hfind
    rw [moveSizeStart_no_monitor sys window monitor ptScreen workAreaMap w h hfind]
    exact ⟨rfl, rfl, rfl, rfl, rfl⟩
  · intro h iterSecond hfind
    have hlog := moveSizeStart_log sys window monitor ptScreen workAreaMap w iterSecond h hfind
    have hf := moveSizeStart_fields sys window monitor ptScreen workAreaMap w iterSecond
      h hfind
    refine ⟨hf.1, hf.2.2.1, hf.2.1, ?_⟩
    intro hen
    rw [hf.2.2.2.1] at hen
    rw [effectsSince_eq w _ _ hlog]
    refine ⟨?_, ?_⟩
    · rw [hf.2.2.2.2.1, if_pos hen]
    · rw [if_pos hen]
      simp

/-- Witness of C21, amended: the start for window 6 during the drag of window 5. -/
theorem moveSizeStart_acceptance_witness :
    (MoveSizeStart sampleSystem 6 2 ⟨3, 4⟩ [(1, some 7), (2, some 8)]
      (MoveSizeStart sampleSystem 5 1 ⟨3, 4⟩ [(1, some 7), (2, some 8)]
        idleWorld)).self.m_draggedWindow = 6 ∧
    (MoveSizeStart sampleSystem 6 2 ⟨3, 4⟩ [(1, some 7), (2, some 8)]
      (MoveSizeStart sampleSystem 5 1 ⟨3, 4⟩ [(1, some 7), (2, some 8)]
        idleWorld)).self.m_draggedWindowWorkArea = some 8 :=
  match (moveSizeStart_acceptance sampleSystem 6 2 ⟨3, 4⟩ [(1, some 7), (2, some 8)]
      (MoveSizeStart sampleSystem 5 1 ⟨3, 4⟩ [(1, some 7), (2, some 8)] idleWorld)).2.2
      (by decide) (some 8) (by decide) with
  | ⟨_, _, h3, h4⟩ => ⟨h3, (h4 (by decide)).1⟩


/-! ## C22 -/

/-- C22: a `MoveSizeStart` from the idle session for the candidate window 5 on monitor 3,
which has no entry in the map, returns after setting `inDragging` and before recording the
window: a drag is in progress and no window is tracked. The `MoveSizeEnd` for window 5 is
then ignored, so the session stays in that state. -/
theorem moveSizeStart_unknown_monitor_breaks_session_invariant :
    IsIdle idleWorld ∧
    sampleSystem.IsCandidateForZoning 5 = true ∧
    mapFind [(1, (some 7 : WorkAreaPtr))] 3 = none ∧
    (MoveSizeStart sampleSystem 5 3 ⟨3, 4⟩ [(1, some 7)] idleWorld).self.m_inDragging = true ∧
    (MoveSizeStart sampleSystem 5 3 ⟨3, 4⟩ [(1, some 7)] idleWorld).self.m_draggedWindow = 0 ∧
    MoveSizeEnd sampleSystem 5 ⟨3, 4⟩ [(1, some 7)]
        (MoveSizeStart sampleSystem 5 3 ⟨3, 4⟩ [(1, some 7)] idleWorld) =
      MoveSizeStart sampleSystem 5 3 ⟨3, 4⟩ [(1, some 7)] idleWorld := by
  refine ⟨⟨rfl, rfl, rfl, rfl, rfl, rfl, rfl, rfl⟩, by decide, by decide, by decide,
    by decide, by decide⟩

/-! ## C30 -/

/-- C30: calls through an empty handle. `MoveSizeStart` on a monitor whose entry holds an
empty handle invokes `MoveSizeEnter` through it, first thing, when dragging is enabled, and
`ZoneSet` through it when dragging is disabled; `MoveSizeUpdate` forwards the update through
the empty handle of another monitor of the map; `MoveSizeEnd` without an active work area
invokes `ZoneSet` through the empty handle of the monitor the window is on. -/
theorem calls_through_empty_handle :
    (MoveSizeStart sampleSystem 5 1 ⟨3, 4⟩ [(1, none)] idleWorld).log.head? =
      some (Effect.workArea none (WorkAreaCall.MoveSizeEnter 5)) ∧
    (MoveSizeStart { sampleSystem with shiftKeyState := true } 5 1 ⟨3, 4⟩ [(1, none)]
      idleWorld).log = [Effect.workArea none WorkAreaCall.ZoneSet] ∧
    (MoveSizeUpdate 1 sampleSystem 1 ⟨3, 4⟩ [(1, some 7), (2, none)]
        (MoveSizeStart sampleSystem 5 1 ⟨3, 4⟩ [(1, some 7)] idleWorld)).map
        (fun w => (effectsSince
          (MoveSizeStart sampleSystem 5 1 ⟨3, 4⟩ [(1, some 7)] idleWorld) w).filter
            Effect.isThroughEmptyHandle) =
      some [Effect.workArea none (WorkAreaCall.MoveSizeUpdate ⟨3, 4⟩ true false)] ∧
    (effectsSince
        (MoveSizeStart { sampleSystem with shiftKeyState := true } 5 1 ⟨3, 4⟩ [(1, some 7)]
          idleWorld)
        (MoveSizeEnd sampleSystem 5 ⟨3, 4⟩ [(1, none)]
          (MoveSizeStart { sampleSystem with shiftKeyState := true } 5 1 ⟨3, 4⟩
            [(1, some 7)] idleWorld))).filter Effect.isThroughEmptyHandle =
      [Effect.workArea none WorkAreaCall.ZoneSet] := by
  refine ⟨by decide, by decide, by decide, by decide⟩


/-! ## C29 -/

theorem moveSizeStart_activeWorkAreaInvariant (sys : System) (window : HWND)
    (monitor : HMONITOR) (ptScreen : POINT) (workAreaMap : PerDesktopData) (w : World)
    (hnull : sys.IsCandidateForZoning 0 = false) (hinv : ActiveWorkAreaInvariant w) :
    ActiveWorkAreaInvariant (MoveSizeStart sys window monitor ptScreen workAreaMap w) := by
  cases h : (!sys.IsCandidateForZoning window || IsCursorTypeIndicatingSizeEvent sys) with
  | true =>
    rw [moveSizeStart_ignored sys window monitor ptScreen workAreaMap w h]
    exact hinv
  | false =>
    cases hfind : mapFind workAreaMap monitor with
    | none =>
      rw [moveSizeStart_no_monitor sys window monitor ptScreen workAreaMap w h hfind]
      intro ha
      obtain ⟨_, h2, h3⟩ := hinv ha
      exact ⟨rfl, h2, h3⟩
    | some iterSecond =>
      have hf := moveSizeStart_fields sys window monitor ptScreen workAreaMap w iterSecond
        h hfind
      intro ha
      rw [hf.2.2.2.2.1] at ha
      split at ha
      · rename_i hen
        refine ⟨hf.1, ?_, ?_⟩
        · rw [hf.2.1]
          intro hw
          subst hw
          simp [hnull] at h
        · rw [hf.2.2.2.1]
          exact hen
      · simp at ha

theorem moveSizeEnd_activeWorkAreaInvariant (sys : System) (window : HWND)
    (ptScreen : POINT) (workAreaMap : PerDesktopData) (w : World)
    (hinv : ActiveWorkAreaInvariant w) :
    ActiveWorkAreaInvariant (MoveSizeEnd sys window ptScreen workAreaMap w) := by
  by_cases h : window = w.self.m_draggedWindow
  · intro ha
    rw [(moveSizeEnd_fields sys window ptScreen workAreaMap w h).2.2.1] at ha
    simp at ha
  · rw [moveSizeEnd_ignored sys window ptScreen workAreaMap w h]
    exact hinv

theorem moveSizeUpdate_activeWorkAreaInvariant (sys : System) (monitor : HMONITOR)
    (ptScreen : POINT) (workAreaMap : PerDesktopData)
    (hnull : sys.IsCandidateForZoning 0 = false) (fuel : Nat) :
    ∀ w w' : World, ActiveWorkAreaInvariant w →
      MoveSizeUpdate fuel sys monitor ptScreen workAreaMap w = some w' →
      ActiveWorkAreaInvariant w' := by
  induction fuel with
  | zero =>
    intro w w' _ hrun
    simp [MoveSizeUpdate] at hrun
  | succ fuel ih =>
    intro w w' hinv hrun
    cases hdragging : w.self.m_inDragging with
    | false =>
      rw [moveSizeUpdate_not_dragging fuel sys monitor ptScreen workAreaMap w hdragging]
        at hrun
      cases hrun
      exact hinv
    | true =>
      cases hactive : w.self.m_draggedWindowWorkArea with
      | none =>
        cases hdecision : (UpdateDragState sys.settings sys.shiftKeyState w.self).m_dragEnabled
          with
        | false =>
          rw [moveSizeUpdate_recompute_only fuel sys monitor ptScreen workAreaMap w hdragging
            (Or.inl ⟨hactive, hdecision⟩)] at hrun
          cases hrun
          intro ha
          simp [updateDragState_frame, hactive] at ha
        | true =>
          have hstart := moveSizeStart_activeWorkAreaInvariant sys w.self.m_draggedWindow
            monitor ptScreen workAreaMap
            { w with self := UpdateDragState sys.settings sys.shiftKeyState w.self } hnull
            (by
              intro ha
              simp [updateDragState_frame, hactive] at ha)
          rw [moveSizeUpdate_restart fuel sys monitor ptScreen workAreaMap w hdragging hactive
            hdecision] at hrun
          split at hrun
          · exact ih _ _ hstart hrun
          · cases hrun
            exact hstart
      | some active =>
        have hsome : w.self.m_draggedWindowWorkArea.isSome = true := by simp [hactive]
        obtain ⟨_, hwindow, _⟩ := hinv hsome
        cases hdecision : (UpdateDragState sys.settings sys.shiftKeyState w.self).m_dragEnabled
          with
        | false =>
          obtain ⟨w'', hrun', _, hnone, _⟩ := moveSizeUpdate_disabled fuel sys monitor
            ptScreen workAreaMap w hdragging hsome hdecision
          rw [hrun'] at hrun
          cases hrun
          intro ha
          simp [hnone] at ha
        | true =>
          cases hfind : mapFind workAreaMap monitor with
          | none =>
            rw [moveSizeUpdate_recompute_only fuel sys monitor ptScreen workAreaMap w
              hdragging (Or.inr ⟨hsome, hdecision, hfind⟩)] at hrun
            cases hrun
            intro _
            refine ⟨?_, ?_, hdecision⟩
            · simp [updateDragState_frame, hdragging]
            · simpa [updateDragState_frame] using hwindow
          | some iterSecond =>
            obtain ⟨w'', hrun', _, _, hdrag', hen', hwin', _⟩ := moveSizeUpdate_enabled fuel
              sys monitor ptScreen workAreaMap w active iterSecond hdragging hactive hdecision
              hfind
            rw [hrun'] at hrun
            cases hrun
            intro _
            exact ⟨hdrag', by rw [hwin']; exact hwindow, hen'⟩

theorem applyDragCalls_activeWorkAreaInvariant (fuel : Nat)
    (calls : List (System × DragCall)) :
    ∀ w0 w : World, ActiveWorkAreaInvariant w0 →
      (∀ c ∈ calls, c.1.IsCandidateForZoning 0 = false) →
      applyDragCalls fuel w0 calls = some w → ActiveWorkAreaInvariant w := by
  induction calls with
  | nil =>
    intro w0 w hinv _ hrun
    simp only [applyDragCalls, Option.some.injEq] at hrun
    subst hrun
    exact hinv
  | cons c rest ih =>
    intro w0 w hinv hnull hrun
    obtain ⟨sys, call⟩ := c
    have hsys : sys.IsCandidateForZoning 0 = false := hnull (sys, call) (by simp)
    have hrest : ∀ c ∈ rest, c.1.IsCandidateForZoning 0 = false :=
      fun c hc => hnull c (List.mem_cons_of_mem _ hc)
    simp only [applyDragCalls] at hrun
    cases hstep : applyDragCall fuel w0 sys call with
    | none => simp [hstep] at hrun
    | some w1 =>
      simp only [hstep] at hrun
      refine ih w1 w ?_ hrest hrun
      cases call with
      | moveSizeStart window monitor ptScreen workAreaMap =>
        simp only [applyDragCall, Option.some.injEq] at hstep
        subst hstep
        exact moveSizeStart_activeWorkAreaInvariant sys window monitor ptScreen workAreaMap
          w0 hsys hinv
      | moveSizeUpdate monitor ptScreen workAreaMap =>
        simp only [applyDragCall] at hstep
        exact moveSizeUpdate_activeWorkAreaInvariant sys monitor ptScreen workAreaMap hsys
          fuel w0 w1 hinv hstep
      | moveSizeEnd window ptScreen workAreaMap =>
        simp only [applyDragCall, Option.some.injEq] at hstep
        subst hstep
        exact moveSizeEnd_activeWorkAreaInvariant sys window ptScreen workAreaMap w0 hinv

/-- C29: in every state reached from an idle state by a sequence of `MoveSizeStart`,
`MoveSizeUpdate` and `MoveSizeEnd` calls that return, the null window never being a zoning
candidate, an active work area implies that a drag is in progress, that a window is tracked
and that dragging is enabled. The maps of work areas are arbitrary, so this holds in
particular for maps without an empty handle. -/
theorem activeWorkArea_invariant (fuel : Nat) (calls : List (System × DragCall))
    (w0 w : World) (hidle : IsIdle w0)
    (hnull : ∀ c ∈ calls, c.1.IsCandidateForZoning 0 = false)
    (hrun : applyDragCalls fuel w0 calls = some w) :
    w.self.m_draggedWindowWorkArea.isSome = true →
      w.self.m_inDragging = true ∧ w.self.m_draggedWindow ≠ 0 ∧ w.self.m_dragEnabled = true :=
  applyDragCalls_activeWorkAreaInvariant fuel calls w0 w
    (fun ha => by simp [hidle.2.2.2.2.1] at ha) hnull hrun

/-- Witness of C29: after the start of the drag of window 5 and an update, work area 7 is
active, the drag is in progress, window 5 is tracked and dragging is enabled. -/
theorem activeWorkArea_invariant_witness :
    (forwardMoveSizeUpdate sampleSystem ⟨3, 4⟩ [(1, some 7)]
      (MoveSizeStart sampleSystem 5 1 ⟨3, 4⟩ [(1, some 7)] idleWorld)
      ).self.m_draggedWindowWorkArea.isSome = true ∧
    (forwardMoveSizeUpdate sampleSystem ⟨3, 4⟩ [(1, some 7)]
      (MoveSizeStart sampleSystem 5 1 ⟨3, 4⟩ [(1, some 7)] idleWorld)
      ).self.m_inDragging = true ∧
    (forwardMoveSizeUpdate sampleSystem ⟨3, 4⟩ [(1, some 7)]
      (MoveSizeStart sampleSystem 5 1 ⟨3, 4⟩ [(1, some 7)] idleWorld)
      ).self.m_draggedWindow ≠ 0 ∧
    (forwardMoveSizeUpdate sampleSystem ⟨3, 4⟩ [(1, some 7)]
      (MoveSizeStart sampleSystem 5 1 ⟨3, 4⟩ [(1, some 7)] idleWorld)
      ).self.m_dragEnabled = true :=
  ⟨by decide,
    activeWorkArea_invariant 1
      [(sampleSystem, DragCall.moveSizeStart 5 1 ⟨3, 4⟩ [(1, some 7)]),
        (sampleSystem, DragCall.moveSizeUpdate 1 ⟨3, 4⟩ [(1, some 7)])]
      idleWorld _ ⟨rfl, rfl, rfl, rfl, rfl, rfl, rfl, rfl⟩
      (by
        intro c hc
        simp only [List.mem_cons, List.mem_singleton, List.not_mem_nil, or_false] at hc
        rcases hc with rfl | rfl <;> rfl)
      (by decide) (by decide)⟩


/-! ## C27 -/

/-- Saved attributes after the branch of `MoveSizeUpdate` with an active work area and
dragging still enabled: they are not touched. -/
theorem moveSizeUpdate_enabled_properties (fuel : Nat) (sys : System) (monitor : HMONITOR)
    (ptScreen : POINT) (workAreaMap : PerDesktopData) (w : World) (active : Nat)
    (iterSecond : WorkAreaPtr) (hdragging : w.self.m_inDragging = true)
    (hactive : w.self.m_draggedWindowWorkArea = some active)
    (hdecision : (UpdateDragState sys.settings sys.shiftKeyState w.self).m_dragEnabled = true)
    (hfind : mapFind workAreaMap monitor = some iterSecond) :
    ∃ w', MoveSizeUpdate (fuel + 1) sys monitor ptScreen workAreaMap w = some w' ∧
      w'.self.m_windowTransparencyProperties = w.self.m_windowTransparencyProperties := by
  have hd := hdecision
  rw [(updateDragState_frame _ _ _).1] at hd
  unfold MoveSizeUpdate
  simp only [hdragging, Bool.not_true, Bool.false_eq_true, if_false, updateDragState_frame,
    hactive, Option.isSome_some, if_true, hd, hfind, forwardMoveSizeUpdate_eq]
  by_cases hsame : iterSecond = some active
  · subst hsame
    refine ⟨_, rfl, ?_⟩
    simp [updateDragState_frame, hd, hactive, hdragging]
  · have hne : (iterSecond != some active) = true := by simpa using hsame
    refine ⟨_, rfl, ?_⟩
    cases hshow : sys.settings.showZonesOnAllMonitors <;>
      simp [hne, hsame, invoke, updateDragState_frame, hd, hactive, hshow, hdragging]

/-- Saved attributes and windows after a `MoveSizeEnd` for the tracked window. -/
theorem moveSizeEnd_transparency (sys : System) (window : HWND) (ptScreen : POINT)
    (workAreaMap : PerDesktopData) (w : World) (h : window = w.self.m_draggedWindow) :
    (MoveSizeEnd sys window ptScreen workAreaMap w).self.m_windowTransparencyProperties =
      (if w.self.m_draggedWindowWorkArea.isSome = true then
        (ResetWindowTransparency sys w).self.m_windowTransparencyProperties
      else w.self.m_windowTransparencyProperties) ∧
    (MoveSizeEnd sys window ptScreen workAreaMap w).windows =
      (if w.self.m_draggedWindowWorkArea.isSome = true then
        (ResetWindowTransparency sys w).windows
      else w.windows) := by
  unfold MoveSizeEnd
  subst h
  simp only [bne_self_eq_false, Bool.false_eq_true, if_false, hideZoneWindows_eq]
  by_cases ha : w.self.m_draggedWindowWorkArea.isSome = true
  · simp only [ha, if_true]
    split_ifs <;>
      simp [invoke, resetWindowTransparency_properties, resetWindowTransparency_windows]
  · simp only [ha, Bool.false_eq_true, if_false, perform]
    simp only [removeAppLastZone_frame]
    split_ifs <;> simp

theorem transparencyInvariant_congr (window : HWND) (original : WindowAttributes)
    (w w' : World) (h1 : w'.self.m_draggedWindow = w.self.m_draggedWindow)
    (h2 : w'.self.m_draggedWindowWorkArea = w.self.m_draggedWindowWorkArea)
    (h3 : w'.self.m_windowTransparencyProperties = w.self.m_windowTransparencyProperties)
    (h4 : w'.windows = w.windows)
    (hinv : TransparencyInvariant window original w) :
    TransparencyInvariant window original w' := by
  unfold TransparencyInvariant at *
  rw [h1, h2, h3, h4]
  exact hinv

theorem restored_attributes (original : WindowAttributes) (saved : LayeredWindowAttributes)
    (hlayered : hasLayeredStyle original.exstyle = original.layered.isSome)
    (hsaved : hasLayeredStyle original.exstyle = true → original.layered = some saved) :
    (⟨original.exstyle,
      if hasLayeredStyle original.exstyle = true then some saved else none⟩ :
      WindowAttributes) = original := by
  obtain ⟨exstyle, layered⟩ := original
  cases layered <;> simp_all

/-- `ResetWindowTransparency` on a window that was made transparent gives the window its
original attributes back and empties the snapshot, when the window had layered attributes
exactly if it had the style `WS_EX_LAYERED`. -/
theorem resetWindowTransparency_restores (sys : System) (w : World) (window : HWND)
    (original : WindowAttributes) (hwindow : window ≠ 0)
    (htransparent : sys.settings.makeDraggedWindowTransparent = true)
    (hlayered : hasLayeredStyle original.exstyle = original.layered.isSome)
    (hsnapshot : w.self.m_windowTransparencyProperties.draggedWindow = window)
    (hexstyle : w.self.m_windowTransparencyProperties.draggedWindowExstyle = original.exstyle)
    (hcurrent : hasLayeredStyle (getWindowAttributes w.windows window).exstyle = true)
    (hsaved : hasLayeredStyle original.exstyle = true →
      original.layered =
        some ⟨w.self.m_windowTransparencyProperties.draggedWindowCrKey,
          w.self.m_windowTransparencyProperties.draggedWindowInitialAlpha,
          w.self.m_windowTransparencyProperties.draggedWindowDwFlags⟩) :
    (ResetWindowTransparency sys w).self.m_windowTransparencyProperties.draggedWindow = 0 ∧
    getWindowAttributes (ResetWindowTransparency sys w).windows window = original := by
  have hreset : (sys.settings.makeDraggedWindowTransparent &&
      w.self.m_windowTransparencyProperties.draggedWindow != 0) = true := by
    simp [htransparent, hsnapshot, hwindow]
  rw [resetWindowTransparency_properties, resetWindowTransparency_windows, if_pos hreset,
    if_pos hreset, hsnapshot, getWindowAttributes_mapAssign, hexstyle, hcurrent]
  refine ⟨rfl, ?_⟩
  simp only [if_true]
  exact restored_attributes original _ hlayered hsaved

theorem moveSizeStart_transparencyInvariant (sys : System) (started : HWND)
    (monitor : HMONITOR) (ptScreen : POINT) (workAreaMap : PerDesktopData) (w : World)
    (window : HWND) (original : WindowAttributes)
    (hlayered : hasLayeredStyle original.exstyle = original.layered.isSome)
    (htransparent : sys.settings.makeDraggedWindowTransparent = true)
    (hmap : NoEmptyHandle workAreaMap)
    (hstarted : started = window ∨ (started = 0 ∧ sys.IsCandidateForZoning 0 = false))
    (hactive : w.self.m_draggedWindowWorkArea = none)
    (hinv : TransparencyInvariant window original w) :
    TransparencyInvariant window original
      (MoveSizeStart sys started monitor ptScreen workAreaMap w) := by
  cases h : (!sys.IsCandidateForZoning started || IsCursorTypeIndicatingSizeEvent sys) with
  | true =>
    rw [moveSizeStart_ignored sys started monitor ptScreen workAreaMap w h]
    exact hinv
  | false =>
    rcases hstarted with hs | ⟨hs, hnull⟩
    swap
    · subst hs
      simp [hnull] at h
    subst hs
    cases hfind : mapFind workAreaMap monitor with
    | none =>
      rw [moveSizeStart_no_monitor sys started monitor ptScreen workAreaMap w h hfind]
      exact transparencyInvariant_congr started original w _ rfl rfl rfl rfl hinv
    | some iterSecond =>
      have hf := moveSizeStart_fields sys started monitor ptScreen workAreaMap w iterSecond
        h hfind
      have ht := moveSizeStart_transparency sys started monitor ptScreen workAreaMap w
        iterSecond h hfind hactive
      have hsome := noEmptyHandle_mapFind workAreaMap monitor iterSecond hmap hfind
      unfold TransparencyInvariant at hinv ⊢
      obtain ⟨_, hcase⟩ := hinv
      rcases hcase with ⟨_, hsnapshot, hattributes⟩ | ⟨ha, _⟩
      swap
      · simp [hactive] at ha
      refine ⟨Or.inl hf.2.1, ?_⟩
      by_cases hcond : (!(!sys.is_process_elevated && sys.IsProcessOfWindowElevated started) &&
          (UpdateDragState sys.settings sys.shiftKeyState w.self).m_dragEnabled) = true
      · right
        rw [ht.1, ht.2, if_pos hcond, if_pos hcond, setWindowTransparency_properties,
          setWindowTransparency_windows, if_pos htransparent, if_pos htransparent,
          hf.2.2.2.2.1, if_pos hcond, hf.2.1, getWindowAttributes_mapAssign, hattributes]
        refine ⟨hsome, rfl, ?_⟩
        cases hl : original.layered with
        | none =>
          refine ⟨rfl, rfl, hasLayeredStyle_lor _, ?_⟩
          intro hbit
          rw [hlayered, hl] at hbit
          cases hbit
        | some l =>
          exact ⟨rfl, rfl, hasLayeredStyle_lor _, fun _ => rfl⟩
      · left
        rw [ht.1, ht.2, if_neg hcond, if_neg hcond, hf.2.2.2.2.1, if_neg hcond]
        exact ⟨rfl, hsnapshot, hattributes⟩

theorem moveSizeEnd_transparencyInvariant (sys : System) (ptScreen : POINT)
    (workAreaMap : PerDesktopData) (w : World) (window : HWND)
    (original : WindowAttributes) (hwindow : window ≠ 0)
    (hlayered : hasLayeredStyle original.exstyle = original.layered.isSome)
    (htransparent : sys.settings.makeDraggedWindowTransparent = true)
    (hinv : TransparencyInvariant window original w) :
    (MoveSizeEnd sys window ptScreen workAreaMap w
      ).self.m_windowTransparencyProperties.draggedWindow = 0 ∧
    getWindowAttributes (MoveSizeEnd sys window ptScreen workAreaMap w).windows window =
      original := by
  by_cases h : window = w.self.m_draggedWindow
  · have ht := moveSizeEnd_transparency sys window ptScreen workAreaMap w h
    obtain ⟨_, hcase⟩ := hinv
    rcases hcase with ⟨ha, hsnapshot, hattributes⟩ |
      ⟨ha, _, hsnapshot, hexstyle, hcurrent, hsaved⟩
    · have hnot : ¬ w.self.m_draggedWindowWorkArea.isSome = true := by simp [ha]
      rw [ht.1, ht.2, if_neg hnot, if_neg hnot]
      exact ⟨hsnapshot, hattributes⟩
    · rw [ht.1, ht.2, if_pos ha, if_pos ha]
      exact resetWindowTransparency_restores sys w window original hwindow htransparent
        hlayered hsnapshot hexstyle hcurrent hsaved
  · rw [moveSizeEnd_ignored sys window ptScreen workAreaMap w h]
    obtain ⟨_, hcase⟩ := hinv
    rcases hcase with ⟨_, hsnapshot, hattributes⟩ | ⟨_, hd, _⟩
    · exact ⟨hsnapshot, hattributes⟩
    · exact absurd hd.symm h

theorem moveSizeUpdate_transparencyInvariant (sys : System) (monitor : HMONITOR)
    (ptScreen : POINT) (workAreaMap : PerDesktopData) (window : HWND)
    (original : WindowAttributes) (hwindow : window ≠ 0)
    (hlayered : hasLayeredStyle original.exstyle = original.layered.isSome)
    (htransparent : sys.settings.makeDraggedWindowTransparent = true)
    (hnull : sys.IsCandidateForZoning 0 = false) (hmap : NoEmptyHandle workAreaMap)
    (fuel : Nat) :
    ∀ w w' : World, TransparencyInvariant window original w →
      MoveSizeUpdate fuel sys monitor ptScreen workAreaMap w = some w' →
      TransparencyInvariant window original w' := by
  induction fuel with
  | zero =>
    intro w w' _ hrun
    simp [MoveSizeUpdate] at hrun
  | succ fuel ih =>
    intro w w' hinv hrun
    have hrecomputed : TransparencyInvariant window original
        { w with self := UpdateDragState sys.settings sys.shiftKeyState w.self } :=
      transparencyInvariant_congr window original w _
        (by simp [updateDragState_frame]) (by simp [updateDragState_frame])
        (by simp [updateDragState_frame]) rfl hinv
    cases hdragging : w.self.m_inDragging with
    | false =>
      rw [moveSizeUpdate_not_dragging fuel sys monitor ptScreen workAreaMap w hdragging]
        at hrun
      cases hrun
      exact hinv
    | true =>
      cases hactive : w.self.m_draggedWindowWorkArea with
      | none =>
        cases hdecision : (UpdateDragState sys.settings sys.shiftKeyState w.self).m_dragEnabled
          with
        | false =>
          rw [moveSizeUpdate_recompute_only fuel sys monitor ptScreen workAreaMap w hdragging
            (Or.inl ⟨hactive, hdecision⟩)] at hrun
          cases hrun
          exact hrecomputed
        | true =>
          have hstart := moveSizeStart_transparencyInvariant sys w.self.m_draggedWindow
            monitor ptScreen workAreaMap
            { w with self := UpdateDragState sys.settings sys.shiftKeyState w.self }
            window original hlayered htransparent hmap
            (hinv.1.imp id (fun h0 => ⟨h0, hnull⟩))
            (by simp [updateDragState_frame, hactive]) hrecomputed
          rw [moveSizeUpdate_restart fuel sys monitor ptScreen workAreaMap w hdragging hactive
            hdecision] at hrun
          split at hrun
          · exact ih _ _ hstart hrun
          · cases hrun
            exact hstart
      | some active =>
        have hsome : w.self.m_draggedWindowWorkArea.isSome = true := by simp [hactive]
        have happlied := hinv.2.resolve_left (fun hnot => by simp [hactive] at hnot)
        obtain ⟨_, hd, hsnapshot, hexstyle, hcurrent, hsaved⟩ := happlied
        cases hdecision : (UpdateDragState sys.settings sys.shiftKeyState w.self).m_dragEnabled
          with
        | false =>
          rw [moveSizeUpdate_disabled_eq fuel sys monitor ptScreen workAreaMap w hdragging
            hsome hdecision] at hrun
          cases hrun
          have hrestored := resetWindowTransparency_restores sys
            { w with self := { UpdateDragState sys.settings sys.shiftKeyState w.self with
              m_draggedWindowWorkArea := none } } window original hwindow htransparent
            hlayered (by simpa [updateDragState_frame] using hsnapshot)
            (by simpa [updateDragState_frame] using hexstyle) hcurrent
            (by simpa [updateDragState_frame] using hsaved)
          unfold TransparencyInvariant
          refine ⟨Or.inl ?_, Or.inl ⟨?_, ?_, ?_⟩⟩
          · simp [hideZoneWindows_eq, resetWindowTransparency_frame, updateDragState_frame,
              hd]
          · simp [hideZoneWindows_eq, resetWindowTransparency_frame]
          · simpa [hideZoneWindows_eq] using hrestored.1
          · simpa [hideZoneWindows_eq] using hrestored.2
        | true =>
          cases hfind : mapFind workAreaMap monitor with
          | none =>
            rw [moveSizeUpdate_recompute_only fuel sys monitor ptScreen workAreaMap w
              hdragging (Or.inr ⟨hsome, hdecision, hfind⟩)] at hrun
            cases hrun
            exact hrecomputed
          | some iterSecond =>
            obtain ⟨w1, hrun1, _, hact1, _, _, hwin1, _, _, _, hwindows1⟩ :=
              moveSizeUpdate_enabled fuel sys monitor ptScreen workAreaMap w active
                iterSecond hdragging hactive hdecision hfind
            obtain ⟨w2, hrun2, hprops⟩ := moveSizeUpdate_enabled_properties fuel
              sys monitor ptScreen workAreaMap w active iterSecond hdragging hactive hdecision
              hfind
            rw [hrun2] at hrun1
            cases hrun1
            rw [hrun2] at hrun
            cases hrun
            have hsome' := noEmptyHandle_mapFind workAreaMap monitor iterSecond hmap hfind
            unfold TransparencyInvariant
            rw [hprops, hwin1, hact1, hwindows1]
            exact ⟨Or.inl hd, Or.inr ⟨hsome', hd, hsnapshot, hexstyle, hcurrent, hsaved⟩⟩

theorem applyDragCalls_transparencyInvariant (fuel : Nat) (window : HWND)
    (original : WindowAttributes) (hwindow : window ≠ 0)
    (hlayered : hasLayeredStyle original.exstyle = original.layered.isSome)
    (updates : List (System × DragCall)) :
    ∀ w w' : World, TransparencyInvariant window original w →
      (∀ c ∈ updates, c.2.isMoveSizeUpdate = true ∧
        c.1.settings.makeDraggedWindowTransparent = true ∧
        c.1.IsCandidateForZoning 0 = false ∧ NoEmptyHandle (dragCallMap c.2)) →
      applyDragCalls fuel w updates = some w' →
      TransparencyInvariant window original w' := by
  induction updates with
  | nil =>
    intro w w' hinv _ hrun
    simp only [applyDragCalls, Option.some.injEq] at hrun
    subst hrun
    exact hinv
  | cons c rest ih =>
    intro w w' hinv hupdates hrun
    obtain ⟨sys, call⟩ := c
    obtain ⟨hcall, htransparent, hnull, hmap⟩ := hupdates (sys, call) (by simp)
    have hrest := fun c hc => hupdates c (List.mem_cons_of_mem _ hc)
    simp only [applyDragCalls] at hrun
    cases hstep : applyDragCall fuel w sys call with
    | none => simp [hstep] at hrun
    | some w1 =>
      simp only [hstep] at hrun
      refine ih w1 w' ?_ hrest hrun
      cases call with
      | moveSizeStart _ _ _ _ => simp [DragCall.isMoveSizeUpdate] at hcall
      | moveSizeEnd _ _ _ => simp [DragCall.isMoveSizeUpdate] at hcall
      | moveSizeUpdate monitor ptScreen workAreaMap =>
        simp only [applyDragCall] at hstep
        exact moveSizeUpdate_transparencyInvariant sys monitor ptScreen workAreaMap window
          original hwindow hlayered htransparent hnull hmap fuel w w1 hinv hstep

/-- The transparency round trip of a window that has layered attributes exactly when it
has the style `WS_EX_LAYERED`: take a drag of the window `window` (not the null window) that
starts from an idle session with an empty snapshot, `MoveSizeStart(window)`, then
`MoveSizeUpdate` calls that return, then `MoveSizeEnd(window)`, with
`makeDraggedWindowTransparent` on in every call, maps without empty handles and the null
window never a zoning candidate during the updates. After the start and every update the
snapshot is non-empty only while a work area is active; after `MoveSizeEnd` the window has
the extended style and the layered attributes it had before the start, and the snapshot is
empty. -/
theorem transparency_round_trip (fuel : Nat) (window : HWND) (sysStart : System)
    (monitor : HMONITOR) (ptStart : POINT) (mapStart : PerDesktopData)
    (updates : List (System × DragCall)) (sysEnd : System) (ptEnd : POINT)
    (mapEnd : PerDesktopData) (w0 wDrag : World)
    (hwindow : window ≠ 0) (hidle : IsIdle w0)
    (hempty : w0.self.m_windowTransparencyProperties.draggedWindow = 0)
    (hlayered : hasLayeredStyle (getWindowAttributes w0.windows window).exstyle =
      (getWindowAttributes w0.windows window).layered.isSome)
    (hstart : sysStart.settings.makeDraggedWindowTransparent = true ∧ NoEmptyHandle mapStart)
    (hupdates : ∀ c ∈ updates, c.2.isMoveSizeUpdate = true ∧
      c.1.settings.makeDraggedWindowTransparent = true ∧
      c.1.IsCandidateForZoning 0 = false ∧ NoEmptyHandle (dragCallMap c.2))
    (hend : sysEnd.settings.makeDraggedWindowTransparent = true)
    (hdrag : applyDragCalls fuel w0
      ((sysStart, DragCall.moveSizeStart window monitor ptStart mapStart) :: updates)
      = some wDrag) :
    (wDrag.self.m_windowTransparencyProperties.draggedWindow ≠ 0 →
      wDrag.self.m_draggedWindowWorkArea.isSome = true) ∧
    getWindowAttributes (MoveSizeEnd sysEnd window ptEnd mapEnd wDrag).windows window =
      getWindowAttributes w0.windows window ∧
    (MoveSizeEnd sysEnd window ptEnd mapEnd wDrag
      ).self.m_windowTransparencyProperties.draggedWindow = 0 := by
  have hinv0 : TransparencyInvariant window (getWindowAttributes w0.windows window) w0 :=
    ⟨Or.inr hidle.2.2.2.1, Or.inl ⟨hidle.2.2.2.2.1, hempty, rfl⟩⟩
  have hinv1 := moveSizeStart_transparencyInvariant sysStart window monitor ptStart mapStart
    w0 window _ hlayered hstart.1 hstart.2 (Or.inl rfl) hidle.2.2.2.2.1 hinv0
  simp only [applyDragCalls, applyDragCall] at hdrag
  have hinvDrag := applyDragCalls_transparencyInvariant fuel window _ hwindow hlayered
    updates _ wDrag hinv1 hupdates hdrag
  obtain ⟨hsnapshot, hattributes⟩ := moveSizeEnd_transparencyInvariant sysEnd ptEnd mapEnd
    wDrag window _ hwindow hlayered hend hinvDrag
  refine ⟨?_, hattributes, hsnapshot⟩
  intro hne
  rcases hinvDrag.2 with ⟨_, h2, _⟩ | ⟨ha, _⟩
  · exact absurd h2 hne
  · exact ha

/-- Window 5 with extended style `WS_EX_LAYERED ||| 8` and layered attributes `(1, 200, 2)`
is dragged on work area 7; dragging is toggled off by the first update and on again by the
second; after `MoveSizeEnd` the window has its attributes back and the snapshot is
empty. -/
theorem transparency_round_trip_witness :
    getWindowAttributes
      (MoveSizeEnd transparentSystem 5 ⟨3, 4⟩ [(1, some 7)]
        ((applyDragCalls 2
          { idleWorld with windows := [(5, ⟨WS_EX_LAYERED ||| 8, some ⟨1, 200, 2⟩⟩)] }
          [(transparentSystem, DragCall.moveSizeStart 5 1 ⟨3, 4⟩ [(1, some 7)]),
            ({ transparentSystem with shiftKeyState := true },
              DragCall.moveSizeUpdate 1 ⟨3, 4⟩ [(1, some 7)]),
            (transparentSystem, DragCall.moveSizeUpdate 1 ⟨3, 4⟩ [(1, some 7)])]).getD
          idleWorld)).windows 5 = ⟨WS_EX_LAYERED ||| 8, some ⟨1, 200, 2⟩⟩ ∧
    (MoveSizeEnd transparentSystem 5 ⟨3, 4⟩ [(1, some 7)]
        ((applyDragCalls 2
          { idleWorld with windows := [(5, ⟨WS_EX_LAYERED ||| 8, some ⟨1, 200, 2⟩⟩)] }
          [(transparentSystem, DragCall.moveSizeStart 5 1 ⟨3, 4⟩ [(1, some 7)]),
            ({ transparentSystem with shiftKeyState := true },
              DragCall.moveSizeUpdate 1 ⟨3, 4⟩ [(1, some 7)]),
            (transparentSystem, DragCall.moveSizeUpdate 1 ⟨3, 4⟩ [(1, some 7)])]).getD
          idleWorld)).self.m_windowTransparencyProperties.draggedWindow = 0 :=
  (transparency_round_trip 2 5 transparentSystem 1 ⟨3, 4⟩ [(1, some 7)]
      [({ transparentSystem with shiftKeyState := true },
          DragCall.moveSizeUpdate 1 ⟨3, 4⟩ [(1, some 7)]),
        (transparentSystem, DragCall.moveSizeUpdate 1 ⟨3, 4⟩ [(1, some 7)])]
      transparentSystem ⟨3, 4⟩ [(1, some 7)]
      { idleWorld with windows := [(5, ⟨WS_EX_LAYERED ||| 8, some ⟨1, 200, 2⟩⟩)] }
      ((applyDragCalls 2
        { idleWorld with windows := [(5, ⟨WS_EX_LAYERED ||| 8, some ⟨1, 200, 2⟩⟩)] }
        [(transparentSystem, DragCall.moveSizeStart 5 1 ⟨3, 4⟩ [(1, some 7)]),
          ({ transparentSystem with shiftKeyState := true },
            DragCall.moveSizeUpdate 1 ⟨3, 4⟩ [(1, some 7)]),
          (transparentSystem, DragCall.moveSizeUpdate 1 ⟨3, 4⟩ [(1, some 7)])]).getD
        idleWorld)
      (by decide) ⟨rfl, rfl, rfl, rfl, rfl, rfl, rfl, rfl⟩ rfl (by decide)
      ⟨rfl, by unfold NoEmptyHandle; decide⟩
      (by
        intro c hc
        simp only [List.mem_cons, List.mem_singleton, List.not_mem_nil, or_false] at hc
        rcases hc with rfl | rfl <;>
          exact ⟨rfl, rfl, rfl, by unfold NoEmptyHandle dragCallMap; decide⟩)
      rfl (by decide)).2

/-- C27: the round trip fails for a window that has the style `WS_EX_LAYERED` but no
layered attributes to read. Window 5 is such a window; `MoveSizeStart(5)` with dragging
enabled makes work area 7 active, the read of the layered attributes fails and leaves the
snapshot members as they were, and `MoveSizeEnd(5)` writes them to the window: from the
idle session it ends with the layered attributes `(0, 0, 0)`, and after a drag of window 6,
whose layered attributes are `(1, 200, 2)`, it ends with those of window 6. -/
theorem transparency_round_trip_stale_attributes :
    IsIdle { idleWorld with windows := [(5, ⟨WS_EX_LAYERED, none⟩)] } ∧
    idleWorld.self.m_windowTransparencyProperties.draggedWindow = 0 ∧
    hasLayeredStyle WS_EX_LAYERED = true ∧
    GetLayeredWindowAttributes [(5, ⟨WS_EX_LAYERED, none⟩)] 5 = none ∧
    (MoveSizeStart transparentSystem 5 1 ⟨3, 4⟩ [(1, some 7)]
      { idleWorld with windows := [(5, ⟨WS_EX_LAYERED, none⟩)] }
      ).self.m_draggedWindowWorkArea = some 7 ∧
    getWindowAttributes
      (MoveSizeEnd transparentSystem 5 ⟨3, 4⟩ [(1, some 7)]
        (MoveSizeStart transparentSystem 5 1 ⟨3, 4⟩ [(1, some 7)]
          { idleWorld with windows := [(5, ⟨WS_EX_LAYERED, none⟩)] })).windows 5 =
      ⟨WS_EX_LAYERED, some ⟨0, 0, 0⟩⟩ ∧
    getWindowAttributes
      (MoveSizeEnd transparentSystem 5 ⟨3, 4⟩ [(1, some 7)]
        (MoveSizeStart transparentSystem 5 1 ⟨3, 4⟩ [(1, some 7)]
          (MoveSizeEnd transparentSystem 6 ⟨3, 4⟩ [(1, some 7)]
            (MoveSizeStart transparentSystem 6 1 ⟨3, 4⟩ [(1, some 7)]
              { idleWorld with
                windows := [(5, ⟨WS_EX_LAYERED, none⟩),
                  (6, ⟨WS_EX_LAYERED, some ⟨1, 200, 2⟩⟩)] })))).windows 5 =
      ⟨WS_EX_LAYERED, some ⟨1, 200, 2⟩⟩ := by
  refine ⟨⟨rfl, rfl, rfl, rfl, rfl, rfl, rfl, rfl⟩, by decide, by decide, by decide,
    by decide, by decide, by decide⟩

/-! ## C22, the half that holds -/

theorem moveSizeStart_trackedWindowInvariant (sys : System) (window : HWND)
    (monitor : HMONITOR) (ptScreen : POINT) (workAreaMap : PerDesktopData) (w : World)
    (hinv : TrackedWindowInvariant w) :
    TrackedWindowInvariant (MoveSizeStart sys window monitor ptScreen workAreaMap w) := by
  cases h : (!sys.IsCandidateForZoning window || IsCursorTypeIndicatingSizeEvent sys) with
  | true =>
    rw [moveSizeStart_ignored sys window monitor ptScreen workAreaMap w h]
    exact hinv
  | false =>
    cases hfind : mapFind workAreaMap monitor with
    | none =>
      rw [moveSizeStart_no_monitor sys window monitor ptScreen workAreaMap w h hfind]
      intro _
      rfl
    | some iterSecond =>
      intro _
      exact (moveSizeStart_fields sys window monitor ptScreen workAreaMap w iterSecond
        h hfind).1

theorem moveSizeUpdate_trackedWindowInvariant (sys : System) (monitor : HMONITOR)
    (ptScreen : POINT) (workAreaMap : PerDesktopData) (fuel : Nat) :
    ∀ w w' : World, TrackedWindowInvariant w →
      MoveSizeUpdate fuel sys monitor ptScreen workAreaMap w = some w' →
      TrackedWindowInvariant w' := by
  induction fuel with
  | zero =>
    intro w w' _ hrun
    simp [MoveSizeUpdate] at hrun
  | succ fuel ih =>
    intro w w' hinv hrun
    cases hdragging : w.self.m_inDragging with
    | false =>
      rw [moveSizeUpdate_not_dragging fuel sys monitor ptScreen workAreaMap w hdragging]
        at hrun
      cases hrun
      exact hinv
    | true =>
      have hrecomputed : TrackedWindowInvariant
          { w with self := UpdateDragState sys.settings sys.shiftKeyState w.self } := by
        intro _
        simp [updateDragState_frame, hdragging]
      cases hactive : w.self.m_draggedWindowWorkArea with
      | none =>
        cases hdecision : (UpdateDragState sys.settings sys.shiftKeyState w.self).m_dragEnabled
          with
        | false =>
          rw [moveSizeUpdate_recompute_only fuel sys monitor ptScreen workAreaMap w hdragging
            (Or.inl ⟨hactive, hdecision⟩)] at hrun
          cases hrun
          exact hrecomputed
        | true =>
          have hstart := moveSizeStart_trackedWindowInvariant sys w.self.m_draggedWindow
            monitor ptScreen workAreaMap _ hrecomputed
          rw [moveSizeUpdate_restart fuel sys monitor ptScreen workAreaMap w hdragging hactive
            hdecision] at hrun
          split at hrun
          · exact ih _ _ hstart hrun
          · cases hrun
            exact hstart
      | some active =>
        have hsome : w.self.m_draggedWindowWorkArea.isSome = true := by simp [hactive]
        cases hdecision : (UpdateDragState sys.settings sys.shiftKeyState w.self).m_dragEnabled
          with
        | false =>
          obtain ⟨w'', hrun', _, _, hdrag', _⟩ := moveSizeUpdate_disabled fuel sys monitor
            ptScreen workAreaMap w hdragging hsome hdecision
          rw [hrun'] at hrun
          cases hrun
          intro _
          exact hdrag'
        | true =>
          cases hfind : mapFind workAreaMap monitor with
          | none =>
            rw [moveSizeUpdate_recompute_only fuel sys monitor ptScreen workAreaMap w
              hdragging (Or.inr ⟨hsome, hdecision, hfind⟩)] at hrun
            cases hrun
            exact hrecomputed
          | some iterSecond =>
            obtain ⟨w'', hrun', _, _, hdrag', _⟩ := moveSizeUpdate_enabled fuel
              sys monitor ptScreen workAreaMap w active iterSecond hdragging hactive hdecision
              hfind
            rw [hrun'] at hrun
            cases hrun
            intro _
            exact hdrag'

/-- One half of the session invariant holds in every state reached from an idle state: a
tracked window implies a drag in progress. -/
theorem trackedWindow_invariant (fuel : Nat) (calls : List (System × DragCall)) :
    ∀ w0 w : World, TrackedWindowInvariant w0 →
      applyDragCalls fuel w0 calls = some w → TrackedWindowInvariant w := by
  induction calls with
  | nil =>
    intro w0 w hinv hrun
    simp only [applyDragCalls, Option.some.injEq] at hrun
    subst hrun
    exact hinv
  | cons c rest ih =>
    intro w0 w hinv hrun
    obtain ⟨sys, call⟩ := c
    simp only [applyDragCalls] at hrun
    cases hstep : applyDragCall fuel w0 sys call with
    | none => simp [hstep] at hrun
    | some w1 =>
      simp only [hstep] at hrun
      refine ih w1 w ?_ hrun
      cases call with
      | moveSizeStart window monitor ptScreen workAreaMap =>
        simp only [applyDragCall, Option.some.injEq] at hstep
        subst hstep
        exact moveSizeStart_trackedWindowInvariant sys window monitor ptScreen workAreaMap
          w0 hinv
      | moveSizeUpdate monitor ptScreen workAreaMap =>
        simp only [applyDragCall] at hstep
        exact moveSizeUpdate_trackedWindowInvariant sys monitor ptScreen workAreaMap
          fuel w0 w1 hinv hstep
      | moveSizeEnd window ptScreen workAreaMap =>
        simp only [applyDragCall, Option.some.injEq] at hstep
        subst hstep
        by_cases h : window = w0.self.m_draggedWindow
        · intro hne
          exact absurd (moveSizeEnd_fields sys window ptScreen workAreaMap w0 h).2.2.2.1 hne
        · rw [moveSizeEnd_ignored sys window ptScreen workAreaMap w0 h]
          exact hinv

end FancyZones
